import Mathlib

/-
Verification of the Firecrawl branding pipeline (signal collection,
heuristic inference, merge) against its specification.

Modelling conventions, used throughout:
 * JS numbers are modelled as exact rationals (`ℚ`); `Math.round` is
   `jsRound` (round half toward +∞), `Math.floor`/`%` on rounded values
   use `Int` arithmetic (all relevant dividends are nonnegative).
 * JS strings are Lean `String`s; `.toLowerCase`/`.toUpperCase` are the
   ASCII maps (`Char.toLower`/`Char.toUpper`), `.trim` and `/\s+/` use the
   ASCII whitespace class.
 * Falsiness of JS values is modelled explicitly: a missing value is
   `none`, and the empty string is falsy where the code tests truthiness.
 * `Array.prototype.sort` (stable since ES2019) is modelled by stable
   insertion sort (`List.insertionSort`), which reproduces the stable
   order for the comparators used by the code.
 * `Math.log10` (floating point in JS) is an abstract parameter
   `log10 : ℚ → ℚ`; number→string conversion for non-integral values is
   an abstract parameter `numToStr : ℚ → String`; the culori library's
   `parse`/`rgb` composition (an external dependency of processor.ts) is
   an abstract parameter `parse : String → Option (ℚ × ℚ × ℚ × ℚ)`
   returning (r, g, b, alpha) channels.  Theorems quantify over these.
 * The canvas fill-style fallback of the in-page `hexify` needs a live
   document; it is an abstract parameter `canvas : String → Option String`
   (the serialized fill style, `none` when no 2d context is available).
-/

namespace JsPrim

/-- JS `Math.round`: round half toward positive infinity. -/
def jsRound (q : ℚ) : ℤ := ⌊q + 1 / 2⌋

/-- `clamp` from the branding script: `Math.max(mn, Math.min(mx, n))`. -/
def clamp (n mn mx : ℤ) : ℤ := max mn (min mx n)

/-- Character class `[0-9]` (JS `\d`). -/
def isDigitCh (c : Char) : Bool := decide (48 ≤ c.toNat ∧ c.toNat ≤ 57)

/-- Character class `[\d.]`. -/
def isDotDigitCh (c : Char) : Bool := isDigitCh c || decide (c.toNat = 46)

/-- ASCII fragment of the JS `\s` class (space, tab, LF, VT, FF, CR). -/
def isWSCh (c : Char) : Bool :=
  decide (c.toNat = 32 ∨ c.toNat = 9 ∨ c.toNat = 10 ∨ c.toNat = 13 ∨ c.toNat = 11 ∨ c.toNat = 12)

/-- Character class `[0-9a-fA-F]` (the body of `/^#([0-9a-f]{3,8})$/i`). -/
def isHexDigitCI (c : Char) : Bool :=
  isDigitCh c || decide ((97 ≤ c.toNat ∧ c.toNat ≤ 102) ∨ (65 ≤ c.toNat ∧ c.toNat ≤ 70))

/-- Decimal digit character. -/
def digitCh (n : ℕ) : Char := Char.ofNat (48 + n)

/-- Hexadecimal digit character, lowercase (as produced by JS `toString(16)`). -/
def hexDigitCh (n : ℕ) : Char := if n < 10 then Char.ofNat (48 + n) else Char.ofNat (87 + n)

/-- Fuel-based digit rendering (structural recursion so that the kernel can
evaluate it; `natDec` supplies sufficient fuel). -/
def natDecAux : ℕ → ℕ → List Char
  | 0, _ => []
  | fuel + 1, n => if n < 10 then [digitCh n] else natDecAux fuel (n / 10) ++ [digitCh (n % 10)]

/-- Decimal rendering of a natural number (JS `String(n)` / template literal). -/
def natDec (n : ℕ) : List Char := natDecAux (n + 1) n

/-- Fuel-based hex digit rendering (structural recursion; `natHex` supplies
sufficient fuel). -/
def natHexAux : ℕ → ℕ → List Char
  | 0, _ => []
  | fuel + 1, n => if n < 16 then [hexDigitCh n] else natHexAux fuel (n / 16) ++ [hexDigitCh (n % 16)]

/-- Hexadecimal rendering of a natural number (JS `n.toString(16)`), lowercase. -/
def natHex (n : ℕ) : List Char := natHexAux (n + 1) n

/-- Decimal rendering of an integer (JS template literal on an integral number). -/
def intDec (i : ℤ) : List Char := if i < 0 then '-' :: natDec i.natAbs else natDec i.toNat

/-- JS `String.prototype.padStart(2, "0")`. -/
def padStart2 (l : List Char) : List Char := List.replicate (2 - l.length) '0' ++ l

/-- Numeric value of a list of decimal digit characters (JS `parseInt(d, 10)`
on an all-digit string). -/
def digitsVal (l : List Char) : ℕ := l.foldl (fun a c => 10 * a + (c.toNat - 48)) 0

/-- JS `parseFloat` on a (nonempty) run of `[\d.]` characters: longest prefix
of the form `digits[.digits]`; `none` models `NaN`. -/
def jsParseFloatDD (l : List Char) : Option ℚ :=
  let ip := l.takeWhile isDigitCh
  match l.dropWhile isDigitCh with
  | c :: rest =>
    if c.toNat = 46 then
      let fp := rest.takeWhile isDigitCh
      if ip.isEmpty && fp.isEmpty then none
      else some ((digitsVal ip : ℚ) + (digitsVal fp : ℚ) / (10 : ℚ) ^ fp.length)
    else if ip.isEmpty then none else some ((digitsVal ip : ℚ))
  | [] => if ip.isEmpty then none else some ((digitsVal ip : ℚ))

/-- JS `Number.prototype.toFixed(2)` for nonnegative values (idealized
round-half-up on the exact rational). -/
def toFixed2 (q : ℚ) : List Char :=
  let n := jsRound (q * 100)
  intDec (n / 100) ++ '.' :: padStart2 (natDec (n % 100).toNat)

/-- `x.toFixed(2)` where `x` may be `NaN` (JS renders `NaN` as "NaN"). -/
def jsToFixed2 : Option ℚ → List Char
  | some q => toFixed2 q
  | none => "NaN".data

/-- ASCII uppercase of a character list (JS `.toUpperCase()` on ASCII data). -/
def upperStr (l : List Char) : List Char := l.map Char.toUpper

/-- ASCII lowercase of a character list (JS `.toLowerCase()` on ASCII data). -/
def lowerStr (l : List Char) : List Char := l.map Char.toLower

/-- JS `String.prototype.trim` (ASCII whitespace fragment). -/
def jsTrim (s : String) : String :=
  ⟨(s.data.dropWhile isWSCh).reverse.dropWhile isWSCh |>.reverse⟩

/-- JS `a.includes(b)` on strings: substring (infix) test. -/
def jsIncludes (s pat : String) : Bool := decide (pat.data <:+: s.data)

/-- JS truthiness of an optional string: `undefined`/`null`/`""` are falsy. -/
def truthyStr : Option String → Bool
  | some s => !s.isEmpty
  | none => false

/-- JS `a || b` where `a` is an optional string (falsy: missing or empty). -/
def jsOrStr (a : Option String) (b : Option String) : Option String :=
  if truthyStr a then a else b

/-- JS `a || d` with a string default. -/
def jsOrDefault (a : Option String) (d : String) : String :=
  match a with
  | some s => if s.isEmpty then d else s
  | none => d

/-- JS `String.prototype.split(/\s+/)` (ASCII whitespace fragment): segments
between maximal whitespace runs, keeping leading/trailing empty segments.
`inWS` records that the previous character belonged to a separator run (so
the run is extended instead of emitting another segment). -/
def splitWSAux : List Char → List Char → Bool → List (List Char)
  | [], cur, inWS => if inWS then [[]] else [cur.reverse]
  | c :: rest, cur, inWS =>
    if isWSCh c then
      if inWS then splitWSAux rest [] true
      else cur.reverse :: splitWSAux rest [] true
    else splitWSAux rest (c :: cur) false

def splitWS (s : String) : List String := (splitWSAux s.data [] false).map List.asString

end JsPrim

namespace Script

open JsPrim

/-- The test `/^#([0-9a-f]{3,8})$/i.test(rgba)`. -/
def hexTest (l : List Char) : Bool :=
  match l with
  | c :: rest =>
    decide (c.toNat = 35) && rest.all isHexDigitCI &&
      decide (3 ≤ rest.length) && decide (rest.length ≤ 8)
  | [] => false

/-- The hex branch of the in-page `hexify` (expansion/uppercasing by length). -/
def hexBranch (l : List Char) : List Char :=
  if l.length = 4 then '#' :: upperStr ((l.drop 1).foldr (fun c acc => c :: c :: acc) [])
  else if l.length = 7 then upperStr l
  else if l.length = 9 then upperStr (l.take 7)
  else upperStr l

/-- Case-insensitive literal match (the literal parts of the `/i` regexes);
returns the remaining input on success. -/
def matchLitCI : List Char → List Char → Option (List Char)
  | [], rest => some rest
  | _ :: _, [] => none
  | p :: ps, c :: cs => if c.toUpper = p.toUpper then matchLitCI ps cs else none

/-- One attempt, anchored at the head of `l`, of
`/color\((?:display-p3|srgb)\s+([\d.]+)\s+([\d.]+)\s+([\d.]+)\s*\/\s*([\d.]+)/i`. -/
def colorAlphaAt (l : List Char) : Option (List Char × List Char × List Char × List Char) :=
  match matchLitCI ("color(".data) l with
  | none => none
  | some r1 =>
    let r2o := match matchLitCI ("display-p3".data) r1 with
      | some r => some r
      | none => matchLitCI ("srgb".data) r1
    match r2o with
    | none => none
    | some r2 =>
      if (r2.takeWhile isWSCh).isEmpty then none else
      let r3 := r2.dropWhile isWSCh
      let n1 := r3.takeWhile isDotDigitCh
      if n1.isEmpty then none else
      let r4 := r3.dropWhile isDotDigitCh
      if (r4.takeWhile isWSCh).isEmpty then none else
      let r5 := r4.dropWhile isWSCh
      let n2 := r5.takeWhile isDotDigitCh
      if n2.isEmpty then none else
      let r6 := r5.dropWhile isDotDigitCh
      if (r6.takeWhile isWSCh).isEmpty then none else
      let r7 := r6.dropWhile isWSCh
      let n3 := r7.takeWhile isDotDigitCh
      if n3.isEmpty then none else
      let r8 := (r7.dropWhile isDotDigitCh).dropWhile isWSCh
      match r8 with
      | c :: r9 =>
        if c.toNat = 47 then
          let n4 := (r9.dropWhile isWSCh).takeWhile isDotDigitCh
          if n4.isEmpty then none else some (n1, n2, n3, n4)
        else none
      | [] => none

/-- One attempt, anchored at the head of `l`, of
`/color\((?:display-p3|srgb)\s+([\d.]+)\s+([\d.]+)\s+([\d.]+)/i`. -/
def colorNoAlphaAt (l : List Char) : Option (List Char × List Char × List Char) :=
  match matchLitCI ("color(".data) l with
  | none => none
  | some r1 =>
    let r2o := match matchLitCI ("display-p3".data) r1 with
      | some r => some r
      | none => matchLitCI ("srgb".data) r1
    match r2o with
    | none => none
    | some r2 =>
      if (r2.takeWhile isWSCh).isEmpty then none else
      let r3 := r2.dropWhile isWSCh
      let n1 := r3.takeWhile isDotDigitCh
      if n1.isEmpty then none else
      let r4 := r3.dropWhile isDotDigitCh
      if (r4.takeWhile isWSCh).isEmpty then none else
      let r5 := r4.dropWhile isWSCh
      let n2 := r5.takeWhile isDotDigitCh
      if n2.isEmpty then none else
      let r6 := r5.dropWhile isDotDigitCh
      if (r6.takeWhile isWSCh).isEmpty then none else
      let r7 := r6.dropWhile isWSCh
      let n3 := r7.takeWhile isDotDigitCh
      if n3.isEmpty then none else some (n1, n2, n3)

/-- Unanchored regex search (`String.prototype.match` tries each start
position left to right). -/
def scanOption {β : Type} (f : List Char → Option β) : List Char → Option β
  | [] => f []
  | c :: cs =>
    match f (c :: cs) with
    | some r => some r
    | none => scanOption f cs

/-- `/^rgba?\((\d+),\s*(\d+),\s*(\d+),\s*([\d.]+)/i`, anchored. -/
def rgbaHeadAt (l : List Char) : Option (List Char × List Char × List Char × List Char) :=
  match matchLitCI ("rgb".data) l with
  | none => none
  | some r1 =>
    let r2 := match r1 with
      | c :: cs => if c.toUpper = 'A' then cs else r1
      | [] => r1
    match r2 with
    | c :: r3 =>
      if c.toNat = 40 then
        let d1 := r3.takeWhile isDigitCh
        if d1.isEmpty then none else
        match r3.dropWhile isDigitCh with
        | c2 :: r4 =>
          if c2.toNat = 44 then
            let r5 := r4.dropWhile isWSCh
            let d2 := r5.takeWhile isDigitCh
            if d2.isEmpty then none else
            match r5.dropWhile isDigitCh with
            | c3 :: r6 =>
              if c3.toNat = 44 then
                let r7 := r6.dropWhile isWSCh
                let d3 := r7.takeWhile isDigitCh
                if d3.isEmpty then none else
                match r7.dropWhile isDigitCh with
                | c4 :: r8 =>
                  if c4.toNat = 44 then
                    let r9 := r8.dropWhile isWSCh
                    let a := r9.takeWhile isDotDigitCh
                    if a.isEmpty then none else some (d1, d2, d3, a)
                  else none
                | [] => none
              else none
            | [] => none
          else none
        | [] => none
      else none
    | [] => none

/-- `/^rgba?\((\d+),\s*(\d+),\s*(\d+)/i`, anchored. -/
def directHeadAt (l : List Char) : Option (List Char × List Char × List Char) :=
  match matchLitCI ("rgb".data) l with
  | none => none
  | some r1 =>
    let r2 := match r1 with
      | c :: cs => if c.toUpper = 'A' then cs else r1
      | [] => r1
    match r2 with
    | c :: r3 =>
      if c.toNat = 40 then
        let d1 := r3.takeWhile isDigitCh
        if d1.isEmpty then none else
        match r3.dropWhile isDigitCh with
        | c2 :: r4 =>
          if c2.toNat = 44 then
            let r5 := r4.dropWhile isWSCh
            let d2 := r5.takeWhile isDigitCh
            if d2.isEmpty then none else
            match r5.dropWhile isDigitCh with
            | c3 :: r6 =>
              if c3.toNat = 44 then
                let r7 := r6.dropWhile isWSCh
                let d3 := r7.takeWhile isDigitCh
                if d3.isEmpty then none else some (d1, d2, d3)
              else none
            | [] => none
          else none
        | [] => none
      else none
    | [] => none

/-- A channel of the `color()` branch rendered into the rgba template:
`${clamp(Math.round(parseFloat(g) * 255), 0, 255)}` (`NaN` renders "NaN"). -/
def chanDec (g : List Char) : List Char :=
  match jsParseFloatDD g with
  | some q => intDec (clamp (jsRound (q * 255)) 0 255)
  | none => "NaN".data

/-- A channel of the `color()` branch rendered as hex:
`clamp(Math.round(parseFloat(g) * 255), 0, 255).toString(16).padStart(2, "0")`. -/
def chanHex (g : List Char) : List Char :=
  match jsParseFloatDD g with
  | some q => padStart2 (natHex (clamp (jsRound (q * 255)) 0 255).toNat)
  | none => padStart2 ("NaN".data)

/-- A channel of the direct `rgb()` branch: `clamp(parseInt(d, 10), 0, 255)`
rendered as padded hex. -/
def intChanHex (d : List Char) : List Char :=
  padStart2 (natHex (clamp ((digitsVal d : ℤ)) 0 255).toNat)

/-- Assembled `rgba(${a}, ${b}, ${c}, ${f})` template output. -/
def mkRgbaOut (a b c f : List Char) : List Char :=
  "rgba(".data ++ a ++ ", ".data ++ b ++ ", ".data ++ c ++ ", ".data ++ f ++ ")".data

/-- Assembled `"#" + [h1, h2, h3].join("").toUpperCase()` output. -/
def mkHexOut (h1 h2 h3 : List Char) : List Char := '#' :: upperStr (h1 ++ h2 ++ h3)

/-- The in-page `hexify` of the branding script
(src/apps/api/src/scraper/scrapeURL/engines/fire-engine/brandingScript.ts).
`canvas` abstracts the canvas fill-style round-trip used for named colors. -/
def hexify (canvas : String → Option String) (rgba : String) : Option String :=
  let l := rgba.data
  if l.isEmpty then none
  else if hexTest l then some ⟨hexBranch l⟩
  else match scanOption colorAlphaAt l with
  | some (n1, n2, n3, n4) =>
    some ⟨mkRgbaOut (chanDec n1) (chanDec n2) (chanDec n3) (jsToFixed2 (jsParseFloatDD n4))⟩
  | none =>
    match scanOption colorNoAlphaAt l with
    | some (n1, n2, n3) => some ⟨mkHexOut (chanHex n1) (chanHex n2) (chanHex n3)⟩
    | none =>
      match rgbaHeadAt l with
      | some (d1, d2, d3, a) => some ⟨mkRgbaOut d1 d2 d3 (jsToFixed2 (jsParseFloatDD a))⟩
      | none =>
        match directHeadAt l with
        | some (d1, d2, d3) => some ⟨mkHexOut (intChanHex d1) (intChanHex d2) (intChanHex d3)⟩
        | none =>
          match canvas rgba with
          | none => none
          | some val =>
            match directHeadAt val.data with
            | some (d1, d2, d3) => some ⟨mkHexOut (intChanHex d1) (intChanHex d2) (intChanHex d3)⟩
            | none => none

end Script

namespace Processor

open JsPrim

/-- culori `parse` composed with `rgb` (external library, processor.ts line 9
and 13), abstracted: rgb-mode channels `(r, g, b, alpha)` or `none` when the
input cannot be parsed (also covering the `catch` path). -/
def ParseRGB := String → Option (ℚ × ℚ × ℚ × ℚ)

/-- Padded hex rendering of a possibly negative integer
(JS `n.toString(16).padStart(2, "0")`). -/
def intHexPad2 (i : ℤ) : List Char :=
  padStart2 (if i < 0 then '-' :: natHex i.natAbs else natHex i.toNat)

/-- `hexify` of src/apps/api/src/lib/branding/processor.ts (culori-based).
The argument is optional because call sites pass possibly-null color strings
(`if (!rgba) return null` handles both).  The `?? 0` channel defaults of the
source are inherent in `parse` returning all four channels. -/
def hexify (parse : ParseRGB) (rgba : Option String) : Option String :=
  match rgba with
  | none => none
  | some s =>
    if s.isEmpty then none
    else
      match parse s with
      | none => none
      | some (r0, g0, b0, alpha) =>
        let r := clamp (jsRound (r0 * 255)) 0 255
        let g := clamp (jsRound (g0 * 255)) 0 255
        let b := clamp (jsRound (b0 * 255)) 0 255
        let rHex := padStart2 (natHex r.toNat)
        let gHex := padStart2 (natHex g.toNat)
        let bHex := padStart2 (natHex b.toNat)
        if alpha < 1 then
          let aHex := intHexPad2 (jsRound (alpha * 255))
          some ⟨upperStr ('#' :: (rHex ++ gHex ++ bHex ++ aHex))⟩
        else
          some ⟨upperStr ('#' :: (rHex ++ gHex ++ bHex))⟩

/-- Numeric value of one hex digit character (assuming `isHexDigitCI`). -/
def hexDigitVal (c : Char) : ℕ :=
  if c.toNat ≤ 57 then c.toNat - 48 else if c.toNat ≤ 70 then c.toNat - 55 else c.toNat - 87

/-- Value of a list of hex digit characters. -/
def hexVal (l : List Char) : ℕ := l.foldl (fun a c => 16 * a + hexDigitVal c) 0

/-- JS `parseInt(s, 16)` on the two-character slices used below: longest
hex-digit prefix; `none` models `NaN`. -/
def jsParseIntHex (l : List Char) : Option ℕ :=
  let ds := l.takeWhile isHexDigitCI
  if ds.isEmpty then none else some (hexVal ds)

/-- JS `String.prototype.replace("#", "")`: removes the first occurrence. -/
def removeFirstHash : List Char → List Char
  | [] => []
  | c :: rest => if c.toNat = 35 then rest else c :: removeFirstHash rest

/-- `contrastYIQ` of processor.ts; `none` models `NaN` (propagated from
`parseInt` on non-hex digits). -/
def contrastYIQ (hex : String) : Option ℚ :=
  if hex.isEmpty then some 0
  else
    let h := removeFirstHash hex.data
    if h.length < 6 then some 0
    else
      match jsParseIntHex (h.take 2), jsParseIntHex ((h.drop 2).take 2),
            jsParseIntHex ((h.drop 4).take 2) with
      | some r, some g, some b => some (((r : ℚ) * 299 + (g : ℚ) * 587 + (b : ℚ) * 114) / 1000)
      | _, _, _ => none

/-- `contrastYIQ(h) < t` with JS `NaN` comparison semantics (false). -/
def yiqLt (hex : String) (t : ℚ) : Bool :=
  match contrastYIQ hex with
  | some q => decide (q < t)
  | none => false

/-- `contrastYIQ(h) > t` with JS `NaN` comparison semantics (false). -/
def yiqGt (hex : String) (t : ℚ) : Bool :=
  match contrastYIQ hex with
  | some q => decide (t < q)
  | none => false

/-- `isGrayish` of `inferPalette`; `NaN` channel comparisons yield false. -/
def isGrayish (hex : String) : Bool :=
  let h := removeFirstHash hex.data
  if h.length < 6 then true
  else
    match jsParseIntHex (h.take 2), jsParseIntHex ((h.drop 2).take 2),
          jsParseIntHex ((h.drop 4).take 2) with
    | some r, some g, some b => decide (max r (max g b) - min r (min g b) < 15)
    | _, _, _ => false

inductive ColorScheme
  | light
  | dark
deriving DecidableEq, Repr

structure Rect where
  w : ℚ
  h : ℚ
deriving DecidableEq, Repr

structure SnapColors where
  text : Option String
  background : Option String
  border : Option String
  borderWidth : Option ℚ
deriving DecidableEq, Repr

structure SnapTypography where
  family : Option String
  fontStack : List String
  size : Option String
  weight : Option ℤ
deriving DecidableEq, Repr

/-- A Style Snapshot as consumed by processor.ts (one sampled element). -/
structure StyleSnapshot where
  tag : String
  classes : String
  text : String
  rect : Rect
  colors : SnapColors
  typography : SnapTypography
  radius : Option ℚ
  isButton : Bool
  isInput : Bool
  isLink : Bool
  hasCTAIndicator : Bool
  shadow : Option String
deriving DecidableEq, Repr

structure TypographyStacks where
  body : List String
  heading : List String
deriving DecidableEq, Repr

structure TypographySizes where
  h1 : Option String
  h2 : Option String
  body : Option String
deriving DecidableEq, Repr

structure RawTypography where
  «stacks» : TypographyStacks
  sizes : TypographySizes
deriving DecidableEq, Repr

structure RawImage where
  type : String
  src : String
deriving DecidableEq, Repr

structure CssData where
  colors : List String
  radii : List ℚ
  spacings : List ℚ
deriving DecidableEq, Repr

/-- The Raw Branding Record as consumed by processor.ts / transformer.ts. -/
structure BrandingScriptReturn where
  cssData : CssData
  snapshots : List StyleSnapshot
  images : List RawImage
  colorScheme : Option ColorScheme
  typography : RawTypography
  frameworkHints : List String
  backgroundCandidates : Option (List String)
  logoCandidates : Option (List String)
  brandName : Option String
  pageBackground : Option String
deriving DecidableEq, Repr

structure FontEntry where
  family : String
  count : ℕ
deriving DecidableEq, Repr

structure Palette where
  primary : String
  accent : String
  background : String
  textPrimary : String
  link : String
deriving DecidableEq, Repr

/-- An entry of the `__allDetectedColors` debug listing. -/
structure DetectedColor where
  hex : String
  frequency : ℚ
  isGrayish : Bool
  yiq : Option ℚ
deriving DecidableEq, Repr

/-- `Map.prototype.set`-style accumulation preserving insertion order. -/
def mapBump (freq : List (String × ℚ)) (h : String) (w : ℚ) : List (String × ℚ) :=
  if freq.any (fun p => p.1 = h) then freq.map (fun p => if p.1 = h then (p.1, p.2 + w) else p)
  else freq ++ [(h, w)]

/-- The `bump` closure of `inferPalette` (`if (!hex) return`). -/
def bump (freq : List (String × ℚ)) (hex : Option String) (w : ℚ) : List (String × ℚ) :=
  match hex with
  | some h => if h.isEmpty then freq else mapBump freq h w
  | none => freq

/-- The accumulated color frequency table of `inferPalette` (the `freq` map
after the page-background, snapshot and stylesheet bumps). -/
def paletteFreq (parse : ParseRGB) (log10 : ℚ → ℚ) (snapshots : List StyleSnapshot)
    (cssColors : List String) (pageBackground : Option String) : List (String × ℚ) :=
  let freq0 : List (String × ℚ) := []
  let freq1 := if truthyStr pageBackground then bump freq0 (hexify parse pageBackground) 1000 else freq0
  let freq2 := snapshots.foldl (fun fr s =>
    let area := max 1 (s.rect.w * s.rect.h)
    let frA := bump fr (hexify parse s.colors.background) (1 / 2 + log10 (area + 10))
    let frB := bump frA (hexify parse s.colors.text) 1
    bump frB (hexify parse s.colors.border) (3 / 10)) freq1
  cssColors.foldl (fun fr c => bump fr (hexify parse (some c)) (1 / 2)) freq2

/-- The `ranked` list of `inferPalette` (hex keys sorted by accumulated
weight, descending, stable). -/
def rankedColors (parse : ParseRGB) (log10 : ℚ → ℚ) (snapshots : List StyleSnapshot)
    (cssColors : List String) (pageBackground : Option String) : List String :=
  (List.insertionSort (fun a b : String × ℚ => b.2 ≤ a.2)
    (paletteFreq parse log10 snapshots cssColors pageBackground)).map Prod.fst

/-- The page-background step of `inferPalette` (lines 104-112): the initial
`background` value before the ranked-colors refinement. -/
def pageBgHexGray (parse : ParseRGB) (pageBackground : Option String) : String :=
  if truthyStr pageBackground then
    match hexify parse pageBackground with
    | some h => if h.isEmpty then "#FFFFFF" else if isGrayish h then h else "#FFFFFF"
    | none => "#FFFFFF"
  else "#FFFFFF"

/-- The `background` of `inferPalette` (lines 104-129). -/
def paletteBackground (parse : ParseRGB) (log10 : ℚ → ℚ) (snapshots : List StyleSnapshot)
    (cssColors : List String) (colorScheme : Option ColorScheme)
    (pageBackground : Option String) : String :=
  let ranked := rankedColors parse log10 snapshots cssColors pageBackground
  let bg0 := pageBgHexGray parse pageBackground
  if bg0 = "#FFFFFF" ∨ (¬ (truthyStr pageBackground = true) ∧ 0 < ranked.length) then
    match colorScheme with
    | some ColorScheme.dark =>
      jsOrDefault (jsOrStr (ranked.find? (fun h => isGrayish h && yiqLt h 128 && yiqGt h 0))
        (ranked.find? (fun h => isGrayish h && yiqLt h 180))) ("#1A1A1A")
    | _ =>
      jsOrDefault (ranked.find? (fun h => isGrayish h && yiqGt h 180)) ("#FFFFFF")
  else bg0

/-- The `textPrimary` of `inferPalette` (lines 131-133). -/
def paletteTextPrimary (parse : ParseRGB) (log10 : ℚ → ℚ) (snapshots : List StyleSnapshot)
    (cssColors : List String) (colorScheme : Option ColorScheme)
    (pageBackground : Option String) : String :=
  jsOrDefault ((rankedColors parse log10 snapshots cssColors pageBackground).find?
      (fun h => !(decide (upperStr h.data = "#FFFFFF".data)) && yiqLt h 160))
    (match colorScheme with
     | some ColorScheme.dark => "#FFFFFF"
     | _ => "#111111")

/-- The `primary` of `inferPalette` (lines 134-136). -/
def palettePrimary (parse : ParseRGB) (log10 : ℚ → ℚ) (snapshots : List StyleSnapshot)
    (cssColors : List String) (colorScheme : Option ColorScheme)
    (pageBackground : Option String) : String :=
  jsOrDefault ((rankedColors parse log10 snapshots cssColors pageBackground).find?
      (fun h => !isGrayish h &&
        decide (h ≠ paletteTextPrimary parse log10 snapshots cssColors colorScheme pageBackground) &&
        decide (h ≠ paletteBackground parse log10 snapshots cssColors colorScheme pageBackground)))
    (match colorScheme with
     | some ColorScheme.dark => "#FFFFFF"
     | _ => "#000000")

/-- The `accent` of `inferPalette` (line 137). -/
def paletteAccent (parse : ParseRGB) (log10 : ℚ → ℚ) (snapshots : List StyleSnapshot)
    (cssColors : List String) (colorScheme : Option ColorScheme)
    (pageBackground : Option String) : String :=
  jsOrDefault ((rankedColors parse log10 snapshots cssColors pageBackground).find?
      (fun h => decide (h ≠ palettePrimary parse log10 snapshots cssColors colorScheme pageBackground) &&
        !isGrayish h))
    (palettePrimary parse log10 snapshots cssColors colorScheme pageBackground)

/-- `inferPalette` of processor.ts; returns the palette together with the
`__allDetectedColors` debug listing attached by the source. -/
def inferPalette (parse : ParseRGB) (log10 : ℚ → ℚ) (snapshots : List StyleSnapshot)
    (cssColors : List String) (colorScheme : Option ColorScheme)
    (pageBackground : Option String) : Palette × List DetectedColor :=
  let rankedPairs := List.insertionSort (fun a b : String × ℚ => b.2 ≤ a.2)
    (paletteFreq parse log10 snapshots cssColors pageBackground)
  let allDetected := rankedPairs.map (fun p =>
    { hex := p.1, frequency := p.2, isGrayish := isGrayish p.1, yiq := contrastYIQ p.1 : DetectedColor })
  ({ primary := palettePrimary parse log10 snapshots cssColors colorScheme pageBackground,
     accent := paletteAccent parse log10 snapshots cssColors colorScheme pageBackground,
     background := paletteBackground parse log10 snapshots cssColors colorScheme pageBackground,
     textPrimary := paletteTextPrimary parse log10 snapshots cssColors colorScheme pageBackground,
     link := paletteAccent parse log10 snapshots cssColors colorScheme pageBackground }, allDetected)

/-- `inferBaseUnit` of processor.ts. -/
def inferBaseUnit (values : List ℚ) : ℤ :=
  let vs := (values.filter (fun v => decide (0 < v) && decide (v ≤ 128))).map jsRound
  if vs.isEmpty then 8
  else
    match ([4, 6, 8, 10, 12] : List ℤ).find? (fun c =>
      decide ((0.6 : ℚ) ≤
        ((vs.filter (fun v => decide (v % c = 0) || decide ((v % c - c).natAbs ≤ 1) ||
          decide (v % c ≤ 1))).length : ℚ) / (vs.length : ℚ))) with
    | some c => c
    | none =>
      let sorted := List.insertionSort (fun a b : ℤ => a ≤ b) vs
      let med := sorted.getD (vs.length / 2) 0
      max 2 (min 12 (jsRound ((med : ℚ) / 2) * 2))

/-- `pickBorderRadius` of processor.ts (`Number.isFinite` filters out nulls). -/
def pickBorderRadius (radii : List (Option ℚ)) : String :=
  let rs := radii.filterMap id
  if rs.isEmpty then "8px"
  else
    let sorted := List.insertionSort (fun a b : ℚ => a ≤ b) rs
    let med := sorted.getD (rs.length / 2) 0
    ⟨intDec (jsRound med) ++ "px".data⟩

/-- `Record<string, number>` frequency accumulation (insertion-ordered keys). -/
def bumpFont (freq : List (String × ℕ)) (f : String) : List (String × ℕ) :=
  if freq.any (fun p => p.1 = f) then freq.map (fun p => if p.1 = f then (p.1, p.2 + 1) else p)
  else freq ++ [(f, 1)]

/-- `inferFontsList` of processor.ts. -/
def inferFontsList (fontStacks : List (List String)) : List FontEntry :=
  let freq := fontStacks.foldl (fun acc stack =>
    stack.foldl (fun acc2 f => if f.isEmpty then acc2 else bumpFont acc2 f) acc) []
  ((List.insertionSort (fun a b : String × ℕ => b.2 ≤ a.2) freq).take 10).map
    (fun p => { family := p.1, count := p.2 : FontEntry })

/-- `pickLogo` of processor.ts (JS `||` chain; empty-string srcs are falsy). -/
def pickLogo (images : List RawImage) : Option String :=
  let byType := fun (t : String) => (images.find? (fun i => i.type = t)).map RawImage.src
  jsOrStr (byType ("logo")) (jsOrStr (byType ("logo-svg")) (jsOrStr (byType ("og"))
    (jsOrStr (byType ("twitter")) (jsOrStr (byType ("favicon")) none))))

end Processor

namespace Processor

open JsPrim

structure FontFamilies where
  primary : String
  heading : String
deriving DecidableEq, Repr

structure ProfileTypography where
  fontFamilies : FontFamilies
  fontStacks : TypographyStacks
  fontSizes : TypographySizes
deriving DecidableEq, Repr

structure Spacing where
  baseUnit : ℤ
  borderRadius : String
deriving DecidableEq, Repr

structure InputComponent where
  borderColor : String
  borderRadius : String
deriving DecidableEq, Repr

structure Components where
  input : InputComponent
deriving DecidableEq, Repr

structure ProfileImages where
  logo : Option String
  favicon : Option String
  ogImage : Option String
deriving DecidableEq, Repr

/-- One emitted `__button_snapshots` entry of processor.ts. -/
structure ButtonSnapshot where
  index : ℕ
  text : String
  html : String
  classes : String
  background : String
  textColor : String
  borderColor : Option String
  borderRadius : String
  shadow : Option String
  originalBackgroundColor : Option String
  originalTextColor : Option String
  originalBorderColor : Option String
deriving DecidableEq, Repr

structure SnapColorDebugB where
  hex : Option String
  area : ℚ
  tag : String
  classes : String
deriving DecidableEq, Repr

structure SnapColorDebugT where
  hex : Option String
  tag : String
  classes : String
deriving DecidableEq, Repr

structure SnapshotColorsDebug where
  backgrounds : List SnapColorDebugB
  texts : List SnapColorDebugT
  borders : List SnapColorDebugT
deriving DecidableEq, Repr

/-- The `__debug_colors` payload of processor.ts (inferredPalette is a copy
of the palette fields). -/
structure DebugColors where
  allDetectedColors : List DetectedColor
  backgroundCandidates : List String
  rawCssColors : List String
  snapshotColors : SnapshotColorsDebug
  inferredPalette : Palette
deriving DecidableEq, Repr

/-- The Branding Profile as produced by processor.ts and returned by the
transformer.  `primaryButton`/`secondaryButton` are the button-selection
fields written by the Merger (modelled from the spec, §4.4); the heuristic
profile leaves them unset.  `button_snapshots` models `__button_snapshots`
(deletable debug payload), `framework_hints` models `__framework_hints`,
`debug_colors` models `__debug_colors`. -/
structure BrandingProfile where
  colorScheme : Option ColorScheme
  fonts : List FontEntry
  colors : Palette
  typography : ProfileTypography
  spacing : Spacing
  components : Components
  images : ProfileImages
  primaryButton : Option ButtonSnapshot
  secondaryButton : Option ButtonSnapshot
  button_snapshots : Option (List ButtonSnapshot)
  framework_hints : List String
  debug_colors : DebugColors
deriving DecidableEq, Repr

/-- The CTA keyword list of processor.ts (lines 292-308, duplicates kept). -/
def ctaKeywords : List String :=
  ["sign up", "get started", "start deploying", "start", "deploy", "try", "demo",
   "contact", "buy", "subscribe", "join", "register", "get", "free", "join"]

/-- The button-candidate filter of `processRawBranding` (lines 276-285). -/
def eligibleButton (parse : ParseRGB) (s : StyleSnapshot) : Bool :=
  s.isButton &&
  !(decide (s.rect.w < 30) || decide (s.rect.h < 30)) &&
  !(s.text.isEmpty || (jsTrim s.text).isEmpty) &&
  truthyStr (hexify parse s.colors.background)

/-- The button score of `processRawBranding` (lines 286-327). -/
def buttonScore (parse : ParseRGB) (log10 : ℚ → ℚ) (s : StyleSnapshot) : ℚ :=
  let score1 : ℚ := if s.hasCTAIndicator then 1000 else 0
  let text : String := ⟨lowerStr s.text.data⟩
  let score2 := score1 + (if ctaKeywords.any (fun kw => jsIncludes text kw) then 500 else 0)
  let bgHex := hexify parse s.colors.background
  let score3 := score2 +
    (match bgHex with
     | some h =>
       if !h.isEmpty && decide (h ≠ "#FFFFFF") && decide (h ≠ "#FAFAFA") &&
          decide (h ≠ "#F5F5F5") then 300 else 0
     | none => 0)
  let score4 := score3 + (if 0 < text.length ∧ text.length < 50 then 100 else 0)
  let area := s.rect.w * s.rect.h
  score4 + log10 (area + 1) * 10

/-- A filtered snapshot with its `_score` (the `{ ...s, _score }` spread). -/
abbrev ScoredSnap := StyleSnapshot × ℚ

/-- `candidateButtons` of `processRawBranding`: filter, score, then the
stable descending sort `(a, b) => (b._score || 0) - (a._score || 0)`. -/
def candidateButtons (parse : ParseRGB) (log10 : ℚ → ℚ)
    (snapshots : List StyleSnapshot) : List ScoredSnap :=
  List.insertionSort (fun a b : ScoredSnap => b.2 ≤ a.2)
    ((snapshots.filter (eligibleButton parse)).map (fun s => (s, buttonScore parse log10 s)))

/-- The dedup signature of `processRawBranding` (lines 335-344):
`${textKey}|${bgHex}|${classKey}`. -/
def buttonSignature (parse : ParseRGB) (s : StyleSnapshot) : String :=
  let bgHex := jsOrDefault (hexify parse s.colors.background) ("transparent")
  let textKey : String := ⟨(lowerStr (jsTrim s.text).data).take 50⟩
  let classKey : String := ⟨lowerStr (String.intercalate (" ") ((splitWS s.classes).take 5)).data⟩
  textKey ++ "|" ++ bgHex ++ "|" ++ classKey

/-- The dedup loop of `processRawBranding` (lines 331-353): keep the first
occurrence of each signature (the `seenButtons` counts do not affect the
surviving list). -/
def dedupButtons (parse : ParseRGB) : List ScoredSnap → List String → List ScoredSnap
  | [], _ => []
  | b :: rest, seen =>
    if seen.contains (buttonSignature parse b.1) then dedupButtons parse rest seen
    else b :: dedupButtons parse rest (buttonSignature parse b.1 :: seen)

/-- `uniqueButtons` of `processRawBranding`. -/
def uniqueButtons (parse : ParseRGB) (candidates : List ScoredSnap) : List ScoredSnap :=
  dedupButtons parse candidates []

/-- `topButtons` of `processRawBranding`: `uniqueButtons.slice(0, 80)`. -/
def topButtons (parse : ParseRGB) (log10 : ℚ → ℚ)
    (snapshots : List StyleSnapshot) : List ScoredSnap :=
  (uniqueButtons parse (candidateButtons parse log10 snapshots)).take 80

/-- One emitted button snapshot (lines 358-384). -/
def mkButtonSnapshot (parse : ParseRGB) (numToStr : ℚ → String) (idx : ℕ)
    (s : StyleSnapshot) : ButtonSnapshot :=
  let bgHex0 := hexify parse s.colors.background
  let borderHex := match s.colors.borderWidth with
    | some w => if 0 < w then hexify parse s.colors.border else none
    | none => none
  { index := idx
    text := s.text
    html := ""
    classes := s.classes
    background := jsOrDefault bgHex0 ("transparent")
    textColor := jsOrDefault (hexify parse s.colors.text) ("#000000")
    borderColor := borderHex
    borderRadius :=
      match s.radius with
      | some r => if r = 0 then "0px" else numToStr r ++ "px"
      | none => "0px"
    shadow := jsOrStr s.shadow none
    originalBackgroundColor := jsOrStr s.colors.background none
    originalTextColor := jsOrStr s.colors.text none
    originalBorderColor := jsOrStr s.colors.border none }

/-- `processRawBranding` of src/apps/api/src/lib/branding/processor.ts. -/
def processRawBranding (parse : ParseRGB) (log10 : ℚ → ℚ) (numToStr : ℚ → String)
    (raw : BrandingScriptReturn) : BrandingProfile :=
  let pal := inferPalette parse log10 raw.snapshots raw.cssData.colors raw.colorScheme
    raw.pageBackground
  let palette := pal.1
  let typography : ProfileTypography :=
    { fontFamilies :=
        { primary := jsOrDefault raw.typography.stacks.body.head? ("system-ui, sans-serif")
          heading :=
            jsOrDefault (jsOrStr raw.typography.stacks.heading.head? raw.typography.stacks.body.head?)
              ("system-ui, sans-serif") }
      fontStacks := raw.typography.stacks
      fontSizes := raw.typography.sizes }
  let baseUnit := inferBaseUnit raw.cssData.spacings
  let borderRadius := pickBorderRadius
    (raw.snapshots.map (fun s => s.radius) ++ raw.cssData.radii.map some)
  let allFontStacks :=
    (raw.typography.stacks.body ++ raw.typography.stacks.heading) ++
      (raw.snapshots.map (fun s => s.typography.fontStack)).flatten
  let fontsList := inferFontsList [allFontStacks]
  let images : ProfileImages :=
    { logo := pickLogo raw.images
      favicon := jsOrStr ((raw.images.find? (fun i => i.type = "favicon")).map RawImage.src) none
      ogImage := jsOrStr ((raw.images.find? (fun i => i.type = "og")).map RawImage.src)
        (jsOrStr ((raw.images.find? (fun i => i.type = "twitter")).map RawImage.src) none) }
  let components : Components :=
    { input := { borderColor := "#CCCCCC", borderRadius := borderRadius } }
  let tops := topButtons parse log10 raw.snapshots
  let buttonSnapshots := tops.enum.map (fun p => mkButtonSnapshot parse numToStr p.1 p.2.1)
  let debugColors : DebugColors :=
    { allDetectedColors := pal.2
      backgroundCandidates := raw.backgroundCandidates.getD []
      rawCssColors := raw.cssData.colors
      snapshotColors :=
        { backgrounds := (raw.snapshots.map (fun s =>
            ({ hex := hexify parse s.colors.background, area := s.rect.w * s.rect.h,
               tag := s.tag, classes := s.classes.take 50 } : SnapColorDebugB))).filter
            (fun c => truthyStr c.hex)
          texts := (raw.snapshots.map (fun s =>
            ({ hex := hexify parse s.colors.text, tag := s.tag,
               classes := s.classes.take 50 } : SnapColorDebugT))).filter
            (fun c => truthyStr c.hex)
          borders := (raw.snapshots.map (fun s =>
            ({ hex := hexify parse s.colors.border, tag := s.tag,
               classes := s.classes.take 50 } : SnapColorDebugT))).filter
            (fun c => truthyStr c.hex) }
      inferredPalette := palette }
  { colorScheme := raw.colorScheme
    fonts := fontsList
    colors := palette
    typography := typography
    spacing := { baseUnit := baseUnit, borderRadius := borderRadius }
    components := components
    images := images
    primaryButton := none
    secondaryButton := none
    button_snapshots := some buttonSnapshots
    framework_hints := raw.frameworkHints
    debug_colors := debugColors }

end Processor

namespace Processor

open JsPrim

/-- The spec's color invariant: a valid 6- or 8-digit hex string
(leading `#`, then exactly 6 or 8 hex digits). -/
def isValidHexColor (s : String) : Bool :=
  match s.data with
  | c :: rest =>
    decide (c.toNat = 35) && rest.all isHexDigitCI &&
      (decide (rest.length = 6) || decide (rest.length = 8))
  | [] => false

end Processor

namespace Merge

open JsPrim Processor

/-- Modelled from the spec: the `buttonClassification` part of the Semantic
Enhancement (§3; field names from the transformer's log calls).  The
producer (`enhanceBrandingWithLLM`, src/apps/api/src/lib/branding/llm.ts)
is not in the source tree. -/
structure ButtonClassification where
  primaryButtonIndex : Option ℤ
  secondaryButtonIndex : Option ℤ
  confidence : ℚ
deriving DecidableEq, Repr

/-- Modelled from the spec: per-role color reassignments with a confidence
score (§3: `colorRoles: {..., confidence}`). -/
structure ColorRoles where
  primary : Option String
  accent : Option String
  background : Option String
  textPrimary : Option String
  link : Option String
  confidence : ℚ
deriving DecidableEq, Repr

/-- Modelled from the spec: the logo selection of the Semantic Enhancement. -/
structure LogoSelection where
  selectedLogoIndex : ℤ
  confidence : ℚ
deriving DecidableEq, Repr

/-- Modelled from the spec: the Semantic Enhancement (§3). -/
structure LLMEnhancement where
  buttonClassification : ButtonClassification
  colorRoles : ColorRoles
  logoSelection : Option LogoSelection
deriving DecidableEq, Repr

/-- Modelled from the spec: `mergeBrandingResults`
(src/apps/api/src/lib/branding/merge.ts, not in the source tree; §4.4):
button primary/secondary selections and the logo are overridden only when
the returned index lies within the bounds of the candidate list passed to
the Collaborator; color roles are overridden per field when present and a
valid hex value; every field is decided independently (no global rollback). -/
def mergeBrandingResults (js : BrandingProfile) (enh : LLMEnhancement)
    (buttons : List ButtonSnapshot) (logoCandidates : Option (List String)) :
    BrandingProfile :=
  let primaryButton :=
    match enh.buttonClassification.primaryButtonIndex with
    | some i =>
      if 0 ≤ i then
        match buttons.get? i.toNat with
        | some b => some b
        | none => js.primaryButton
      else js.primaryButton
    | none => js.primaryButton
  let secondaryButton :=
    match enh.buttonClassification.secondaryButtonIndex with
    | some i =>
      if 0 ≤ i then
        match buttons.get? i.toNat with
        | some b => some b
        | none => js.secondaryButton
      else js.secondaryButton
    | none => js.secondaryButton
  let mergeColor := fun (heur : String) (over : Option String) =>
    match over with
    | some c => if isValidHexColor c then c else heur
    | none => heur
  let colors : Palette :=
    { primary := mergeColor js.colors.primary enh.colorRoles.primary
      accent := mergeColor js.colors.accent enh.colorRoles.accent
      background := mergeColor js.colors.background enh.colorRoles.background
      textPrimary := mergeColor js.colors.textPrimary enh.colorRoles.textPrimary
      link := mergeColor js.colors.link enh.colorRoles.link }
  let images :=
    match logoCandidates, enh.logoSelection with
    | some cands, some sel =>
      if 0 ≤ sel.selectedLogoIndex then
        match cands.get? sel.selectedLogoIndex.toNat with
        | some src => { js.images with logo := some src }
        | none => js.images
      else js.images
    | _, _ => js.images
  { js with primaryButton := primaryButton, secondaryButton := secondaryButton,
            colors := colors, images := images }

end Merge

namespace Transformer

open JsPrim Processor

/-- The argument bundle passed to the Classification Collaborator
(`enhanceBrandingWithLLM`); the screenshot/url fields only feed the external
call and are omitted. -/
structure EnhanceArgs where
  jsAnalysis : BrandingProfile
  buttons : List ButtonSnapshot
  logoCandidates : Option (List String)
  brandName : Option String

/-- `brandingTransformer` of src/apps/api/src/lib/branding/transformer.ts.
The Collaborator call is the abstract `enhance` argument; `Except.error`
covers a thrown or failed call, on which the source falls back to the
heuristic profile (the `catch` block).  `debugBranding` models
`process.env.DEBUG_BRANDING === "true"`; when false the
`__button_snapshots` payload is deleted before returning.
(`processRawBranding` always returns an object, so the `!jsBranding` early
return of the source is dead code and has no counterpart here.) -/
def brandingTransformer (debugBranding : Bool)
    (enhance : EnhanceArgs → Except Unit Merge.LLMEnhancement)
    (parse : ParseRGB) (log10 : ℚ → ℚ) (numToStr : ℚ → String)
    (raw : BrandingScriptReturn) : BrandingProfile :=
  let jsBranding := processRawBranding parse log10 numToStr raw
  let buttonSnapshots := jsBranding.button_snapshots.getD []
  let logoCandidates := raw.logoCandidates.getD []
  let logoArg := if 0 < logoCandidates.length then some logoCandidates else none
  let brandingProfile :=
    match enhance { jsAnalysis := jsBranding, buttons := buttonSnapshots,
                    logoCandidates := logoArg, brandName := raw.brandName } with
    | Except.ok enh => Merge.mergeBrandingResults jsBranding enh buttonSnapshots logoArg
    | Except.error _ => jsBranding
  if debugBranding then brandingProfile
  else { brandingProfile with button_snapshots := none }

end Transformer

section ClaimProofs

attribute [local semireducible] Rat.mul Rat.add Rat.sub Rat.inv Rat.ofScientific

open JsPrim

instance : IsTotal (String × ℕ) (fun a b : String × ℕ => b.2 ≤ a.2) :=
  ⟨fun a b => Nat.le_total b.2 a.2⟩

instance : IsTrans (String × ℕ) (fun a b : String × ℕ => b.2 ≤ a.2) :=
  ⟨fun _ _ _ h1 h2 => Nat.le_trans h2 h1⟩

instance : IsTotal Processor.ScoredSnap (fun a b : Processor.ScoredSnap => b.2 ≤ a.2) :=
  ⟨fun a b => le_total b.2 a.2⟩

instance : IsTrans Processor.ScoredSnap (fun a b : Processor.ScoredSnap => b.2 ≤ a.2) :=
  ⟨fun _ _ _ h1 h2 => le_trans h2 h1⟩

namespace Claims

/-- C4: for every list of spacing values, `inferBaseUnit` returns a member of
{2, 4, 6, 8, 10, 12}; when no value is positive and at most 128 — in
particular for the empty list — it returns 8.  (JS numbers are modelled as
rationals, so every modelled value is finite.) -/
theorem c4_baseUnit_range (values : List ℚ) :
    Processor.inferBaseUnit values ∈ ([2, 4, 6, 8, 10, 12] : List ℤ) ∧
    ((∀ v ∈ values, ¬(0 < v ∧ v ≤ 128)) → Processor.inferBaseUnit values = 8) := by
  constructor
  · simp only [Processor.inferBaseUnit]
    split
    · simp
    · split
      · next c hc =>
        have hm := List.mem_of_find?_eq_some hc
        fin_cases hm <;> simp
      · next =>
        set m := jsRound ((((List.insertionSort (fun a b : ℤ => a ≤ b)
          ((values.filter (fun v => decide (0 < v) && decide (v ≤ 128))).map jsRound)).getD
          (((values.filter (fun v => decide (0 < v) && decide (v ≤ 128))).map
            jsRound).length / 2) 0 : ℤ) : ℚ) / 2) with hm
        have h2 : max 2 (min 12 (m * 2)) = 2 ∨ max 2 (min 12 (m * 2)) = 4 ∨
            max 2 (min 12 (m * 2)) = 6 ∨ max 2 (min 12 (m * 2)) = 8 ∨
            max 2 (min 12 (m * 2)) = 10 ∨ max 2 (min 12 (m * 2)) = 12 := by omega
        rcases h2 with h | h | h | h | h | h <;> simp [h]
  · intro hv
    have hnil : values.filter (fun v => decide (0 < v) && decide (v ≤ 128)) = [] := by
      rw [List.filter_eq_nil_iff]
      intro a ha
      simp only [Bool.and_eq_true, decide_eq_true_eq]
      exact fun hc => hv a ha ⟨hc.1, hc.2⟩
    simp [Processor.inferBaseUnit, hnil]

/-- Witness for C4 at a concrete list with no qualifying value. -/
theorem c4_witness : Processor.inferBaseUnit [200, -3] = 8 :=
  (c4_baseUnit_range [200, -3]).2 (by decide)

/-- C5 counterexample: `inferBaseUnit [8, 16, 24, 32]` returns 4, not the
claimed 8, and `inferBaseUnit [7, 15, 23]` also returns 4, not 8 (the
smallest qualifying candidate is 4 in both cases: every value is an exact
multiple of 4, resp. within 1px of one). -/
theorem c5_counterexample :
    (Processor.inferBaseUnit [8, 16, 24, 32] = 4 ∧ Processor.inferBaseUnit [8, 16, 24, 32] ≠ 8) ∧
    (Processor.inferBaseUnit [7, 15, 23] = 4 ∧ Processor.inferBaseUnit [7, 15, 23] ≠ 8) := by
  constructor <;> constructor <;> decide

/-- C5 amended: spacing values [8, 16, 24, 32] infer baseUnit 4, and
[7, 15, 23] infer baseUnit 4 as well — the smallest candidate unit in
{4, 6, 8, 10, 12} for which at least 60% of the values are an exact multiple
or within 1px of one is picked, and that candidate is 4 for both lists. -/
theorem c5_amended_baseUnit_values :
    Processor.inferBaseUnit [8, 16, 24, 32] = 4 ∧ Processor.inferBaseUnit [7, 15, 23] = 4 := by
  constructor <;> decide

end Claims

end ClaimProofs

section ClaimProofs2

open JsPrim

open JsPrim

namespace Claims

/-- Count held by a key in the font frequency table. -/
def countOfF (freq : List (String × ℕ)) (f : String) : ℕ :=
  ((freq.find? (fun p => p.1 = f)).map Prod.snd).getD 0

theorem bumpFont_countOf (acc : List (String × ℕ)) (x f : String) :
    countOfF (Processor.bumpFont acc x) f = countOfF acc f + (if x = f then 1 else 0) := by
  unfold Processor.bumpFont countOfF
  split
  · next hany =>
    rw [List.find?_map]
    have hpe : ((fun p : String × ℕ => decide (p.1 = f)) ∘
        (fun p : String × ℕ => if p.1 = x then (p.1, p.2 + 1) else p)) =
        (fun p : String × ℕ => decide (p.1 = f)) := by
      funext p
      by_cases hp : p.1 = x <;> simp [hp]
    rw [hpe]
    rcases hfind : acc.find? (fun p => p.1 = f) with _ | q
    · have hnf : ∀ p ∈ acc, ¬ p.1 = f := by
        intro p hp
        have := List.find?_eq_none.mp hfind p hp
        simpa using this
      by_cases hxf : x = f
      · exfalso
        rcases List.any_eq_true.mp hany with ⟨p, hp, hpx⟩
        exact hnf p hp (by simpa [hxf] using hpx)
      · rw [hfind]
        simp [hxf]
    · have hq : q.1 = f := by simpa using List.find?_some hfind
      by_cases hxf : x = f
      · rw [hfind]
        simp [Function.comp, hq, hxf]
      · have hqx : ¬ q.1 = x := by rw [hq]; exact fun hc => hxf hc.symm
        rw [hfind]
        simp [Function.comp, hqx, hxf]
  · next hany =>
    rw [List.find?_append]
    rcases hfind : acc.find? (fun p => p.1 = f) with _ | q
    · rw [hfind]
      by_cases hxf : x = f
      · simp [hxf]
      · simp [hxf]
    · have hq : q.1 = f := by simpa using List.find?_some hfind
      have hmem := List.mem_of_find?_eq_some hfind
      have hnx : ¬ q.1 = x := by
        intro hc
        rw [List.any_eq_true] at hany
        exact hany ⟨q, hmem, by simp [hc]⟩
      by_cases hxf : x = f
      · exact absurd (hq.trans hxf.symm) hnx
      · rw [hfind]
        simp [hxf]

theorem fontFold_countOf (l : List String) (acc : List (String × ℕ)) (f : String) (hf : f ≠ "") :
    countOfF (l.foldl (fun a x => if x.isEmpty then a else Processor.bumpFont a x) acc) f =
      countOfF acc f + l.count f := by
  induction l generalizing acc with
  | nil => simp
  | cons x l ih =>
    by_cases hx : x.isEmpty
    · have hxe : x = "" := (String.isEmpty_iff x).mp hx
      have hxf : ¬ x = f := by rw [hxe]; exact fun hc => hf hc.symm
      simp only [List.foldl_cons, List.count_cons]
      rw [if_pos hx, ih]
      simp [hxf]
    · simp only [List.foldl_cons, List.count_cons]
      rw [if_neg hx, ih, bumpFont_countOf]
      by_cases hxf : x = f <;> simp [hxf, beq_iff_eq] <;> omega

theorem bumpFont_keys (acc : List (String × ℕ)) (x : String) :
    ∀ p ∈ Processor.bumpFont acc x, p.1 ∈ acc.map Prod.fst ∨ p.1 = x := by
  unfold Processor.bumpFont
  split
  · intro p hp
    rcases List.mem_map.mp hp with ⟨q, hq, hgq⟩
    left
    have hpq : p.1 = q.1 := by
      by_cases h : q.1 = x <;> simp [h] at hgq <;> simp [← hgq, h]
    rw [hpq]
    exact List.mem_map.mpr ⟨q, hq, rfl⟩
  · intro p hp
    rcases List.mem_append.mp hp with h | h
    · exact Or.inl (List.mem_map.mpr ⟨p, h, rfl⟩)
    · simp at h
      right
      rw [h]

theorem fontFold_keys (l : List String) (acc : List (String × ℕ)) :
    ∀ p ∈ l.foldl (fun a x => if x.isEmpty then a else Processor.bumpFont a x) acc,
      p.1 ∈ acc.map Prod.fst ∨ (p.1 ∈ l ∧ p.1 ≠ "") := by
  induction l generalizing acc with
  | nil => intro p hp; exact Or.inl (List.mem_map.mpr ⟨p, hp, rfl⟩)
  | cons x l ih =>
    intro p hp
    simp only [List.foldl_cons] at hp
    by_cases hx : x.isEmpty
    · rw [if_pos hx] at hp
      rcases ih acc p hp with h | h
      · exact Or.inl h
      · exact Or.inr ⟨List.mem_cons_of_mem _ h.1, h.2⟩
    · rw [if_neg hx] at hp
      rcases ih _ p hp with h | h
      · rcases List.mem_map.mp h with ⟨q, hq, hgq⟩
        rcases bumpFont_keys acc x q hq with h2 | h2
        · exact Or.inl (hgq ▸ h2)
        · refine Or.inr ⟨?_, ?_⟩
          · rw [← hgq, h2]; exact List.mem_cons_self x l
          · rw [← hgq, h2]; exact fun hc => hx ((String.isEmpty_iff x).mpr hc)
      · exact Or.inr ⟨List.mem_cons_of_mem _ h.1, h.2⟩

end Claims

namespace Claims

theorem bumpFont_nodupKeys (acc : List (String × ℕ)) (x : String)
    (h : (acc.map Prod.fst).Nodup) : ((Processor.bumpFont acc x).map Prod.fst).Nodup := by
  unfold Processor.bumpFont
  split
  · have hkeys : (acc.map (fun p : String × ℕ => if p.1 = x then (p.1, p.2 + 1) else p)).map Prod.fst
        = acc.map Prod.fst := by
      rw [List.map_map]
      apply List.map_congr_left
      intro p _
      by_cases hp : p.1 = x <;> simp [hp]
    rw [hkeys]
    exact h
  · next hany =>
    rw [List.map_append]
    refine List.Nodup.append h (by simp) ?_
    intro k hk hk2
    simp only [List.map_cons, List.map_nil, List.mem_singleton] at hk2
    rcases List.mem_map.mp hk with ⟨p, hp, hpk⟩
    rw [List.any_eq_true] at hany
    exact hany ⟨p, hp, by simp [hpk, hk2]⟩

theorem fontFold_nodupKeys (l : List String) (acc : List (String × ℕ))
    (h : (acc.map Prod.fst).Nodup) :
    ((l.foldl (fun a x => if x.isEmpty then a else Processor.bumpFont a x) acc).map Prod.fst).Nodup := by
  induction l generalizing acc with
  | nil => exact h
  | cons x l ih =>
    simp only [List.foldl_cons]
    by_cases hx : x.isEmpty
    · rw [if_pos hx]; exact ih acc h
    · rw [if_neg hx]; exact ih _ (bumpFont_nodupKeys acc x h)

theorem find?_of_mem_nodupKeys (freq : List (String × ℕ)) (p : String × ℕ)
    (hnd : (freq.map Prod.fst).Nodup) (hp : p ∈ freq) :
    freq.find? (fun q => q.1 = p.1) = some p := by
  induction freq with
  | nil => simp at hp
  | cons q rest ih =>
    rcases List.mem_cons.mp hp with rfl | hmem
    · simp [List.find?_cons]
    · have hq : ¬ q.1 = p.1 := by
        intro hc
        simp only [List.map_cons, List.nodup_cons] at hnd
        exact hnd.1 (hc ▸ List.mem_map.mpr ⟨p, hmem, rfl⟩)
      have hqd : (decide (q.1 = p.1)) = false := by simpa using hq
      rw [List.find?_cons, hqd]
      simpa using ih (by simpa using (List.nodup_cons.mp (by simpa using hnd)).2) hmem

theorem mem_freq_count (freq : List (String × ℕ)) (p : String × ℕ)
    (hnd : (freq.map Prod.fst).Nodup) (hp : p ∈ freq) : p.2 = countOfF freq p.1 := by
  unfold countOfF
  rw [find?_of_mem_nodupKeys freq p hnd hp]
  rfl

end Claims


namespace Claims

/-- C9 amended: the fonts list is a frequency table over every font family
appearing in the body stack, heading stack, and the font stack of every
sampled element, ranked by count descending, with at most the top 10
families retained, each with its exact occurrence count; no family (generic
keywords included) is excluded — only empty strings are skipped. -/
theorem c9_amended_fonts (parse : Processor.ParseRGB) (log10 : ℚ → ℚ)
    (numToStr : ℚ → String) (raw : Processor.BrandingScriptReturn) :
    (Processor.processRawBranding parse log10 numToStr raw).fonts =
      Processor.inferFontsList [(raw.typography.stacks.body ++ raw.typography.stacks.heading) ++
        (raw.snapshots.map (fun s => s.typography.fontStack)).flatten] ∧
    (Processor.processRawBranding parse log10 numToStr raw).fonts.length ≤ 10 ∧
    List.Sorted (fun a b : Processor.FontEntry => b.count ≤ a.count)
      (Processor.processRawBranding parse log10 numToStr raw).fonts ∧
    ∀ e ∈ (Processor.processRawBranding parse log10 numToStr raw).fonts,
      e.family ≠ "" ∧
      e.family ∈ (raw.typography.stacks.body ++ raw.typography.stacks.heading) ++
        (raw.snapshots.map (fun s => s.typography.fontStack)).flatten ∧
      e.count = ((raw.typography.stacks.body ++ raw.typography.stacks.heading) ++
        (raw.snapshots.map (fun s => s.typography.fontStack)).flatten).count e.family := by
  refine ⟨rfl, ?_, ?_, ?_⟩
  · simp [Processor.processRawBranding, Processor.inferFontsList]
  · show List.Sorted _ (Processor.inferFontsList _)
    unfold Processor.inferFontsList
    simp only [List.Sorted]
    rw [List.pairwise_map]
    refine List.Pairwise.sublist (List.take_sublist _ _) ?_
    exact List.sorted_insertionSort (fun a b : String × ℕ => b.2 ≤ a.2) _
  · intro e he
    show _ ∧ _ ∧ _
    have he2 : e ∈ Processor.inferFontsList [(raw.typography.stacks.body ++ raw.typography.stacks.heading) ++
        (raw.snapshots.map (fun s => s.typography.fontStack)).flatten] := he
    unfold Processor.inferFontsList at he2
    rcases List.mem_map.mp he2 with ⟨p, hp, hpe⟩
    have hpfreq : p ∈ List.foldl (fun acc2 f => if f.isEmpty then acc2 else Processor.bumpFont acc2 f)
        (List.foldl (fun acc2 f => if f.isEmpty then acc2 else Processor.bumpFont acc2 f) [] [])
        ((raw.typography.stacks.body ++ raw.typography.stacks.heading) ++
          (raw.snapshots.map (fun s => s.typography.fontStack)).flatten) := by
      have hsub := (List.take_sublist 10 (List.insertionSort (fun a b : String × ℕ => b.2 ≤ a.2)
        (List.foldl (fun acc stack => stack.foldl
          (fun acc2 f => if f.isEmpty then acc2 else Processor.bumpFont acc2 f) acc) []
          [(raw.typography.stacks.body ++ raw.typography.stacks.heading) ++
            (raw.snapshots.map (fun s => s.typography.fontStack)).flatten]))).mem hp
      rw [List.mem_insertionSort] at hsub
      simpa using hsub
    have hkeys := fontFold_keys _ _ p hpfreq
    simp only [List.map_nil, List.not_mem_nil, false_or, List.foldl_nil] at hkeys
    have hnd := fontFold_nodupKeys ((raw.typography.stacks.body ++ raw.typography.stacks.heading) ++
      (raw.snapshots.map (fun s => s.typography.fontStack)).flatten) [] (by simp)
    have hcnt := mem_freq_count _ p hnd (by simpa using hpfreq)
    rw [fontFold_countOf _ _ _ hkeys.2] at hcnt
    refine ⟨?_, ?_, ?_⟩
    · rw [← hpe]; exact hkeys.2
    · rw [← hpe]; exact hkeys.1
    · rw [← hpe]
      show p.2 = _
      rw [hcnt]
      simp [countOfF]

end Claims

namespace Claims
/-- C9 counterexample: with body stack ["Inter", "sans-serif"] the emitted
fonts list contains the generic keyword "sans-serif" — `inferFontsList`
performs no generic-keyword exclusion, contradicting the claim. -/
theorem c9_counterexample :
    ({ family := "sans-serif", count := 1 } : Processor.FontEntry) ∈
      (Processor.processRawBranding (fun _ => none) (fun _ => 0) (fun _ => "")
        { cssData := { colors := [], radii := [], spacings := [] },
          snapshots := [],
          images := [],
          colorScheme := none,
          typography := { «stacks» := { body := ["Inter", "sans-serif"], heading := [] },
                          sizes := { h1 := none, h2 := none, body := none } },
          frameworkHints := [], backgroundCandidates := none, logoCandidates := none,
          brandName := none, pageBackground := none }).fonts := by
  decide
end Claims

open JsPrim

namespace Claims

/-- JS `a || b`: when the chain produced `some s`, either `a` produced it (and
it is non-empty) or `b` did. -/
theorem jsOrStr_eq_some {a b : Option String} {s : String} (h : jsOrStr a b = some s) :
    (a = some s ∧ s.isEmpty = false) ∨ b = some s := by
  unfold jsOrStr at h
  split at h
  · next ht =>
    rw [h] at ht
    simp only [truthyStr, Bool.not_eq_true'] at ht
    exact Or.inl ⟨h, ht⟩
  · exact Or.inr h

/-- helper: a successful `byType t` link of the `pickLogo` chain names an image. -/
theorem byType_eq_some {images : List Processor.RawImage} {t : String} {s : String}
    (h : (images.find? (fun i => i.type = t)).map Processor.RawImage.src = some s) :
    ∃ i ∈ images, Processor.RawImage.src i = s ∧ i.type = t := by
  rcases Option.map_eq_some'.mp h with ⟨i, hf, hs⟩
  exact ⟨i, List.mem_of_find?_eq_some hf, hs, by simpa using List.find?_some hf⟩

/-- C10 amended: the profile's `images.logo` is the JS `||` chain over the
first image of each type in priority order logo, logo-svg, og, twitter,
favicon (an empty src is falsy and is skipped); any produced logo is a
non-empty src of one of the record's images of those five types. -/
theorem c10_amended_logo_chain (parse : Processor.ParseRGB) (log10 : ℚ → ℚ)
    (numToStr : ℚ → String) (raw : Processor.BrandingScriptReturn) :
    (Processor.processRawBranding parse log10 numToStr raw).images.logo =
      Processor.pickLogo raw.images ∧
    Processor.pickLogo raw.images =
      jsOrStr ((raw.images.find? (fun i => i.type = ("logo"))).map Processor.RawImage.src)
        (jsOrStr ((raw.images.find? (fun i => i.type = ("logo-svg"))).map Processor.RawImage.src)
          (jsOrStr ((raw.images.find? (fun i => i.type = ("og"))).map Processor.RawImage.src)
            (jsOrStr ((raw.images.find? (fun i => i.type = ("twitter"))).map Processor.RawImage.src)
              (jsOrStr ((raw.images.find? (fun i => i.type = ("favicon"))).map Processor.RawImage.src)
                none)))) ∧
    ∀ s, Processor.pickLogo raw.images = some s →
      s.isEmpty = false ∧ ∃ i ∈ raw.images, Processor.RawImage.src i = s ∧
        (i.type = ("logo") ∨ i.type = ("logo-svg") ∨ i.type = ("og") ∨
          i.type = ("twitter") ∨ i.type = ("favicon")) := by
  refine ⟨rfl, rfl, ?_⟩
  intro s h
  unfold Processor.pickLogo at h
  rcases jsOrStr_eq_some h with ⟨h1, hne⟩ | h
  · obtain ⟨i, hm, hs, ht⟩ := byType_eq_some h1
    exact ⟨hne, i, hm, hs, Or.inl ht⟩
  rcases jsOrStr_eq_some h with ⟨h1, hne⟩ | h
  · obtain ⟨i, hm, hs, ht⟩ := byType_eq_some h1
    exact ⟨hne, i, hm, hs, Or.inr (Or.inl ht)⟩
  rcases jsOrStr_eq_some h with ⟨h1, hne⟩ | h
  · obtain ⟨i, hm, hs, ht⟩ := byType_eq_some h1
    exact ⟨hne, i, hm, hs, Or.inr (Or.inr (Or.inl ht))⟩
  rcases jsOrStr_eq_some h with ⟨h1, hne⟩ | h
  · obtain ⟨i, hm, hs, ht⟩ := byType_eq_some h1
    exact ⟨hne, i, hm, hs, Or.inr (Or.inr (Or.inr (Or.inl ht)))⟩
  rcases jsOrStr_eq_some h with ⟨h1, hne⟩ | h
  · obtain ⟨i, hm, hs, ht⟩ := byType_eq_some h1
    exact ⟨hne, i, hm, hs, Or.inr (Or.inr (Or.inr (Or.inr ht)))⟩
  · simp [jsOrStr, truthyStr] at h

/-- C10 counterexample: with images `[{logo, ""}, {og, "O"}]` the profile's
logo is "O", not the src of the first image of type logo (""); and with
images `[{logo, ""}]` the logo is null although an image of type logo is
present — both contradicting the claim's characterization. -/
theorem c10_counterexample :
    (Processor.processRawBranding (fun _ => none) (fun _ => 0) (fun _ => "")
      { cssData := { colors := [], radii := [], spacings := [] },
        snapshots := [],
        images := [{ type := "logo", src := "" }, { type := "og", src := "O" }],
        colorScheme := none,
        typography := { «stacks» := { body := [], heading := [] },
                        sizes := { h1 := none, h2 := none, body := none } },
        frameworkHints := [], backgroundCandidates := none, logoCandidates := none,
        brandName := none, pageBackground := none }).images.logo = some ("O") ∧
    (Processor.processRawBranding (fun _ => none) (fun _ => 0) (fun _ => "")
      { cssData := { colors := [], radii := [], spacings := [] },
        snapshots := [],
        images := [{ type := "logo", src := "" }],
        colorScheme := none,
        typography := { «stacks» := { body := [], heading := [] },
                        sizes := { h1 := none, h2 := none, body := none } },
        frameworkHints := [], backgroundCandidates := none, logoCandidates := none,
        brandName := none, pageBackground := none }).images.logo = none ∧
    some ("O") ≠ some ("") := by
  refine ⟨?_, ?_, by decide⟩ <;> rfl

end Claims

namespace Claims

/-- Witness for C9 at a concrete record: the "Inter" entry of the fonts list
has a correct count and family drawn from the stacks. -/
theorem c9_witness :
    ("Inter" : String) ≠ "" ∧
    ("Inter" : String) ∈ ((["Inter", "sans-serif"] ++ ([] : List String)) ++ []) ∧
    (1 : ℕ) = ((["Inter", "sans-serif"] ++ ([] : List String)) ++ []).count ("Inter") := by
  have h := (c9_amended_fonts (fun _ => none) (fun _ => 0) (fun _ => "")
    { cssData := { colors := [], radii := [], spacings := [] },
      snapshots := [],
      images := [],
      colorScheme := none,
      typography := { «stacks» := { body := ["Inter", "sans-serif"], heading := [] },
                      sizes := { h1 := none, h2 := none, body := none } },
      frameworkHints := [], backgroundCandidates := none, logoCandidates := none,
      brandName := none, pageBackground := none }).2.2.2
    { family := "Inter", count := 1 } (by decide)
  simpa using h

/-- Witness for C10 at a concrete record with a single og image. -/
theorem c10_witness :
    ("O" : String).isEmpty = false ∧
    ∃ i ∈ [({ type := "og", src := "O" } : Processor.RawImage)],
      Processor.RawImage.src i = "O" ∧
      (i.type = ("logo") ∨ i.type = ("logo-svg") ∨ i.type = ("og") ∨
        i.type = ("twitter") ∨ i.type = ("favicon")) :=
  (c10_amended_logo_chain (fun _ => none) (fun _ => 0) (fun _ => "")
    { cssData := { colors := [], radii := [], spacings := [] },
      snapshots := [],
      images := [{ type := "og", src := "O" }],
      colorScheme := none,
      typography := { «stacks» := { body := [], heading := [] },
                      sizes := { h1 := none, h2 := none, body := none } },
      frameworkHints := [], backgroundCandidates := none, logoCandidates := none,
      brandName := none, pageBackground := none }).2.2 ("O") rfl

end Claims

end ClaimProofs2

section C6sec

open JsPrim

attribute [local semireducible] Rat.mul Rat.add Rat.sub Rat.inv Rat.ofScientific

namespace Claims

theorem dedupButtons_spec (parse : Processor.ParseRGB) (l : List Processor.ScoredSnap)
    (seen : List String) :
    List.Pairwise (fun a b : Processor.ScoredSnap =>
      Processor.buttonSignature parse a.1 ≠ Processor.buttonSignature parse b.1)
      (Processor.dedupButtons parse l seen) ∧
    (∀ b ∈ Processor.dedupButtons parse l seen,
      Processor.buttonSignature parse b.1 ∉ seen) ∧
    (∀ b ∈ Processor.dedupButtons parse l seen, b ∈ l) := by
  induction l generalizing seen with
  | nil => simp [Processor.dedupButtons]
  | cons x l ih =>
    simp only [Processor.dedupButtons]
    by_cases hc : seen.contains (Processor.buttonSignature parse x.1)
    · rw [if_pos hc]
      refine ⟨(ih seen).1, (ih seen).2.1, ?_⟩
      intro b hb
      exact List.mem_cons_of_mem _ ((ih seen).2.2 b hb)
    · rw [if_neg hc]
      have ihx := ih (Processor.buttonSignature parse x.1 :: seen)
      refine ⟨?_, ?_, ?_⟩
      · refine List.Pairwise.cons ?_ ihx.1
        intro b hb
        have := ihx.2.1 b hb
        simp only [List.mem_cons, not_or] at this
        exact fun hcontra => this.1 hcontra.symm
      · intro b hb
        rcases List.mem_cons.mp hb with rfl | hb2
        · intro hmem
          exact absurd hmem (by simpa using hc)
        · have := ihx.2.1 b hb2
          simp only [List.mem_cons, not_or] at this
          exact this.2
      · intro b hb
        rcases List.mem_cons.mp hb with rfl | hb2
        · exact List.mem_cons_self _ _
        · exact List.mem_cons_of_mem _ (ihx.2.2 b hb2)

end Claims
end C6sec

section C6b
open JsPrim
attribute [local semireducible] Rat.mul Rat.add Rat.sub Rat.inv Rat.ofScientific
namespace Claims

/-- C6: the deduplicated surviving button list is capped at 80; no two
survivors share a dedup signature (trimmed lower-cased text truncated to 50
chars, normalized background hex, first 5 lower-cased class tokens); and two
buttons with identical text, identical background and identical first five
class tokens (e.g. differing only in a sixth class token) receive the same
signature, hence collapse to one surviving candidate. -/
theorem c6_dedup_invariants (parse : Processor.ParseRGB) (log10 : ℚ → ℚ)
    (snapshots : List Processor.StyleSnapshot) :
    (Processor.topButtons parse log10 snapshots).length ≤ 80 ∧
    List.Pairwise (fun a b : Processor.ScoredSnap =>
      Processor.buttonSignature parse a.1 ≠ Processor.buttonSignature parse b.1)
      (Processor.topButtons parse log10 snapshots) ∧
    (∀ s1 s2 : Processor.StyleSnapshot, s1.text = s2.text →
      s1.colors.background = s2.colors.background →
      (splitWS s1.classes).take 5 = (splitWS s2.classes).take 5 →
      Processor.buttonSignature parse s1 = Processor.buttonSignature parse s2) := by
  refine ⟨?_, ?_, ?_⟩
  · simp only [Processor.topButtons]
    have := List.length_take 80 (Processor.uniqueButtons parse
      (Processor.candidateButtons parse log10 snapshots))
    omega
  · exact List.Pairwise.sublist (List.take_sublist _ _)
      (dedupButtons_spec parse (Processor.candidateButtons parse log10 snapshots) []).1
  · intro s1 s2 ht hb hcl
    unfold Processor.buttonSignature
    rw [ht, hb, hcl]

/-- Witness for C6: the spec's scenario — two buttons with identical text
"Get Started", identical background, differing only in a sixth class token,
get the same dedup signature (and hence collapse to one candidate). -/
theorem c6_witness :
    Processor.buttonSignature (fun _ => none)
      { tag := "a", classes := "btn a b c d e", text := "Get Started", rect := ⟨40, 40⟩,
        colors := { text := none, background := some "#0000FF", border := none,
                    borderWidth := none },
        typography := { family := none, fontStack := [], size := none, weight := none },
        radius := none, isButton := true, isInput := false, isLink := false,
        hasCTAIndicator := false, shadow := none } =
    Processor.buttonSignature (fun _ => none)
      { tag := "a", classes := "btn a b c d f", text := "Get Started", rect := ⟨40, 40⟩,
        colors := { text := none, background := some "#0000FF", border := none,
                    borderWidth := none },
        typography := { family := none, fontStack := [], size := none, weight := none },
        radius := none, isButton := true, isInput := false, isLink := false,
        hasCTAIndicator := false, shadow := none } :=
  (c6_dedup_invariants (fun _ => none) (fun _ => 0) []).2.2 _ _ rfl rfl (by decide)

end Claims
end C6b

section C7sec

open JsPrim


namespace Claims

open JsPrim

theorem toNat_ofNat_small (n : ℕ) (h : n < 55296) : (Char.ofNat n).toNat = n := by
  rw [Char.ofNat, dif_pos (Or.inl (by omega))]
  rfl

theorem isHexDigitCI_hexDigitCh (n : ℕ) (h : n < 16) :
    isHexDigitCI (hexDigitCh n) = true := by
  unfold hexDigitCh
  by_cases h10 : n < 10
  · rw [if_pos h10]
    unfold isHexDigitCI isDigitCh
    rw [toNat_ofNat_small (48 + n) (by omega)]
    simp
    omega
  · rw [if_neg h10]
    unfold isHexDigitCI isDigitCh
    rw [toNat_ofNat_small (87 + n) (by omega)]
    simp
    omega

theorem natHex_le255 (n : ℕ) (h : n ≤ 255) :
    natHex n ≠ [] ∧ (natHex n).length ≤ 2 ∧ ∀ c ∈ natHex n, isHexDigitCI c = true := by
  by_cases h16 : n < 16
  · have : natHex n = [hexDigitCh n] := by
      unfold natHex natHexAux
      rw [if_pos h16]
    rw [this]
    refine ⟨by simp, by simp, ?_⟩
    intro c hc
    simp only [List.mem_singleton] at hc
    rw [hc]
    exact isHexDigitCI_hexDigitCh n h16
  · obtain ⟨m, rfl⟩ : ∃ m, n = m + 1 := ⟨n - 1, by omega⟩
    have hq : (m + 1) / 16 < 16 := by omega
    have : natHex (m + 1) = [hexDigitCh ((m + 1) / 16), hexDigitCh ((m + 1) % 16)] := by
      unfold natHex natHexAux
      rw [if_neg h16]
      have hm : ∃ k, m = k + 1 := ⟨m - 1, by omega⟩
      obtain ⟨k, rfl⟩ := hm
      unfold natHexAux
      rw [if_pos hq]
      rfl
    rw [this]
    refine ⟨by simp, by simp, ?_⟩
    intro c hc
    simp only [List.mem_cons, List.mem_singleton, List.not_mem_nil, or_false] at hc
    rcases hc with hc | hc
    · rw [hc]
      exact isHexDigitCI_hexDigitCh _ hq
    · rw [hc]
      exact isHexDigitCI_hexDigitCh _ (by omega)

theorem padStart2_spec (l : List Char) (hne : l ≠ []) (hlen : l.length ≤ 2)
    (hch : ∀ c ∈ l, isHexDigitCI c = true) :
    (padStart2 l).length = 2 ∧ ∀ c ∈ padStart2 l, isHexDigitCI c = true := by
  unfold padStart2
  constructor
  · have : l.length = 1 ∨ l.length = 2 := by
      rcases l with _ | ⟨a, l⟩
      · exact absurd rfl hne
      · simp only [List.length_cons] at hlen ⊢
        omega
    rcases this with h | h <;> simp [h]
  · intro c hc
    rcases List.mem_append.mp hc with h | h
    · have : c = '0' := by
        have := List.eq_of_mem_replicate h
        exact this
      rw [this]
      decide
    · exact hch c h

theorem toUpper_eq (c : Char) :
    c.toUpper = if c.toNat ≥ 97 ∧ c.toNat ≤ 122 then Char.ofNat (c.toNat - 32) else c := rfl

theorem toUpper_hexCI (c : Char) (h : isHexDigitCI c = true) :
    isHexDigitCI c.toUpper = true := by
  unfold isHexDigitCI isDigitCh at *
  simp only [Bool.or_eq_true, decide_eq_true_eq] at h
  rw [toUpper_eq]
  by_cases hlow : c.toNat ≥ 97 ∧ c.toNat ≤ 122
  · rw [if_pos hlow]
    rw [toNat_ofNat_small (c.toNat - 32) (by omega)]
    simp only [Bool.or_eq_true, decide_eq_true_eq]
    omega
  · rw [if_neg hlow]
    simp only [Bool.or_eq_true, decide_eq_true_eq]
    tauto

end Claims

namespace Claims

open JsPrim

theorem clamp_range (i : ℤ) : 0 ≤ clamp i 0 255 ∧ clamp i 0 255 ≤ 255 := by
  unfold clamp
  omega

theorem isValidHexColor_upper (body : List Char) (hlen : body.length = 6 ∨ body.length = 8)
    (hch : ∀ c ∈ body, isHexDigitCI c = true) :
    Processor.isValidHexColor ⟨upperStr ('#' :: body)⟩ = true := by
  have hup : upperStr ('#' :: body) = '#' :: upperStr body := by
    unfold upperStr
    rw [List.map_cons]
    congr 1
  show Processor.isValidHexColor ⟨upperStr ('#' :: body)⟩ = true
  rw [hup]
  unfold Processor.isValidHexColor
  show (decide (('#' : Char).toNat = 35) && (upperStr body).all isHexDigitCI &&
      (decide ((upperStr body).length = 6) || decide ((upperStr body).length = 8))) = true
  have h1 : decide (('#' : Char).toNat = 35) = true := by decide
  have h2 : (upperStr body).all isHexDigitCI = true := by
    rw [List.all_eq_true]
    intro c hc
    rcases List.mem_map.mp hc with ⟨d, hd, hdc⟩
    rw [← hdc]
    exact toUpper_hexCI d (hch d hd)
  have h3 : (upperStr body).length = body.length := List.length_map _ _
  rcases hlen with h | h <;> simp [h1, h2, h3, h]

theorem hexChannel_spec (i : ℤ) :
    (padStart2 (natHex (clamp i 0 255).toNat)).length = 2 ∧
    ∀ c ∈ padStart2 (natHex (clamp i 0 255).toNat), isHexDigitCI c = true := by
  have hb := clamp_range i
  have h255 : (clamp i 0 255).toNat ≤ 255 := by omega
  have hn := natHex_le255 _ h255
  exact padStart2_spec _ hn.1 hn.2.1 hn.2.2

theorem jsRound_alpha_range (a : ℚ) (h0 : 0 ≤ a) (h1 : a < 1) :
    0 ≤ jsRound (a * 255) ∧ jsRound (a * 255) ≤ 255 := by
  unfold jsRound
  constructor
  · rw [Int.le_floor]
    push_cast
    nlinarith
  · have : jsRound (a * 255) < 256 := by
      unfold jsRound
      rw [Int.floor_lt]
      push_cast
      nlinarith
    unfold jsRound at this
    omega

/-- `hexify` of processor.ts emits a valid 6- or 8-digit hex string whenever
it succeeds, provided the (culori) parser reports alpha within [0, 1]. -/
theorem hexifyP_valid (parse : Processor.ParseRGB)
    (ha : ∀ s r g b a, parse s = some (r, g, b, a) → 0 ≤ a ∧ a ≤ 1)
    (o : Option String) (hx : String) (h : Processor.hexify parse o = some hx) :
    Processor.isValidHexColor hx = true := by
  rcases o with _ | s
  · simp [Processor.hexify] at h
  · simp only [Processor.hexify] at h
    by_cases hs : s.isEmpty
    · rw [if_pos hs] at h
      simp at h
    · rw [if_neg hs] at h
      rcases hp : parse s with _ | ⟨r0, g0, b0, alpha⟩
      · rw [hp] at h
        simp at h
      · rw [hp] at h
        dsimp only at h
        obtain ⟨ha0, ha1'⟩ := ha s r0 g0 b0 alpha hp
        by_cases hal : alpha < 1
        · rw [if_pos hal] at h
          have hx_eq : hx = ⟨upperStr ('#' ::
              (padStart2 (natHex (clamp (jsRound (r0 * 255)) 0 255).toNat) ++
               padStart2 (natHex (clamp (jsRound (g0 * 255)) 0 255).toNat) ++
               padStart2 (natHex (clamp (jsRound (b0 * 255)) 0 255).toNat) ++
               Processor.intHexPad2 (jsRound (alpha * 255))))⟩ := by
            exact (Option.some.injEq _ _ ▸ h).symm
          have haR := jsRound_alpha_range alpha ha0 hal
          have hA : Processor.intHexPad2 (jsRound (alpha * 255)) =
              padStart2 (natHex (jsRound (alpha * 255)).toNat) := by
            unfold Processor.intHexPad2
            rw [if_neg (by omega)]
          have hAnat : (jsRound (alpha * 255)).toNat ≤ 255 := by omega
          have hAspec := padStart2_spec (natHex (jsRound (alpha * 255)).toNat)
            (natHex_le255 _ hAnat).1 (natHex_le255 _ hAnat).2.1 (natHex_le255 _ hAnat).2.2
          rw [hx_eq]
          apply isValidHexColor_upper
          · right
            rw [hA]
            simp only [List.length_append]
            rw [(hexChannel_spec (jsRound (r0 * 255))).1,
               (hexChannel_spec (jsRound (g0 * 255))).1,
               (hexChannel_spec (jsRound (b0 * 255))).1, hAspec.1]
          · intro c hc
            rw [hA] at hc
            simp only [List.append_assoc, List.mem_append] at hc
            rcases hc with hc | hc | hc | hc
            · exact (hexChannel_spec (jsRound (r0 * 255))).2 c hc
            · exact (hexChannel_spec (jsRound (g0 * 255))).2 c hc
            · exact (hexChannel_spec (jsRound (b0 * 255))).2 c hc
            · exact hAspec.2 c hc
        · rw [if_neg hal] at h
          have hx_eq : hx = ⟨upperStr ('#' ::
              (padStart2 (natHex (clamp (jsRound (r0 * 255)) 0 255).toNat) ++
               padStart2 (natHex (clamp (jsRound (g0 * 255)) 0 255).toNat) ++
               padStart2 (natHex (clamp (jsRound (b0 * 255)) 0 255).toNat)))⟩ := by
            exact (Option.some.injEq _ _ ▸ h).symm
          rw [hx_eq]
          apply isValidHexColor_upper
          · left
            simp only [List.length_append]
            rw [(hexChannel_spec (jsRound (r0 * 255))).1,
               (hexChannel_spec (jsRound (g0 * 255))).1,
               (hexChannel_spec (jsRound (b0 * 255))).1]
          · intro c hc
            simp only [List.append_assoc, List.mem_append] at hc
            rcases hc with hc | hc | hc
            · exact (hexChannel_spec (jsRound (r0 * 255))).2 c hc
            · exact (hexChannel_spec (jsRound (g0 * 255))).2 c hc
            · exact (hexChannel_spec (jsRound (b0 * 255))).2 c hc

theorem isValidHexColor_ne_empty (s : String) (h : Processor.isValidHexColor s = true) :
    ¬ s.isEmpty := by
  intro he
  rw [String.isEmpty_iff] at he
  rw [he] at h
  simp [Processor.isValidHexColor] at h

end Claims

namespace Claims

open JsPrim

theorem mapBump_keys (freq : List (String × ℚ)) (h : String) (w : ℚ) :
    ∀ p ∈ Processor.mapBump freq h w, p.1 ∈ freq.map Prod.fst ∨ p.1 = h := by
  unfold Processor.mapBump
  split
  · intro p hp
    rcases List.mem_map.mp hp with ⟨q, hq, hgq⟩
    have hpq : p.1 = q.1 := by
      by_cases hqx : q.1 = h <;> simp [hqx] at hgq <;> simp [← hgq, hqx]
    rw [hpq]
    exact Or.inl (List.mem_map.mpr ⟨q, hq, rfl⟩)
  · intro p hp
    rcases List.mem_append.mp hp with h2 | h2
    · exact Or.inl (List.mem_map.mpr ⟨p, h2, rfl⟩)
    · simp only [List.mem_singleton] at h2
      right
      rw [h2]

theorem bump_pres {P : String → Prop} (fr : List (String × ℚ)) (hex : Option String) (w : ℚ)
    (hfr : ∀ p ∈ fr, P p.1) (hhex : ∀ hh, hex = some hh → P hh) :
    ∀ p ∈ Processor.bump fr hex w, P p.1 := by
  unfold Processor.bump
  rcases hex with _ | hh
  · exact hfr
  · dsimp only
    by_cases he : hh.isEmpty
    · rw [if_pos he]
      exact hfr
    · rw [if_neg he]
      intro p hp
      rcases mapBump_keys fr hh w p hp with h2 | h2
      · rcases List.mem_map.mp h2 with ⟨q, hq, hqk⟩
        rw [← hqk]
        exact hfr q hq
      · rw [h2]
        exact hhex hh rfl

theorem snapFold_pres {P : String → Prop} (parse : Processor.ParseRGB) (log10 : ℚ → ℚ)
    (snapshots : List Processor.StyleSnapshot) (fr : List (String × ℚ))
    (hfr : ∀ p ∈ fr, P p.1)
    (hhex : ∀ (o : Option String) hh, Processor.hexify parse o = some hh → P hh) :
    ∀ p ∈ snapshots.foldl (fun fr s =>
      let area := max 1 (s.rect.w * s.rect.h)
      let frA := Processor.bump fr (Processor.hexify parse s.colors.background)
        (1 / 2 + log10 (area + 10))
      let frB := Processor.bump frA (Processor.hexify parse s.colors.text) 1
      Processor.bump frB (Processor.hexify parse s.colors.border) (3 / 10)) fr,
      P p.1 := by
  induction snapshots generalizing fr with
  | nil => exact hfr
  | cons s rest ih =>
    simp only [List.foldl_cons]
    exact ih _ (bump_pres _ _ _ (bump_pres _ _ _ (bump_pres _ _ _ hfr
      (hhex s.colors.background)) (hhex s.colors.text)) (hhex s.colors.border))

theorem cssFold_pres {P : String → Prop} (parse : Processor.ParseRGB)
    (cssColors : List String) (fr : List (String × ℚ))
    (hfr : ∀ p ∈ fr, P p.1)
    (hhex : ∀ (o : Option String) hh, Processor.hexify parse o = some hh → P hh) :
    ∀ p ∈ cssColors.foldl (fun fr c =>
      Processor.bump fr (Processor.hexify parse (some c)) (1 / 2)) fr, P p.1 := by
  induction cssColors generalizing fr with
  | nil => exact hfr
  | cons c rest ih =>
    simp only [List.foldl_cons]
    exact ih _ (bump_pres _ _ _ hfr (hhex (some c)))

theorem paletteFreq_valid (parse : Processor.ParseRGB)
    (ha : ∀ s r g b a, parse s = some (r, g, b, a) → 0 ≤ a ∧ a ≤ 1)
    (log10 : ℚ → ℚ) (snapshots : List Processor.StyleSnapshot) (cssColors : List String)
    (pageBackground : Option String) :
    ∀ p ∈ Processor.paletteFreq parse log10 snapshots cssColors pageBackground,
      Processor.isValidHexColor p.1 = true := by
  have hhex : ∀ (o : Option String) hh, Processor.hexify parse o = some hh →
      Processor.isValidHexColor hh = true := fun o hh h => hexifyP_valid parse ha o hh h
  unfold Processor.paletteFreq
  refine cssFold_pres parse cssColors _ ?_ hhex
  refine snapFold_pres parse log10 snapshots _ ?_ hhex
  split
  · exact bump_pres [] _ 1000 (by simp) (hhex pageBackground)
  · simp

theorem rankedColors_valid (parse : Processor.ParseRGB)
    (ha : ∀ s r g b a, parse s = some (r, g, b, a) → 0 ≤ a ∧ a ≤ 1)
    (log10 : ℚ → ℚ) (snapshots : List Processor.StyleSnapshot) (cssColors : List String)
    (pageBackground : Option String) :
    ∀ h ∈ Processor.rankedColors parse log10 snapshots cssColors pageBackground,
      Processor.isValidHexColor h = true := by
  intro h hm
  unfold Processor.rankedColors at hm
  rcases List.mem_map.mp hm with ⟨p, hp, hpk⟩
  rw [List.mem_insertionSort] at hp
  rw [← hpk]
  exact paletteFreq_valid parse ha log10 snapshots cssColors pageBackground p hp

end Claims

namespace Claims

open JsPrim

theorem jsOrDefault_pres (P : String → Prop) (a : Option String) (d : String)
    (hA : ∀ s, a = some s → P s) (hd : P d) : P (jsOrDefault a d) := by
  unfold jsOrDefault
  rcases a with _ | s
  · exact hd
  · dsimp only
    by_cases he : s.isEmpty
    · rw [if_pos he]
      exact hd
    · rw [if_neg he]
      exact hA s rfl

theorem jsOrStr_pres (P : String → Prop) (a b : Option String)
    (hA : ∀ s, a = some s → P s) (hB : ∀ s, b = some s → P s) :
    ∀ s, jsOrStr a b = some s → P s := by
  intro s h
  unfold jsOrStr at h
  split at h
  · exact hA s h
  · exact hB s h

theorem find?_pres (P : String → Prop) (l : List String) (f : String → Bool)
    (hl : ∀ h ∈ l, P h) : ∀ s, l.find? f = some s → P s :=
  fun s hs => hl s (List.mem_of_find?_eq_some hs)

theorem pageBgHexGray_valid (parse : Processor.ParseRGB)
    (ha : ∀ s r g b a, parse s = some (r, g, b, a) → 0 ≤ a ∧ a ≤ 1)
    (pageBackground : Option String) :
    Processor.isValidHexColor (Processor.pageBgHexGray parse pageBackground) = true := by
  unfold Processor.pageBgHexGray
  split
  · split
    · next h heq =>
      by_cases he : h.isEmpty
      · rw [if_pos he]
        decide
      · rw [if_neg he]
        split
        · exact hexifyP_valid parse ha pageBackground h heq
        · decide
    · decide
  · decide

theorem paletteBackground_valid (parse : Processor.ParseRGB)
    (ha : ∀ s r g b a, parse s = some (r, g, b, a) → 0 ≤ a ∧ a ≤ 1)
    (log10 : ℚ → ℚ) (snapshots : List Processor.StyleSnapshot) (cssColors : List String)
    (colorScheme : Option Processor.ColorScheme) (pageBackground : Option String) :
    Processor.isValidHexColor (Processor.paletteBackground parse log10 snapshots cssColors
      colorScheme pageBackground) = true := by
  have hfindp := fun f => find?_pres (fun s => Processor.isValidHexColor s = true)
    (Processor.rankedColors parse log10 snapshots cssColors pageBackground) f
    (rankedColors_valid parse ha log10 snapshots cssColors pageBackground)
  unfold Processor.paletteBackground
  dsimp only
  split
  · split
    · exact jsOrDefault_pres (fun s => Processor.isValidHexColor s = true) _ _
        (jsOrStr_pres (fun s => Processor.isValidHexColor s = true) _ _ (hfindp _) (hfindp _))
        (by decide)
    · exact jsOrDefault_pres (fun s => Processor.isValidHexColor s = true) _ _ (hfindp _)
        (by decide)
  · exact pageBgHexGray_valid parse ha pageBackground

theorem paletteTextPrimary_valid (parse : Processor.ParseRGB)
    (ha : ∀ s r g b a, parse s = some (r, g, b, a) → 0 ≤ a ∧ a ≤ 1)
    (log10 : ℚ → ℚ) (snapshots : List Processor.StyleSnapshot) (cssColors : List String)
    (colorScheme : Option Processor.ColorScheme) (pageBackground : Option String) :
    Processor.isValidHexColor (Processor.paletteTextPrimary parse log10 snapshots cssColors
      colorScheme pageBackground) = true := by
  have hfindp := fun f => find?_pres (fun s => Processor.isValidHexColor s = true)
    (Processor.rankedColors parse log10 snapshots cssColors pageBackground) f
    (rankedColors_valid parse ha log10 snapshots cssColors pageBackground)
  unfold Processor.paletteTextPrimary
  refine jsOrDefault_pres (fun s => Processor.isValidHexColor s = true) _ _ (hfindp _) ?_
  split <;> decide

theorem palettePrimary_valid (parse : Processor.ParseRGB)
    (ha : ∀ s r g b a, parse s = some (r, g, b, a) → 0 ≤ a ∧ a ≤ 1)
    (log10 : ℚ → ℚ) (snapshots : List Processor.StyleSnapshot) (cssColors : List String)
    (colorScheme : Option Processor.ColorScheme) (pageBackground : Option String) :
    Processor.isValidHexColor (Processor.palettePrimary parse log10 snapshots cssColors
      colorScheme pageBackground) = true := by
  have hfindp := fun f => find?_pres (fun s => Processor.isValidHexColor s = true)
    (Processor.rankedColors parse log10 snapshots cssColors pageBackground) f
    (rankedColors_valid parse ha log10 snapshots cssColors pageBackground)
  unfold Processor.palettePrimary
  refine jsOrDefault_pres (fun s => Processor.isValidHexColor s = true) _ _ (hfindp _) ?_
  split <;> decide

theorem paletteAccent_valid (parse : Processor.ParseRGB)
    (ha : ∀ s r g b a, parse s = some (r, g, b, a) → 0 ≤ a ∧ a ≤ 1)
    (log10 : ℚ → ℚ) (snapshots : List Processor.StyleSnapshot) (cssColors : List String)
    (colorScheme : Option Processor.ColorScheme) (pageBackground : Option String) :
    Processor.isValidHexColor (Processor.paletteAccent parse log10 snapshots cssColors
      colorScheme pageBackground) = true := by
  have hfindp := fun f => find?_pres (fun s => Processor.isValidHexColor s = true)
    (Processor.rankedColors parse log10 snapshots cssColors pageBackground) f
    (rankedColors_valid parse ha log10 snapshots cssColors pageBackground)
  unfold Processor.paletteAccent
  exact jsOrDefault_pres (fun s => Processor.isValidHexColor s = true) _ _ (hfindp _)
    (palettePrimary_valid parse ha log10 snapshots cssColors colorScheme pageBackground)

end Claims

namespace Claims

open JsPrim

theorem topButtons_eligible (parse : Processor.ParseRGB) (log10 : ℚ → ℚ)
    (snapshots : List Processor.StyleSnapshot) :
    ∀ b ∈ Processor.topButtons parse log10 snapshots,
      Processor.eligibleButton parse b.1 = true := by
  intro b hb
  have h1 : b ∈ Processor.uniqueButtons parse (Processor.candidateButtons parse log10 snapshots) :=
    (List.take_sublist 80 _).mem hb
  have h2 : b ∈ Processor.candidateButtons parse log10 snapshots :=
    (dedupButtons_spec parse (Processor.candidateButtons parse log10 snapshots) []).2.2 b h1
  unfold Processor.candidateButtons at h2
  rw [List.mem_insertionSort] at h2
  rcases List.mem_map.mp h2 with ⟨s, hsf, heq⟩
  have hse := (List.mem_filter.mp hsf).2
  rw [← heq]
  exact hse

theorem eligible_truthy_bg (parse : Processor.ParseRGB) (s : Processor.StyleSnapshot)
    (h : Processor.eligibleButton parse s = true) :
    truthyStr (Processor.hexify parse s.colors.background) = true := by
  unfold Processor.eligibleButton at h
  simp only [Bool.and_eq_true] at h
  exact h.2

theorem mkButtonSnapshot_valid (parse : Processor.ParseRGB)
    (ha : ∀ s r g b a, parse s = some (r, g, b, a) → 0 ≤ a ∧ a ≤ 1)
    (numToStr : ℚ → String) (idx : ℕ) (s : Processor.StyleSnapshot)
    (helig : Processor.eligibleButton parse s = true) :
    Processor.isValidHexColor (Processor.mkButtonSnapshot parse numToStr idx s).background = true ∧
    Processor.isValidHexColor (Processor.mkButtonSnapshot parse numToStr idx s).textColor = true ∧
    ∀ c, (Processor.mkButtonSnapshot parse numToStr idx s).borderColor = some c →
      Processor.isValidHexColor c = true := by
  unfold Processor.mkButtonSnapshot
  dsimp only
  refine ⟨?_, ?_, ?_⟩
  · have ht := eligible_truthy_bg parse s helig
    rcases hh : Processor.hexify parse s.colors.background with _ | h
    · rw [hh] at ht
      simp [truthyStr] at ht
    · rw [hh] at ht
      have hne : ¬ h.isEmpty = true := by simpa [truthyStr] using ht
      unfold jsOrDefault
      dsimp only
      rw [if_neg hne]
      exact hexifyP_valid parse ha s.colors.background h hh
  · refine jsOrDefault_pres (fun t => Processor.isValidHexColor t = true) _ _ ?_ (by decide)
    intro t hht
    exact hexifyP_valid parse ha s.colors.text t hht
  · intro c hc
    split at hc
    · split at hc
      · exact hexifyP_valid parse ha s.colors.border c hc
      · simp at hc
    · simp at hc

/-- C7: every color value emitted in the produced profile — the palette
entries, the button snapshots' background/text/border colors, and the
component colors — is a valid 6- or 8-digit hex string (border colors may
also be null), provided the external culori parser reports alpha channels
within [0, 1]. -/
theorem c7_emitted_colors_valid (parse : Processor.ParseRGB)
    (ha : ∀ s r g b a, parse s = some (r, g, b, a) → 0 ≤ a ∧ a ≤ 1)
    (log10 : ℚ → ℚ) (numToStr : ℚ → String) (raw : Processor.BrandingScriptReturn) :
    (Processor.isValidHexColor
        (Processor.processRawBranding parse log10 numToStr raw).colors.primary = true ∧
      Processor.isValidHexColor
        (Processor.processRawBranding parse log10 numToStr raw).colors.accent = true ∧
      Processor.isValidHexColor
        (Processor.processRawBranding parse log10 numToStr raw).colors.background = true ∧
      Processor.isValidHexColor
        (Processor.processRawBranding parse log10 numToStr raw).colors.textPrimary = true ∧
      Processor.isValidHexColor
        (Processor.processRawBranding parse log10 numToStr raw).colors.link = true) ∧
    Processor.isValidHexColor
      (Processor.processRawBranding parse log10 numToStr raw).components.input.borderColor
        = true ∧
    ∀ b ∈ ((Processor.processRawBranding parse log10 numToStr raw).button_snapshots.getD []),
      Processor.isValidHexColor b.background = true ∧
      Processor.isValidHexColor b.textColor = true ∧
      ∀ c, b.borderColor = some c → Processor.isValidHexColor c = true := by
  refine ⟨⟨?_, ?_, ?_, ?_, ?_⟩, ?_, ?_⟩
  · exact palettePrimary_valid parse ha log10 raw.snapshots raw.cssData.colors raw.colorScheme
      raw.pageBackground
  · exact paletteAccent_valid parse ha log10 raw.snapshots raw.cssData.colors raw.colorScheme
      raw.pageBackground
  · exact paletteBackground_valid parse ha log10 raw.snapshots raw.cssData.colors raw.colorScheme
      raw.pageBackground
  · exact paletteTextPrimary_valid parse ha log10 raw.snapshots raw.cssData.colors raw.colorScheme
      raw.pageBackground
  · exact paletteAccent_valid parse ha log10 raw.snapshots raw.cssData.colors raw.colorScheme
      raw.pageBackground
  · show Processor.isValidHexColor ("#CCCCCC") = true
    decide
  · intro b hb
    have hb2 : b ∈ (Processor.topButtons parse log10 raw.snapshots).enum.map
        (fun p => Processor.mkButtonSnapshot parse numToStr p.1 p.2.1) := hb
    rcases List.mem_map.mp hb2 with ⟨p, hp, hpe⟩
    have hmem : p.2 ∈ Processor.topButtons parse log10 raw.snapshots :=
      List.snd_mem_of_mem_enum hp
    have helig := topButtons_eligible parse log10 raw.snapshots p.2 hmem
    rw [← hpe]
    exact mkButtonSnapshot_valid parse ha numToStr p.1 p.2.1 helig

end Claims

namespace Claims

/-- Witness for C7 at a concrete record and a parser that never succeeds
(alpha hypothesis holds vacuously). -/
theorem c7_witness :
    Processor.isValidHexColor
      (Processor.processRawBranding (fun _ => none) (fun _ => 0) (fun _ => "")
        { cssData := { colors := [], radii := [], spacings := [] },
          snapshots := [], images := [], colorScheme := none,
          typography := { «stacks» := { body := [], heading := [] },
                          sizes := { h1 := none, h2 := none, body := none } },
          frameworkHints := [], backgroundCandidates := none, logoCandidates := none,
          brandName := none, pageBackground := none }).colors.primary = true ∧
    Processor.isValidHexColor
      (Processor.processRawBranding (fun _ => none) (fun _ => 0) (fun _ => "")
        { cssData := { colors := [], radii := [], spacings := [] },
          snapshots := [], images := [], colorScheme := none,
          typography := { «stacks» := { body := [], heading := [] },
                          sizes := { h1 := none, h2 := none, body := none } },
          frameworkHints := [], backgroundCandidates := none, logoCandidates := none,
          brandName := none, pageBackground := none }).components.input.borderColor = true := by
  have h := c7_emitted_colors_valid (fun _ => none)
    (fun _ _ _ _ _ hx => Option.noConfusion hx) (fun _ => 0) (fun _ => "")
    { cssData := { colors := [], radii := [], spacings := [] },
      snapshots := [], images := [], colorScheme := none,
      typography := { «stacks» := { body := [], heading := [] },
                      sizes := { h1 := none, h2 := none, body := none } },
      frameworkHints := [], backgroundCandidates := none, logoCandidates := none,
      brandName := none, pageBackground := none }
  exact ⟨h.1.1, h.2.1⟩

end Claims

end C7sec


section C8sec

open JsPrim

attribute [local semireducible] Rat.mul Rat.add Rat.sub Rat.inv Rat.ofScientific

namespace Claims

/-- The CTA keyword list as enumerated by the spec (§4.2); the source's list
additionally contains the redundant entries "start deploying" (subsumed by
"start") and a duplicate "join". -/
def specCtaKeywords : List String :=
  ["sign up", "get started", "deploy", "try", "demo", "contact", "buy", "subscribe",
   "join", "register", "free", "start", "get"]

/-- The button score following the spec's words (§4.2): 1000 for an explicit
CTA indicator, +500 for a CTA keyword in the lower-cased text, +300 for a
non-near-white background, +100 for text length in (0, 50), plus
`10·log10(area + 1)`. -/
def specButtonScore (parse : Processor.ParseRGB) (log10 : ℚ → ℚ)
    (s : Processor.StyleSnapshot) : ℚ :=
  (if s.hasCTAIndicator then 1000 else 0) +
  (if specCtaKeywords.any (fun kw => jsIncludes ⟨lowerStr s.text.data⟩ kw) then 500 else 0) +
  (match Processor.hexify parse s.colors.background with
   | some h =>
     if !h.isEmpty && decide (h ≠ "#FFFFFF") && decide (h ≠ "#FAFAFA") &&
        decide (h ≠ "#F5F5F5") then 300 else 0
   | none => 0) +
  (if 0 < (⟨lowerStr s.text.data⟩ : String).length ∧
      (⟨lowerStr s.text.data⟩ : String).length < 50 then 100 else 0) +
  10 * log10 (s.rect.w * s.rect.h + 1)

theorem cta_any_eq (t : String) :
    Processor.ctaKeywords.any (fun kw => jsIncludes t kw) =
    specCtaKeywords.any (fun kw => jsIncludes t kw) := by
  apply Bool.eq_iff_iff.mpr
  simp only [List.any_eq_true]
  constructor
  · rintro ⟨kw, hkw, hinc⟩
    have hstart : jsIncludes t ("start deploying") = true → jsIncludes t ("start") = true := by
      intro h
      unfold jsIncludes at h ⊢
      rw [decide_eq_true_eq] at h ⊢
      have hpre : ("start".data) <+: ("start deploying".data) := by decide
      exact hpre.isInfix.trans h
    fin_cases hkw
    · exact ⟨"sign up", by decide, hinc⟩
    · exact ⟨"get started", by decide, hinc⟩
    · exact ⟨"start", by decide, hstart hinc⟩
    · exact ⟨"start", by decide, hinc⟩
    · exact ⟨"deploy", by decide, hinc⟩
    · exact ⟨"try", by decide, hinc⟩
    · exact ⟨"demo", by decide, hinc⟩
    · exact ⟨"contact", by decide, hinc⟩
    · exact ⟨"buy", by decide, hinc⟩
    · exact ⟨"subscribe", by decide, hinc⟩
    · exact ⟨"join", by decide, hinc⟩
    · exact ⟨"register", by decide, hinc⟩
    · exact ⟨"get", by decide, hinc⟩
    · exact ⟨"free", by decide, hinc⟩
    · exact ⟨"join", by decide, hinc⟩
  · rintro ⟨kw, hkw, hinc⟩
    fin_cases hkw
    · exact ⟨"sign up", by decide, hinc⟩
    · exact ⟨"get started", by decide, hinc⟩
    · exact ⟨"deploy", by decide, hinc⟩
    · exact ⟨"try", by decide, hinc⟩
    · exact ⟨"demo", by decide, hinc⟩
    · exact ⟨"contact", by decide, hinc⟩
    · exact ⟨"buy", by decide, hinc⟩
    · exact ⟨"subscribe", by decide, hinc⟩
    · exact ⟨"join", by decide, hinc⟩
    · exact ⟨"register", by decide, hinc⟩
    · exact ⟨"free", by decide, hinc⟩
    · exact ⟨"start", by decide, hinc⟩
    · exact ⟨"get", by decide, hinc⟩

theorem buttonScore_eq_spec (parse : Processor.ParseRGB) (log10 : ℚ → ℚ)
    (s : Processor.StyleSnapshot) :
    Processor.buttonScore parse log10 s = specButtonScore parse log10 s := by
  unfold Processor.buttonScore specButtonScore
  dsimp only
  rw [cta_any_eq]
  ring

theorem truthyStr_iff (o : Option String) :
    truthyStr o = true ↔ ∃ h, o = some h ∧ h ≠ "" := by
  rcases o with _ | t
  · simp [truthyStr]
  · simp only [truthyStr, Bool.not_eq_true', Option.some.injEq]
    constructor
    · intro h
      refine ⟨t, rfl, ?_⟩
      intro hc
      rw [hc] at h
      exact absurd h (by decide)
    · rintro ⟨h, rfl, hne⟩
      by_cases he : t.isEmpty = true
      · exact absurd ((String.isEmpty_iff t).mp he) hne
      · exact Bool.not_eq_true _ |>.mp he

theorem jsTrim_empty : jsTrim "" = "" := rfl

theorem textCond_iff (t : String) :
    (!(t.isEmpty || (jsTrim t).isEmpty)) = true ↔ jsTrim t ≠ "" := by
  simp only [Bool.not_eq_true', Bool.or_eq_false_iff]
  constructor
  · rintro ⟨_, h2⟩ hc
    rw [hc] at h2
    exact absurd h2 (by decide)
  · intro h
    constructor
    · by_cases he : t.isEmpty = true
      · exact absurd (by rw [(String.isEmpty_iff t).mp he]; exact jsTrim_empty) h
      · exact (Bool.not_eq_true _).mp he
    · by_cases he : (jsTrim t).isEmpty = true
      · exact absurd ((String.isEmpty_iff _).mp he) h
      · exact (Bool.not_eq_true _).mp he

theorem eligibleButton_iff (parse : Processor.ParseRGB) (s : Processor.StyleSnapshot) :
    Processor.eligibleButton parse s = true ↔
      (s.isButton = true ∧ 30 ≤ s.rect.w ∧ 30 ≤ s.rect.h ∧ jsTrim s.text ≠ "" ∧
        ∃ h, Processor.hexify parse s.colors.background = some h ∧ h ≠ "") := by
  unfold Processor.eligibleButton
  simp only [Bool.and_eq_true]
  rw [textCond_iff, truthyStr_iff]
  constructor
  · rintro ⟨⟨⟨hb, hdim⟩, ht⟩, hbg⟩
    simp only [Bool.not_eq_true', Bool.or_eq_false_iff, decide_eq_false_iff_not, not_lt] at hdim
    exact ⟨hb, hdim.1, hdim.2, ht, hbg⟩
  · rintro ⟨hb, hw, hh, ht, hbg⟩
    refine ⟨⟨⟨hb, ?_⟩, ht⟩, hbg⟩
    simp only [Bool.not_eq_true', Bool.or_eq_false_iff, decide_eq_false_iff_not, not_lt]
    exact ⟨hw, hh⟩

/-- C8 amended: a snapshot becomes a button candidate iff it is flagged as a
button, both dimensions are at least 30px, its text is non-blank (non-empty
after trimming), and its background normalizes to a hex value; every
candidate's score equals the spec's formula (1000 CTA indicator + 500 CTA
keyword + 300 non-near-white background + 100 text length in (0,50) +
10·log10(area+1)); candidates are sorted by score descending. -/
theorem c8_amended_scoring (parse : Processor.ParseRGB) (log10 : ℚ → ℚ)
    (snapshots : List Processor.StyleSnapshot) :
    (∀ s : Processor.StyleSnapshot,
      (∃ sc, (s, sc) ∈ Processor.candidateButtons parse log10 snapshots) ↔
        (s ∈ snapshots ∧ s.isButton = true ∧ 30 ≤ s.rect.w ∧ 30 ≤ s.rect.h ∧
          jsTrim s.text ≠ "" ∧
          ∃ h, Processor.hexify parse s.colors.background = some h ∧ h ≠ "")) ∧
    (∀ s sc, (s, sc) ∈ Processor.candidateButtons parse log10 snapshots →
      sc = specButtonScore parse log10 s) ∧
    List.Sorted (fun a b : Processor.ScoredSnap => b.2 ≤ a.2)
      (Processor.candidateButtons parse log10 snapshots) := by
  refine ⟨?_, ?_, ?_⟩
  · intro s
    constructor
    · rintro ⟨sc, hmem⟩
      unfold Processor.candidateButtons at hmem
      rw [List.mem_insertionSort] at hmem
      rcases List.mem_map.mp hmem with ⟨s2, hs2, heq⟩
      have hfil := List.mem_filter.mp hs2
      have hs2s : s2 = s := congrArg Prod.fst heq
      rw [hs2s] at hfil
      exact ⟨hfil.1, (eligibleButton_iff parse s).mp hfil.2⟩
    · rintro ⟨hmem, hcond⟩
      refine ⟨Processor.buttonScore parse log10 s, ?_⟩
      unfold Processor.candidateButtons
      rw [List.mem_insertionSort]
      refine List.mem_map.mpr ⟨s, ?_, rfl⟩
      exact List.mem_filter.mpr ⟨hmem, (eligibleButton_iff parse s).mpr hcond⟩
  · intro s sc hmem
    unfold Processor.candidateButtons at hmem
    rw [List.mem_insertionSort] at hmem
    rcases List.mem_map.mp hmem with ⟨s2, _, heq⟩
    have hs2s : s2 = s := congrArg Prod.fst heq
    have hsc : Processor.buttonScore parse log10 s2 = sc := congrArg Prod.snd heq
    rw [hs2s] at hsc
    rw [← hsc]
    exact buttonScore_eq_spec parse log10 s
  · exact List.sorted_insertionSort _ _

/-- C8 counterexample: a snapshot flagged as a button, 40x40, with
whitespace-only text " " and a background that normalizes to a hex value
satisfies every condition listed by the claim (its text is non-empty), yet
it yields no button candidate — the source additionally requires the text to
be non-blank after trimming. -/
theorem c8_counterexample :
    Processor.candidateButtons (fun _ => some (0, 0, 1, 1)) (fun _ => 0)
      [{ tag := "a", classes := "", text := " ", rect := ⟨40, 40⟩,
         colors := { text := none, background := some "#00F", border := none,
                     borderWidth := none },
         typography := { family := none, fontStack := [], size := none, weight := none },
         radius := none, isButton := true, isInput := false, isLink := false,
         hasCTAIndicator := false, shadow := none }] = [] ∧
    (" " : String) ≠ "" ∧
    Processor.hexify (fun _ => some (0, 0, 1, 1)) (some ("#00F")) = some ("#0000FF") := by
  refine ⟨by decide, by decide, by decide⟩

/-- Witness for C8 at a concrete candidate: its emitted score equals the
spec's formula. -/
theorem c8_witness :
    Processor.buttonScore (fun _ => some (0, 0, 1, 1)) (fun _ => 0)
      { tag := "a", classes := "", text := "Go", rect := ⟨40, 40⟩,
        colors := { text := none, background := some "#00F", border := none,
                    borderWidth := none },
        typography := { family := none, fontStack := [], size := none, weight := none },
        radius := none, isButton := true, isInput := false, isLink := false,
        hasCTAIndicator := false, shadow := none } =
    specButtonScore (fun _ => some (0, 0, 1, 1)) (fun _ => 0)
      { tag := "a", classes := "", text := "Go", rect := ⟨40, 40⟩,
        colors := { text := none, background := some "#00F", border := none,
                    borderWidth := none },
        typography := { family := none, fontStack := [], size := none, weight := none },
        radius := none, isButton := true, isInput := false, isLink := false,
        hasCTAIndicator := false, shadow := none } :=
  (c8_amended_scoring (fun _ => some (0, 0, 1, 1)) (fun _ => 0)
    [{ tag := "a", classes := "", text := "Go", rect := ⟨40, 40⟩,
       colors := { text := none, background := some "#00F", border := none,
                   borderWidth := none },
       typography := { family := none, fontStack := [], size := none, weight := none },
       radius := none, isButton := true, isInput := false, isLink := false,
       hasCTAIndicator := false, shadow := none }]).2.1 _ _ (by decide)

end Claims

end C8sec

section C1C2sec

open JsPrim Processor

namespace Claims

/-- C1: whenever the Classification Collaborator call fails or throws, the
transformer returns the heuristic profile produced by `processRawBranding`
unchanged in every field, except that the `__button_snapshots` debug payload
is stripped when debug mode is off. -/
theorem c1_fallback (debugBranding : Bool)
    (enhance : Transformer.EnhanceArgs → Except Unit Merge.LLMEnhancement)
    (parse : ParseRGB) (log10 : ℚ → ℚ) (numToStr : ℚ → String)
    (raw : BrandingScriptReturn)
    (hfail : ∀ a, enhance a = Except.error ()) :
    Transformer.brandingTransformer debugBranding enhance parse log10 numToStr raw =
      { processRawBranding parse log10 numToStr raw with
        button_snapshots :=
          if debugBranding then
            (processRawBranding parse log10 numToStr raw).button_snapshots
          else none } := by
  simp only [Transformer.brandingTransformer, hfail]
  cases debugBranding <;> rfl

/-- Witness for C1: a constantly failing Collaborator on the empty raw
record, debug mode off. -/
theorem c1_witness :
    Transformer.brandingTransformer false (fun _ => Except.error ())
      (fun _ => none) (fun _ => 0) (fun _ => "")
      { cssData := { colors := [], radii := [], spacings := [] },
        snapshots := [], images := [], colorScheme := none,
        typography := { «stacks» := { body := [], heading := [] },
                        sizes := { h1 := none, h2 := none, body := none } },
        frameworkHints := [], backgroundCandidates := none, logoCandidates := none,
        brandName := none, pageBackground := none } =
      { processRawBranding (fun _ => none) (fun _ => 0) (fun _ => "")
          { cssData := { colors := [], radii := [], spacings := [] },
            snapshots := [], images := [], colorScheme := none,
            typography := { «stacks» := { body := [], heading := [] },
                            sizes := { h1 := none, h2 := none, body := none } },
            frameworkHints := [], backgroundCandidates := none, logoCandidates := none,
            brandName := none, pageBackground := none } with
        button_snapshots :=
          if (false : Bool) then
            (processRawBranding (fun _ => none) (fun _ => 0) (fun _ => "")
              { cssData := { colors := [], radii := [], spacings := [] },
                snapshots := [], images := [], colorScheme := none,
                typography := { «stacks» := { body := [], heading := [] },
                                sizes := { h1 := none, h2 := none, body := none } },
                frameworkHints := [], backgroundCandidates := none,
                logoCandidates := none, brandName := none,
                pageBackground := none }).button_snapshots
          else none } :=
  c1_fallback false (fun _ => Except.error ()) (fun _ => none) (fun _ => 0)
    (fun _ => "")
    { cssData := { colors := [], radii := [], spacings := [] },
      snapshots := [], images := [], colorScheme := none,
      typography := { «stacks» := { body := [], heading := [] },
                      sizes := { h1 := none, h2 := none, body := none } },
      frameworkHints := [], backgroundCandidates := none, logoCandidates := none,
      brandName := none, pageBackground := none }
    (fun _ => rfl)

/-- C2: the Merger decides every field independently and never dereferences
an out-of-bounds index: a button or logo index outside
`[0, candidates.length)` leaves the corresponding field at its heuristic
value, an in-bounds index is applied, and each color role is overridden
exactly when present and a valid hex value, regardless of the other fields. -/
theorem c2_merge_bounds (js : BrandingProfile) (enh : Merge.LLMEnhancement)
    (buttons : List ButtonSnapshot) (cands : List String) :
    (∀ i, enh.buttonClassification.primaryButtonIndex = some i →
        (i < 0 ∨ (buttons.length : ℤ) ≤ i) →
        (Merge.mergeBrandingResults js enh buttons (some cands)).primaryButton =
          js.primaryButton) ∧
    (∀ i b, enh.buttonClassification.primaryButtonIndex = some i → 0 ≤ i →
        buttons.get? i.toNat = some b →
        (Merge.mergeBrandingResults js enh buttons (some cands)).primaryButton =
          some b) ∧
    (∀ i, enh.buttonClassification.secondaryButtonIndex = some i →
        (i < 0 ∨ (buttons.length : ℤ) ≤ i) →
        (Merge.mergeBrandingResults js enh buttons (some cands)).secondaryButton =
          js.secondaryButton) ∧
    (∀ sel, enh.logoSelection = some sel →
        (sel.selectedLogoIndex < 0 ∨ (cands.length : ℤ) ≤ sel.selectedLogoIndex) →
        (Merge.mergeBrandingResults js enh buttons (some cands)).images =
          js.images) ∧
    ((Merge.mergeBrandingResults js enh buttons (some cands)).colors =
      { primary :=
          match enh.colorRoles.primary with
          | some c => if isValidHexColor c then c else js.colors.primary
          | none => js.colors.primary
        accent :=
          match enh.colorRoles.accent with
          | some c => if isValidHexColor c then c else js.colors.accent
          | none => js.colors.accent
        background :=
          match enh.colorRoles.background with
          | some c => if isValidHexColor c then c else js.colors.background
          | none => js.colors.background
        textPrimary :=
          match enh.colorRoles.textPrimary with
          | some c => if isValidHexColor c then c else js.colors.textPrimary
          | none => js.colors.textPrimary
        link :=
          match enh.colorRoles.link with
          | some c => if isValidHexColor c then c else js.colors.link
          | none => js.colors.link }) := by
  refine ⟨?_, ?_, ?_, ?_, rfl⟩
  · intro i hi hoob
    simp only [Merge.mergeBrandingResults]
    rw [hi]
    dsimp only
    rcases hoob with h | h
    · rw [if_neg (by omega)]
    · by_cases h0 : (0 : ℤ) ≤ i
      · rw [if_pos h0, List.get?_eq_none.mpr (by omega : buttons.length ≤ i.toNat)]
      · rw [if_neg h0]
  · intro i b hi h0 hget
    simp only [Merge.mergeBrandingResults]
    rw [hi]
    dsimp only
    rw [if_pos h0, hget]
  · intro i hi hoob
    simp only [Merge.mergeBrandingResults]
    rw [hi]
    dsimp only
    rcases hoob with h | h
    · rw [if_neg (by omega)]
    · by_cases h0 : (0 : ℤ) ≤ i
      · rw [if_pos h0, List.get?_eq_none.mpr (by omega : buttons.length ≤ i.toNat)]
      · rw [if_neg h0]
  · intro sel hsel hoob
    simp only [Merge.mergeBrandingResults]
    rw [hsel]
    dsimp only
    rcases hoob with h | h
    · rw [if_neg (by omega)]
    · by_cases h0 : (0 : ℤ) ≤ sel.selectedLogoIndex
      · rw [if_pos h0,
          List.get?_eq_none.mpr (by omega : cands.length ≤ sel.selectedLogoIndex.toNat)]
      · rw [if_neg h0]

/-- Witness for C2: a button index of 2 against an empty candidate list keeps
the heuristic primary-button choice. -/
theorem c2_witness :
    (Merge.mergeBrandingResults
      (processRawBranding (fun _ => none) (fun _ => 0) (fun _ => "")
        { cssData := { colors := [], radii := [], spacings := [] },
          snapshots := [], images := [], colorScheme := none,
          typography := { «stacks» := { body := [], heading := [] },
                          sizes := { h1 := none, h2 := none, body := none } },
          frameworkHints := [], backgroundCandidates := none, logoCandidates := none,
          brandName := none, pageBackground := none })
      { buttonClassification :=
          { primaryButtonIndex := some 2, secondaryButtonIndex := none,
            confidence := 0 },
        colorRoles :=
          { primary := none, accent := none, background := none,
            textPrimary := none, link := none, confidence := 0 },
        logoSelection := none }
      [] (some [])).primaryButton =
    (processRawBranding (fun _ => none) (fun _ => 0) (fun _ => "")
      { cssData := { colors := [], radii := [], spacings := [] },
        snapshots := [], images := [], colorScheme := none,
        typography := { «stacks» := { body := [], heading := [] },
                        sizes := { h1 := none, h2 := none, body := none } },
        frameworkHints := [], backgroundCandidates := none, logoCandidates := none,
        brandName := none, pageBackground := none }).primaryButton :=
  (c2_merge_bounds
    (processRawBranding (fun _ => none) (fun _ => 0) (fun _ => "")
      { cssData := { colors := [], radii := [], spacings := [] },
        snapshots := [], images := [], colorScheme := none,
        typography := { «stacks» := { body := [], heading := [] },
                        sizes := { h1 := none, h2 := none, body := none } },
        frameworkHints := [], backgroundCandidates := none, logoCandidates := none,
        brandName := none, pageBackground := none })
    { buttonClassification :=
        { primaryButtonIndex := some 2, secondaryButtonIndex := none,
          confidence := 0 },
      colorRoles :=
        { primary := none, accent := none, background := none,
          textPrimary := none, link := none, confidence := 0 },
      logoSelection := none }
    [] []).1 2 rfl (Or.inr (by decide))

end Claims

end C1C2sec

section C3sec

open JsPrim

namespace Claims

theorem toUpper_idem (c : Char) : c.toUpper.toUpper = c.toUpper := by
  rw [toUpper_eq c]
  by_cases h : c.toNat ≥ 97 ∧ c.toNat ≤ 122
  · rw [if_pos h, toUpper_eq, toNat_ofNat_small _ (by omega), if_neg (by omega)]
  · rw [if_neg h, toUpper_eq, if_neg h]

theorem upperStr_idem (l : List Char) : upperStr (upperStr l) = upperStr l := by
  unfold upperStr
  rw [List.map_map]
  exact List.map_congr_left (fun c _ => toUpper_idem c)

theorem digit_not_ws (c : Char) (h : isDigitCh c = true) : isWSCh c = false := by
  unfold isDigitCh at h
  unfold isWSCh
  simp only [decide_eq_true_eq] at h
  simp only [decide_eq_false_iff_not]
  omega

theorem dotdigit_not_ws (c : Char) (h : isDotDigitCh c = true) : isWSCh c = false := by
  unfold isDotDigitCh isDigitCh at h
  unfold isWSCh
  simp only [Bool.or_eq_true, decide_eq_true_eq] at h
  simp only [decide_eq_false_iff_not]
  omega

theorem ws_not_dotdigit (c : Char) (h : isWSCh c = true) : isDotDigitCh c = false := by
  unfold isWSCh at h
  unfold isDotDigitCh isDigitCh
  simp only [decide_eq_true_eq] at h
  simp only [Bool.or_eq_false_iff, decide_eq_false_iff_not]
  omega

theorem ws_not_digit (c : Char) (h : isWSCh c = true) : isDigitCh c = false := by
  unfold isWSCh at h
  unfold isDigitCh
  simp only [decide_eq_true_eq] at h
  simp only [decide_eq_false_iff_not]
  omega

theorem digit_dotdigit (c : Char) (h : isDigitCh c = true) : isDotDigitCh c = true := by
  unfold isDotDigitCh
  rw [h]
  rfl

theorem notC_of_toNat (c : Char) (h : c.toNat ≠ 99 ∧ c.toNat ≠ 67) :
    ¬c.toUpper = 'C' := by
  intro he
  have h67 : c.toUpper.toNat = 67 := by rw [he]; rfl
  rw [toUpper_eq] at h67
  by_cases hl : c.toNat ≥ 97 ∧ c.toNat ≤ 122
  · rw [if_pos hl, toNat_ofNat_small _ (by omega)] at h67
    omega
  · rw [if_neg hl] at h67
    omega

theorem notC_digit (c : Char) (h : isDigitCh c = true) : ¬c.toUpper = 'C' := by
  unfold isDigitCh at h
  simp only [decide_eq_true_eq] at h
  exact notC_of_toNat c (by omega)

theorem notC_dotdigit (c : Char) (h : isDotDigitCh c = true) : ¬c.toUpper = 'C' := by
  unfold isDotDigitCh isDigitCh at h
  simp only [Bool.or_eq_true, decide_eq_true_eq] at h
  exact notC_of_toNat c (by omega)

theorem notC_ws (c : Char) (h : isWSCh c = true) : ¬c.toUpper = 'C' := by
  unfold isWSCh at h
  simp only [decide_eq_true_eq] at h
  exact notC_of_toNat c (by omega)

theorem tw_app (p : Char → Bool) (xs ys : List Char) (h : ∀ c ∈ xs, p c = true) :
    (xs ++ ys).takeWhile p = xs ++ ys.takeWhile p := by
  induction xs with
  | nil => simp
  | cons a l ih =>
    rw [List.cons_append, List.takeWhile_cons, h a (List.mem_cons_self a l),
      ih (fun c hc => h c (List.mem_cons_of_mem a hc))]
    rfl

theorem dw_app (p : Char → Bool) (xs ys : List Char) (h : ∀ c ∈ xs, p c = true) :
    (xs ++ ys).dropWhile p = ys.dropWhile p := by
  induction xs with
  | nil => simp
  | cons a l ih =>
    rw [List.cons_append, List.dropWhile_cons, h a (List.mem_cons_self a l)]
    exact ih (fun c hc => h c (List.mem_cons_of_mem a hc))

theorem tw_stop (p : Char → Bool) (ys : List Char)
    (h : ∀ c, ys.head? = some c → p c = false) : ys.takeWhile p = [] := by
  cases ys with
  | nil => rfl
  | cons y t =>
    rw [List.takeWhile_cons, h y rfl]
    rfl

theorem dw_stop (p : Char → Bool) (ys : List Char)
    (h : ∀ c, ys.head? = some c → p c = false) : ys.dropWhile p = ys := by
  cases ys with
  | nil => rfl
  | cons y t =>
    rw [List.dropWhile_cons, h y rfl]
    rfl

theorem tw_group (p : Char → Bool) (xs ys : List Char) (hall : ∀ c ∈ xs, p c = true)
    (hstop : ∀ c, ys.head? = some c → p c = false) :
    (xs ++ ys).takeWhile p = xs ∧ (xs ++ ys).dropWhile p = ys := by
  constructor
  · rw [tw_app p xs ys hall, tw_stop p ys hstop, List.append_nil]
  · rw [dw_app p xs ys hall, dw_stop p ys hstop]

theorem head?_app (xs ys : List Char) (h : xs ≠ []) : (xs ++ ys).head? = xs.head? := by
  cases xs with
  | nil => exact absurd rfl h
  | cons a l => rfl

theorem head_not_of_all (p q : Char → Bool) (l X : List Char) (hne : l ≠ [])
    (hall : ∀ c ∈ l, p c = true) (himp : ∀ c, p c = true → q c = false) :
    ∀ c, (l ++ X).head? = some c → q c = false := by
  intro c hc
  rw [head?_app l X hne] at hc
  cases l with
  | nil => exact absurd rfl hne
  | cons a t =>
    simp only [List.head?_cons, Option.some_inj] at hc
    rw [← hc]
    exact himp a (hall a (List.mem_cons_self a t))

theorem matchLitCI_self (lit : List Char) : ∀ rest : List Char,
    Script.matchLitCI lit (lit ++ rest) = some rest := by
  induction lit with
  | nil => intro rest; rfl
  | cons p ps ih =>
    intro rest
    rw [List.cons_append]
    show Script.matchLitCI (p :: ps) (p :: (ps ++ rest)) = some rest
    unfold Script.matchLitCI
    rw [if_pos rfl]
    exact ih rest

theorem matchLitCI_none_head (p : Char) (ps : List Char) (c : Char) (cs : List Char)
    (h : ¬c.toUpper = p.toUpper) : Script.matchLitCI (p :: ps) (c :: cs) = none := by
  unfold Script.matchLitCI
  rw [if_neg h]

theorem colorAlphaAt_none_head (l : List Char)
    (h : ∀ c, l.head? = some c → ¬c.toUpper = 'C') : Script.colorAlphaAt l = none := by
  cases l with
  | nil => rfl
  | cons c cs =>
    have hm : Script.matchLitCI ("color(".data) (c :: cs) = none := by
      have : ¬c.toUpper = ('c' : Char).toUpper := by
        have := h c rfl
        simpa using this
      exact matchLitCI_none_head 'c' ("olor(".data) c cs this
    unfold Script.colorAlphaAt
    rw [hm]

theorem colorNoAlphaAt_none_head (l : List Char)
    (h : ∀ c, l.head? = some c → ¬c.toUpper = 'C') : Script.colorNoAlphaAt l = none := by
  cases l with
  | nil => rfl
  | cons c cs =>
    have hm : Script.matchLitCI ("color(".data) (c :: cs) = none := by
      have : ¬c.toUpper = ('c' : Char).toUpper := by
        have := h c rfl
        simpa using this
      exact matchLitCI_none_head 'c' ("olor(".data) c cs this
    unfold Script.colorNoAlphaAt
    rw [hm]

theorem scanOption_eval_head {β : Type} (f : List Char → Option β) (l : List Char)
    (b : β) (h : f l = some b) : Script.scanOption f l = some b := by
  cases l with
  | nil => rw [← h]; rfl
  | cons c cs =>
    unfold Script.scanOption
    rw [h]

theorem scanOption_none {β : Type} (f : List Char → Option β) :
    ∀ l : List Char, (∀ t, t <:+ l → f t = none) → Script.scanOption f l = none := by
  intro l
  induction l with
  | nil => intro h; rw [show Script.scanOption f [] = f [] from rfl, h [] List.nil_suffix]
  | cons c cs ih =>
    intro h
    unfold Script.scanOption
    rw [h (c :: cs) List.suffix_rfl]
    exact ih (fun t ht => h t (ht.trans (List.suffix_cons c cs)))

theorem scan_colorA_none (l : List Char) (hl : ∀ c ∈ l, ¬c.toUpper = 'C') :
    Script.scanOption Script.colorAlphaAt l = none := by
  refine scanOption_none _ l (fun t ht => ?_)
  refine colorAlphaAt_none_head t (fun c hc => ?_)
  cases t with
  | nil => simp at hc
  | cons a s =>
    simp only [List.head?_cons, Option.some_inj] at hc
    rw [← hc]
    exact hl a (ht.subset (List.mem_cons_self a s))

theorem scan_colorN_none (l : List Char) (hl : ∀ c ∈ l, ¬c.toUpper = 'C') :
    Script.scanOption Script.colorNoAlphaAt l = none := by
  refine scanOption_none _ l (fun t ht => ?_)
  refine colorNoAlphaAt_none_head t (fun c hc => ?_)
  cases t with
  | nil => simp at hc
  | cons a s =>
    simp only [List.head?_cons, Option.some_inj] at hc
    rw [← hc]
    exact hl a (ht.subset (List.mem_cons_self a s))

theorem isDigitCh_digitCh (n : ℕ) (h : n < 10) : isDigitCh (digitCh n) = true := by
  unfold digitCh isDigitCh
  rw [toNat_ofNat_small (48 + n) (by omega)]
  simp only [decide_eq_true_eq]
  omega

theorem natDecAux_spec : ∀ fuel n : ℕ, n < fuel →
    natDecAux fuel n ≠ [] ∧ ∀ c ∈ natDecAux fuel n, isDigitCh c = true := by
  intro fuel
  induction fuel with
  | zero => intro n h; omega
  | succ f ih =>
    intro n h
    unfold natDecAux
    by_cases h10 : n < 10
    · rw [if_pos h10]
      refine ⟨by simp, fun c hc => ?_⟩
      simp only [List.mem_singleton] at hc
      rw [hc]
      exact isDigitCh_digitCh n h10
    · rw [if_neg h10]
      have hq : n / 10 < f := by omega
      obtain ⟨hne, hall⟩ := ih (n / 10) hq
      refine ⟨by simp [hne], fun c hc => ?_⟩
      rcases List.mem_append.mp hc with hc | hc
      · exact hall c hc
      · simp only [List.mem_singleton] at hc
        rw [hc]
        exact isDigitCh_digitCh (n % 10) (by omega)

theorem natDec_spec (n : ℕ) :
    natDec n ≠ [] ∧ ∀ c ∈ natDec n, isDigitCh c = true :=
  natDecAux_spec (n + 1) n (by omega)

theorem natDecAux_small (fuel n : ℕ) (hf : 0 < fuel) (h : n < 10) :
    natDecAux fuel n = [digitCh n] := by
  cases fuel with
  | zero => omega
  | succ f =>
    unfold natDecAux
    rw [if_pos h]

theorem natDec_len_le2 (n : ℕ) (h : n < 100) : (natDec n).length ≤ 2 := by
  unfold natDec
  by_cases h10 : n < 10
  · rw [natDecAux_small (n + 1) n (by omega) h10]
    simp
  · unfold natDecAux
    rw [if_neg h10]
    rw [natDecAux_small n (n / 10) (by omega) (by omega)]
    simp

theorem digitsVal_cons0 (l : List Char) : digitsVal ('0' :: l) = digitsVal l := by
  unfold digitsVal
  rfl

theorem digitsVal_padStart2 (l : List Char) : digitsVal (padStart2 l) = digitsVal l := by
  unfold padStart2
  rcases hn : (2 - l.length) with _ | k
  · rw [List.replicate_zero, List.nil_append]
  · rcases k with _ | m
    · rw [show List.replicate 1 '0' = ['0'] from rfl]
      exact digitsVal_cons0 l
    · have hm : m = 0 := by omega
      have hl : l = [] := List.length_eq_zero.mp (by omega)
      subst hm hl
      rfl

theorem digitsVal_append_digit (xs : List Char) (c : Char) :
    digitsVal (xs ++ [c]) = 10 * digitsVal xs + (c.toNat - 48) := by
  unfold digitsVal
  rw [List.foldl_append]
  rfl

theorem toNat_digitCh (n : ℕ) (h : n < 10) : (digitCh n).toNat = 48 + n := by
  unfold digitCh
  exact toNat_ofNat_small (48 + n) (by omega)

theorem digitsVal_natDecAux : ∀ fuel n : ℕ, n < fuel →
    digitsVal (natDecAux fuel n) = n := by
  intro fuel
  induction fuel with
  | zero => intro n h; omega
  | succ f ih =>
    intro n h
    unfold natDecAux
    by_cases h10 : n < 10
    · rw [if_pos h10]
      show digitsVal [digitCh n] = n
      unfold digitsVal
      simp only [List.foldl_cons, List.foldl_nil]
      rw [toNat_digitCh n h10]
      omega
    · rw [if_neg h10]
      rw [digitsVal_append_digit, ih (n / 10) (by omega), toNat_digitCh (n % 10) (by omega)]
      omega

theorem digitsVal_natDec (n : ℕ) : digitsVal (natDec n) = n :=
  digitsVal_natDecAux (n + 1) n (by omega)

theorem intDec_nonneg (i : ℤ) (h : 0 ≤ i) : intDec i = natDec i.toNat := by
  unfold intDec
  rw [if_neg (by omega)]

theorem jsRound_nonneg (q : ℚ) (h : 0 ≤ q) : 0 ≤ jsRound q := by
  unfold jsRound
  positivity

theorem jsRound_intCast (k : ℤ) : jsRound (k : ℚ) = k := by
  unfold jsRound
  rw [Int.floor_eq_iff]
  constructor
  · push_cast; linarith
  · push_cast; linarith

theorem padStart2_len (l : List Char) (hne : l ≠ []) (hlen : l.length ≤ 2) :
    (padStart2 l).length = 2 := by
  unfold padStart2
  have : l.length = 1 ∨ l.length = 2 := by
    rcases l with _ | ⟨a, t⟩
    · exact absurd rfl hne
    · simp only [List.length_cons] at hlen ⊢
      omega
  rcases this with h | h <;> simp [h]

theorem tw_all (p : Char → Bool) (l : List Char) (h : ∀ c ∈ l, p c = true) :
    l.takeWhile p = l := by
  have h2 := tw_app p l [] h
  simpa using h2

theorem toFixed2_spec (q : ℚ) (hq : 0 ≤ q) :
    jsParseFloatDD (toFixed2 q) = some ((jsRound (q * 100) : ℚ) / 100) ∧
    toFixed2 ((jsRound (q * 100) : ℚ) / 100) = toFixed2 q ∧
    toFixed2 q ≠ [] ∧ (∀ c ∈ toFixed2 q, isDotDigitCh c = true) ∧
    (∀ c, (toFixed2 q).head? = some c → isDigitCh c = true) := by
  set n := jsRound (q * 100) with hn
  have hn0 : 0 ≤ n := jsRound_nonneg _ (by positivity)
  have hd0 : 0 ≤ n / 100 := Int.ediv_nonneg hn0 (by norm_num)
  have hm0 : 0 ≤ n % 100 := Int.emod_nonneg n (by norm_num)
  have hm100 : n % 100 < 100 := Int.emod_lt_of_pos n (by norm_num)
  have hform : toFixed2 q =
      natDec (n / 100).toNat ++ '.' :: padStart2 (natDec (n % 100).toNat) := by
    have hf0 : toFixed2 q = intDec (jsRound (q * 100) / 100) ++
        '.' :: padStart2 (natDec (jsRound (q * 100) % 100).toNat) := rfl
    rw [hf0, ← hn, intDec_nonneg _ hd0]
  obtain ⟨hip_ne, hip_dig⟩ := natDec_spec (n / 100).toNat
  obtain ⟨hfp_ne, hfp_dig⟩ := natDec_spec (n % 100).toNat
  have hfp_len : (natDec (n % 100).toNat).length ≤ 2 := natDec_len_le2 _ (by omega)
  have hpad_len : (padStart2 (natDec (n % 100).toNat)).length = 2 :=
    padStart2_len _ hfp_ne hfp_len
  have hpad_dig : ∀ c ∈ padStart2 (natDec (n % 100).toNat), isDigitCh c = true := by
    intro c hc
    unfold padStart2 at hc
    rcases List.mem_append.mp hc with hc | hc
    · rw [List.eq_of_mem_replicate hc]
      decide
    · exact hfp_dig c hc
  have hsplit := tw_group isDigitCh (natDec (n / 100).toNat)
    ('.' :: padStart2 (natDec (n % 100).toNat)) hip_dig
    (by
      intro c hc
      simp only [List.head?_cons, Option.some_inj] at hc
      rw [← hc]
      decide)
  have hipe : (natDec (n / 100).toNat).isEmpty = false := by
    rcases hni : natDec (n / 100).toNat with _ | ⟨a, t⟩
    · exact absurd hni hip_ne
    · rfl
  have hvals : ((digitsVal (natDec (n / 100).toNat) : ℚ) +
      (digitsVal (padStart2 (natDec (n % 100).toNat)) : ℚ) /
        (10 : ℚ) ^ (padStart2 (natDec (n % 100).toNat)).length) = (n : ℚ) / 100 := by
    rw [digitsVal_natDec, digitsVal_padStart2, digitsVal_natDec, hpad_len]
    rw [show ((n / 100).toNat : ℚ) = ((n / 100 : ℤ) : ℚ) by
      exact_mod_cast congrArg (Int.cast : ℤ → ℚ) (Int.toNat_of_nonneg hd0)]
    rw [show ((n % 100).toNat : ℚ) = ((n % 100 : ℤ) : ℚ) by
      exact_mod_cast congrArg (Int.cast : ℤ → ℚ) (Int.toNat_of_nonneg hm0)]
    have key : (100 : ℤ) * (n / 100) + n % 100 = n := Int.ediv_add_emod n 100
    have keyq : (100 : ℚ) * ((n / 100 : ℤ) : ℚ) + ((n % 100 : ℤ) : ℚ) = (n : ℚ) := by
      exact_mod_cast congrArg (Int.cast : ℤ → ℚ) key
    field_simp
    linarith
  refine ⟨?_, ?_, ?_, ?_, ?_⟩
  · unfold jsParseFloatDD
    rw [hform, hsplit.1, hsplit.2]
    dsimp only
    rw [if_pos (by decide : ('.' : Char).toNat = 46)]
    rw [tw_all isDigitCh _ hpad_dig, hipe]
    have hfpe : (padStart2 (natDec (n % 100).toNat)).isEmpty = false := by
      rcases hni : padStart2 (natDec (n % 100).toNat) with _ | ⟨a, t⟩
      · rw [hni] at hpad_len
        simp at hpad_len
      · rfl
    rw [hfpe]
    show some _ = some ((n : ℚ) / 100)
    rw [hvals]
  · have hj : jsRound ((n : ℚ) / 100 * 100) = n := by
      rw [div_mul_cancel₀ _ (by norm_num : (100 : ℚ) ≠ 0)]
      exact jsRound_intCast n
    have hL : toFixed2 ((n : ℚ) / 100) =
        intDec (jsRound ((n : ℚ) / 100 * 100) / 100) ++
          '.' :: padStart2 (natDec (jsRound ((n : ℚ) / 100 * 100) % 100).toNat) := rfl
    rw [hL, hj, hform, intDec_nonneg _ hd0]
  · rw [hform]
    simp [hip_ne]
  · intro c hc
    rw [hform] at hc
    rcases List.mem_append.mp hc with hc | hc
    · exact digit_dotdigit c (hip_dig c hc)
    · rcases List.mem_cons.mp hc with hc | hc
      · rw [hc]
        decide
      · exact digit_dotdigit c (hpad_dig c hc)
  · intro c hc
    rw [hform, head?_app _ _ hip_ne] at hc
    rcases hni : natDec (n / 100).toNat with _ | ⟨a, t⟩
    · exact absurd hni hip_ne
    · rw [hni] at hc
      simp only [List.head?_cons, Option.some_inj] at hc
      rw [← hc]
      exact hip_dig a (by rw [hni]; exact List.mem_cons_self a t)

theorem jsParseFloatDD_nonneg (l : List Char) (q : ℚ) (h : jsParseFloatDD l = some q) :
    0 ≤ q := by
  unfold jsParseFloatDD at h
  split at h
  · split at h
    · dsimp only at h
      split at h
      · exact absurd h (by simp)
      · rw [Option.some_inj] at h
        rw [← h]
        positivity
    · dsimp only at h
      split at h
      · exact absurd h (by simp)
      · rw [Option.some_inj] at h
        rw [← h]
        positivity
  · dsimp only at h
    split at h
    · exact absurd h (by simp)
    · rw [Option.some_inj] at h
      rw [← h]
      positivity

theorem isEmpty_false (l : List Char) (h : l ≠ []) : l.isEmpty = false := by
  rcases l with _ | ⟨a, t⟩
  · exact absurd rfl h
  · rfl

theorem rgbaHeadAt_evalA (d1 w2 d2 w3 d3 w4 a r : List Char)
    (hd1 : d1 ≠ []) (hd1a : ∀ c ∈ d1, isDigitCh c = true)
    (hw2 : ∀ c ∈ w2, isWSCh c = true)
    (hd2 : d2 ≠ []) (hd2a : ∀ c ∈ d2, isDigitCh c = true)
    (hw3 : ∀ c ∈ w3, isWSCh c = true)
    (hd3 : d3 ≠ []) (hd3a : ∀ c ∈ d3, isDigitCh c = true)
    (hw4 : ∀ c ∈ w4, isWSCh c = true)
    (ha : a ≠ []) (haa : ∀ c ∈ a, isDotDigitCh c = true)
    (hr : ∀ c, r.head? = some c → isDotDigitCh c = false) :
    Script.rgbaHeadAt ("rgb".data ++ 'a' :: '(' ::
      (d1 ++ ',' :: (w2 ++ (d2 ++ ',' :: (w3 ++ (d3 ++ ',' :: (w4 ++ (a ++ r)))))))) =
    some (d1, d2, d3, a) := by
  have h1 := matchLitCI_self ("rgb".data) ('a' :: '(' ::
    (d1 ++ ',' :: (w2 ++ (d2 ++ ',' :: (w3 ++ (d3 ++ ',' :: (w4 ++ (a ++ r))))))))
  obtain ⟨ht1, hdw1⟩ := tw_group isDigitCh d1
    (',' :: (w2 ++ (d2 ++ ',' :: (w3 ++ (d3 ++ ',' :: (w4 ++ (a ++ r))))))) hd1a
    (by
      intro c hc
      simp only [List.head?_cons, Option.some_inj] at hc
      rw [← hc]
      decide)
  have h5 : (w2 ++ (d2 ++ ',' :: (w3 ++ (d3 ++ ',' :: (w4 ++ (a ++ r)))))).dropWhile
      isWSCh = d2 ++ ',' :: (w3 ++ (d3 ++ ',' :: (w4 ++ (a ++ r)))) := by
    rw [dw_app _ _ _ hw2]
    exact dw_stop _ _ (head_not_of_all isDigitCh isWSCh d2 _ hd2 hd2a digit_not_ws)
  obtain ⟨ht2, hdw2⟩ := tw_group isDigitCh d2
    (',' :: (w3 ++ (d3 ++ ',' :: (w4 ++ (a ++ r))))) hd2a
    (by
      intro c hc
      simp only [List.head?_cons, Option.some_inj] at hc
      rw [← hc]
      decide)
  have h7 : (w3 ++ (d3 ++ ',' :: (w4 ++ (a ++ r)))).dropWhile isWSCh =
      d3 ++ ',' :: (w4 ++ (a ++ r)) := by
    rw [dw_app _ _ _ hw3]
    exact dw_stop _ _ (head_not_of_all isDigitCh isWSCh d3 _ hd3 hd3a digit_not_ws)
  obtain ⟨ht3, hdw3⟩ := tw_group isDigitCh d3 (',' :: (w4 ++ (a ++ r))) hd3a
    (by
      intro c hc
      simp only [List.head?_cons, Option.some_inj] at hc
      rw [← hc]
      decide)
  have h9 : (w4 ++ (a ++ r)).dropWhile isWSCh = a ++ r := by
    rw [dw_app _ _ _ hw4]
    exact dw_stop _ _
      (head_not_of_all isDotDigitCh isWSCh a _ ha haa dotdigit_not_ws)
  obtain ⟨hta, _⟩ := tw_group isDotDigitCh a r haa hr
  unfold Script.rgbaHeadAt
  rw [h1]
  dsimp only
  rw [if_pos (by decide : ('a' : Char).toUpper = 'A')]
  dsimp only
  rw [if_pos (by decide : ('(' : Char).toNat = 40)]
  rw [ht1, hdw1, isEmpty_false d1 hd1, if_neg (by decide : ¬(false = true))]
  dsimp only
  rw [if_pos (by decide : (',' : Char).toNat = 44)]
  rw [h5, ht2, hdw2, isEmpty_false d2 hd2, if_neg (by decide : ¬(false = true))]
  dsimp only
  rw [if_pos (by decide : (',' : Char).toNat = 44)]
  rw [h7, ht3, hdw3, isEmpty_false d3 hd3, if_neg (by decide : ¬(false = true))]
  dsimp only
  rw [if_pos (by decide : (',' : Char).toNat = 44)]
  rw [h9, hta, isEmpty_false a ha, if_neg (by decide : ¬(false = true))]

theorem rgbaHeadAt_evalN (d1 w2 d2 w3 d3 w4 a r : List Char)
    (hd1 : d1 ≠ []) (hd1a : ∀ c ∈ d1, isDigitCh c = true)
    (hw2 : ∀ c ∈ w2, isWSCh c = true)
    (hd2 : d2 ≠ []) (hd2a : ∀ c ∈ d2, isDigitCh c = true)
    (hw3 : ∀ c ∈ w3, isWSCh c = true)
    (hd3 : d3 ≠ []) (hd3a : ∀ c ∈ d3, isDigitCh c = true)
    (hw4 : ∀ c ∈ w4, isWSCh c = true)
    (ha : a ≠ []) (haa : ∀ c ∈ a, isDotDigitCh c = true)
    (hr : ∀ c, r.head? = some c → isDotDigitCh c = false) :
    Script.rgbaHeadAt ("rgb".data ++ '(' ::
      (d1 ++ ',' :: (w2 ++ (d2 ++ ',' :: (w3 ++ (d3 ++ ',' :: (w4 ++ (a ++ r)))))))) =
    some (d1, d2, d3, a) := by
  have h1 := matchLitCI_self ("rgb".data) ('(' ::
    (d1 ++ ',' :: (w2 ++ (d2 ++ ',' :: (w3 ++ (d3 ++ ',' :: (w4 ++ (a ++ r))))))))
  obtain ⟨ht1, hdw1⟩ := tw_group isDigitCh d1
    (',' :: (w2 ++ (d2 ++ ',' :: (w3 ++ (d3 ++ ',' :: (w4 ++ (a ++ r))))))) hd1a
    (by
      intro c hc
      simp only [List.head?_cons, Option.some_inj] at hc
      rw [← hc]
      decide)
  have h5 : (w2 ++ (d2 ++ ',' :: (w3 ++ (d3 ++ ',' :: (w4 ++ (a ++ r)))))).dropWhile
      isWSCh = d2 ++ ',' :: (w3 ++ (d3 ++ ',' :: (w4 ++ (a ++ r)))) := by
    rw [dw_app _ _ _ hw2]
    exact dw_stop _ _ (head_not_of_all isDigitCh isWSCh d2 _ hd2 hd2a digit_not_ws)
  obtain ⟨ht2, hdw2⟩ := tw_group isDigitCh d2
    (',' :: (w3 ++ (d3 ++ ',' :: (w4 ++ (a ++ r))))) hd2a
    (by
      intro c hc
      simp only [List.head?_cons, Option.some_inj] at hc
      rw [← hc]
      decide)
  have h7 : (w3 ++ (d3 ++ ',' :: (w4 ++ (a ++ r)))).dropWhile isWSCh =
      d3 ++ ',' :: (w4 ++ (a ++ r)) := by
    rw [dw_app _ _ _ hw3]
    exact dw_stop _ _ (head_not_of_all isDigitCh isWSCh d3 _ hd3 hd3a digit_not_ws)
  obtain ⟨ht3, hdw3⟩ := tw_group isDigitCh d3 (',' :: (w4 ++ (a ++ r))) hd3a
    (by
      intro c hc
      simp only [List.head?_cons, Option.some_inj] at hc
      rw [← hc]
      decide)
  have h9 : (w4 ++ (a ++ r)).dropWhile isWSCh = a ++ r := by
    rw [dw_app _ _ _ hw4]
    exact dw_stop _ _
      (head_not_of_all isDotDigitCh isWSCh a _ ha haa dotdigit_not_ws)
  obtain ⟨hta, _⟩ := tw_group isDotDigitCh a r haa hr
  unfold Script.rgbaHeadAt
  rw [h1]
  dsimp only
  rw [if_neg (by decide : ¬(('(' : Char).toUpper = 'A'))]
  dsimp only
  rw [if_pos (by decide : ('(' : Char).toNat = 40)]
  rw [ht1, hdw1, isEmpty_false d1 hd1, if_neg (by decide : ¬(false = true))]
  dsimp only
  rw [if_pos (by decide : (',' : Char).toNat = 44)]
  rw [h5, ht2, hdw2, isEmpty_false d2 hd2, if_neg (by decide : ¬(false = true))]
  dsimp only
  rw [if_pos (by decide : (',' : Char).toNat = 44)]
  rw [h7, ht3, hdw3, isEmpty_false d3 hd3, if_neg (by decide : ¬(false = true))]
  dsimp only
  rw [if_pos (by decide : (',' : Char).toNat = 44)]
  rw [h9, hta, isEmpty_false a ha, if_neg (by decide : ¬(false = true))]

theorem rgbaHeadAt_noComma (hasA : Bool) (d1 w2 d2 w3 d3 r : List Char)
    (hd1 : d1 ≠ []) (hd1a : ∀ c ∈ d1, isDigitCh c = true)
    (hw2 : ∀ c ∈ w2, isWSCh c = true)
    (hd2 : d2 ≠ []) (hd2a : ∀ c ∈ d2, isDigitCh c = true)
    (hw3 : ∀ c ∈ w3, isWSCh c = true)
    (hd3 : d3 ≠ []) (hd3a : ∀ c ∈ d3, isDigitCh c = true)
    (hr : ∀ c, r.head? = some c → isDigitCh c = false)
    (hr44 : ∀ c, r.head? = some c → c.toNat ≠ 44) :
    Script.rgbaHeadAt ("rgb".data ++ ((if hasA then ['a'] else []) ++ '(' ::
      (d1 ++ ',' :: (w2 ++ (d2 ++ ',' :: (w3 ++ (d3 ++ r))))))) = none := by
  obtain ⟨ht1, hdw1⟩ := tw_group isDigitCh d1
    (',' :: (w2 ++ (d2 ++ ',' :: (w3 ++ (d3 ++ r))))) hd1a
    (by
      intro c hc
      simp only [List.head?_cons, Option.some_inj] at hc
      rw [← hc]
      decide)
  have h5 : (w2 ++ (d2 ++ ',' :: (w3 ++ (d3 ++ r)))).dropWhile isWSCh =
      d2 ++ ',' :: (w3 ++ (d3 ++ r)) := by
    rw [dw_app _ _ _ hw2]
    exact dw_stop _ _ (head_not_of_all isDigitCh isWSCh d2 _ hd2 hd2a digit_not_ws)
  obtain ⟨ht2, hdw2⟩ := tw_group isDigitCh d2 (',' :: (w3 ++ (d3 ++ r))) hd2a
    (by
      intro c hc
      simp only [List.head?_cons, Option.some_inj] at hc
      rw [← hc]
      decide)
  have h7 : (w3 ++ (d3 ++ r)).dropWhile isWSCh = d3 ++ r := by
    rw [dw_app _ _ _ hw3]
    exact dw_stop _ _ (head_not_of_all isDigitCh isWSCh d3 _ hd3 hd3a digit_not_ws)
  obtain ⟨ht3, hdw3⟩ := tw_group isDigitCh d3 r hd3a hr
  cases hasA with
  | true =>
    have h1 := matchLitCI_self ("rgb".data) ('a' :: '(' ::
      (d1 ++ ',' :: (w2 ++ (d2 ++ ',' :: (w3 ++ (d3 ++ r))))))
    unfold Script.rgbaHeadAt
    rw [show ((if (true : Bool) then ['a'] else []) ++ '(' ::
      (d1 ++ ',' :: (w2 ++ (d2 ++ ',' :: (w3 ++ (d3 ++ r))))) : List Char) = 'a' :: '(' ::
      (d1 ++ ',' :: (w2 ++ (d2 ++ ',' :: (w3 ++ (d3 ++ r))))) from rfl]
    rw [h1]
    dsimp only
    rw [if_pos (by decide : ('a' : Char).toUpper = 'A')]
    dsimp only
    rw [if_pos (by decide : ('(' : Char).toNat = 40)]
    rw [ht1, hdw1, isEmpty_false d1 hd1, if_neg (by decide : ¬(false = true))]
    dsimp only
    rw [if_pos (by decide : (',' : Char).toNat = 44)]
    rw [h5, ht2, hdw2, isEmpty_false d2 hd2, if_neg (by decide : ¬(false = true))]
    dsimp only
    rw [if_pos (by decide : (',' : Char).toNat = 44)]
    rw [h7, ht3, hdw3, isEmpty_false d3 hd3, if_neg (by decide : ¬(false = true))]
    cases hrr : r with
    | nil => rfl
    | cons c r8 =>
      dsimp only
      rw [if_neg (by
        have := hr44 c (by rw [hrr]; rfl)
        simpa using this)]
  | false =>
    have h1 := matchLitCI_self ("rgb".data) ('(' ::
      (d1 ++ ',' :: (w2 ++ (d2 ++ ',' :: (w3 ++ (d3 ++ r))))))
    unfold Script.rgbaHeadAt
    rw [show ((if (false : Bool) then ['a'] else []) ++ '(' ::
      (d1 ++ ',' :: (w2 ++ (d2 ++ ',' :: (w3 ++ (d3 ++ r))))) : List Char) = '(' ::
      (d1 ++ ',' :: (w2 ++ (d2 ++ ',' :: (w3 ++ (d3 ++ r))))) from rfl]
    rw [h1]
    dsimp only
    rw [if_neg (by decide : ¬(('(' : Char).toUpper = 'A'))]
    dsimp only
    rw [if_pos (by decide : ('(' : Char).toNat = 40)]
    rw [ht1, hdw1, isEmpty_false d1 hd1, if_neg (by decide : ¬(false = true))]
    dsimp only
    rw [if_pos (by decide : (',' : Char).toNat = 44)]
    rw [h5, ht2, hdw2, isEmpty_false d2 hd2, if_neg (by decide : ¬(false = true))]
    dsimp only
    rw [if_pos (by decide : (',' : Char).toNat = 44)]
    rw [h7, ht3, hdw3, isEmpty_false d3 hd3, if_neg (by decide : ¬(false = true))]
    cases hrr : r with
    | nil => rfl
    | cons c r8 =>
      dsimp only
      rw [if_neg (by
        have := hr44 c (by rw [hrr]; rfl)
        simpa using this)]

theorem directHeadAt_eval (hasA : Bool) (d1 w2 d2 w3 d3 r : List Char)
    (hd1 : d1 ≠ []) (hd1a : ∀ c ∈ d1, isDigitCh c = true)
    (hw2 : ∀ c ∈ w2, isWSCh c = true)
    (hd2 : d2 ≠ []) (hd2a : ∀ c ∈ d2, isDigitCh c = true)
    (hw3 : ∀ c ∈ w3, isWSCh c = true)
    (hd3 : d3 ≠ []) (hd3a : ∀ c ∈ d3, isDigitCh c = true)
    (hr : ∀ c, r.head? = some c → isDigitCh c = false) :
    Script.directHeadAt ("rgb".data ++ ((if hasA then ['a'] else []) ++ '(' ::
      (d1 ++ ',' :: (w2 ++ (d2 ++ ',' :: (w3 ++ (d3 ++ r))))))) =
    some (d1, d2, d3) := by
  obtain ⟨ht1, hdw1⟩ := tw_group isDigitCh d1
    (',' :: (w2 ++ (d2 ++ ',' :: (w3 ++ (d3 ++ r))))) hd1a
    (by
      intro c hc
      simp only [List.head?_cons, Option.some_inj] at hc
      rw [← hc]
      decide)
  have h5 : (w2 ++ (d2 ++ ',' :: (w3 ++ (d3 ++ r)))).dropWhile isWSCh =
      d2 ++ ',' :: (w3 ++ (d3 ++ r)) := by
    rw [dw_app _ _ _ hw2]
    exact dw_stop _ _ (head_not_of_all isDigitCh isWSCh d2 _ hd2 hd2a digit_not_ws)
  obtain ⟨ht2, hdw2⟩ := tw_group isDigitCh d2 (',' :: (w3 ++ (d3 ++ r))) hd2a
    (by
      intro c hc
      simp only [List.head?_cons, Option.some_inj] at hc
      rw [← hc]
      decide)
  have h7 : (w3 ++ (d3 ++ r)).dropWhile isWSCh = d3 ++ r := by
    rw [dw_app _ _ _ hw3]
    exact dw_stop _ _ (head_not_of_all isDigitCh isWSCh d3 _ hd3 hd3a digit_not_ws)
  obtain ⟨ht3, hdw3⟩ := tw_group isDigitCh d3 r hd3a hr
  cases hasA with
  | true =>
    have h1 := matchLitCI_self ("rgb".data) ('a' :: '(' ::
      (d1 ++ ',' :: (w2 ++ (d2 ++ ',' :: (w3 ++ (d3 ++ r))))))
    unfold Script.directHeadAt
    rw [show ((if (true : Bool) then ['a'] else []) ++ '(' ::
      (d1 ++ ',' :: (w2 ++ (d2 ++ ',' :: (w3 ++ (d3 ++ r))))) : List Char) = 'a' :: '(' ::
      (d1 ++ ',' :: (w2 ++ (d2 ++ ',' :: (w3 ++ (d3 ++ r))))) from rfl]
    rw [h1]
    dsimp only
    rw [if_pos (by decide : ('a' : Char).toUpper = 'A')]
    dsimp only
    rw [if_pos (by decide : ('(' : Char).toNat = 40)]
    rw [ht1, hdw1, isEmpty_false d1 hd1, if_neg (by decide : ¬(false = true))]
    dsimp only
    rw [if_pos (by decide : (',' : Char).toNat = 44)]
    rw [h5, ht2, hdw2, isEmpty_false d2 hd2, if_neg (by decide : ¬(false = true))]
    dsimp only
    rw [if_pos (by decide : (',' : Char).toNat = 44)]
    rw [h7, ht3, isEmpty_false d3 hd3, if_neg (by decide : ¬(false = true))]
  | false =>
    have h1 := matchLitCI_self ("rgb".data) ('(' ::
      (d1 ++ ',' :: (w2 ++ (d2 ++ ',' :: (w3 ++ (d3 ++ r))))))
    unfold Script.directHeadAt
    rw [show ((if (false : Bool) then ['a'] else []) ++ '(' ::
      (d1 ++ ',' :: (w2 ++ (d2 ++ ',' :: (w3 ++ (d3 ++ r))))) : List Char) = '(' ::
      (d1 ++ ',' :: (w2 ++ (d2 ++ ',' :: (w3 ++ (d3 ++ r))))) from rfl]
    rw [h1]
    dsimp only
    rw [if_neg (by decide : ¬(('(' : Char).toUpper = 'A'))]
    dsimp only
    rw [if_pos (by decide : ('(' : Char).toNat = 40)]
    rw [ht1, hdw1, isEmpty_false d1 hd1, if_neg (by decide : ¬(false = true))]
    dsimp only
    rw [if_pos (by decide : (',' : Char).toNat = 44)]
    rw [h5, ht2, hdw2, isEmpty_false d2 hd2, if_neg (by decide : ¬(false = true))]
    dsimp only
    rw [if_pos (by decide : (',' : Char).toNat = 44)]
    rw [h7, ht3, isEmpty_false d3 hd3, if_neg (by decide : ¬(false = true))]

theorem head_slash_not_dotdigit (w X : List Char) (hw : ∀ c ∈ w, isWSCh c = true) :
    ∀ c, (w ++ '/' :: X).head? = some c → isDotDigitCh c = false := by
  cases w with
  | nil =>
    intro c hc
    simp only [List.nil_append, List.head?_cons, Option.some_inj] at hc
    rw [← hc]
    decide
  | cons b t =>
    intro c hc
    rw [head?_app _ _ (by simp)] at hc
    simp only [List.head?_cons, Option.some_inj] at hc
    rw [← hc]
    exact ws_not_dotdigit b (hw b (List.mem_cons_self b t))

theorem dropWhile_ws_slash (w X : List Char) (hw : ∀ c ∈ w, isWSCh c = true) :
    (w ++ '/' :: X).dropWhile isWSCh = '/' :: X := by
  rw [dw_app _ _ _ hw]
  exact dw_stop _ _ (by
    intro c hc
    simp only [List.head?_cons, Option.some_inj] at hc
    rw [← hc]
    decide)

theorem colorAlphaAt_eval (p3 : Bool) (w1 n1 w2 n2 w3 n3 w4 w5 a r : List Char)
    (hw1n : w1 ≠ []) (hw1 : ∀ c ∈ w1, isWSCh c = true)
    (hn1 : n1 ≠ []) (hn1a : ∀ c ∈ n1, isDotDigitCh c = true)
    (hw2n : w2 ≠ []) (hw2 : ∀ c ∈ w2, isWSCh c = true)
    (hn2 : n2 ≠ []) (hn2a : ∀ c ∈ n2, isDotDigitCh c = true)
    (hw3n : w3 ≠ []) (hw3 : ∀ c ∈ w3, isWSCh c = true)
    (hn3 : n3 ≠ []) (hn3a : ∀ c ∈ n3, isDotDigitCh c = true)
    (hw4 : ∀ c ∈ w4, isWSCh c = true)
    (hw5 : ∀ c ∈ w5, isWSCh c = true)
    (ha : a ≠ []) (haa : ∀ c ∈ a, isDotDigitCh c = true)
    (hr : ∀ c, r.head? = some c → isDotDigitCh c = false) :
    Script.colorAlphaAt ("color(".data ++
      ((if p3 then "display-p3".data else "srgb".data) ++
        (w1 ++ (n1 ++ (w2 ++ (n2 ++ (w3 ++ (n3 ++ (w4 ++ ('/' ::
          (w5 ++ (a ++ r)))))))))))) = some (n1, n2, n3, a) := by
  obtain ⟨htw1, hdw1⟩ := tw_group isWSCh w1
    (n1 ++ (w2 ++ (n2 ++ (w3 ++ (n3 ++ (w4 ++ ('/' :: (w5 ++ (a ++ r))))))))) hw1
    (head_not_of_all isDotDigitCh isWSCh n1 _ hn1 hn1a dotdigit_not_ws)
  obtain ⟨htn1, hdn1⟩ := tw_group isDotDigitCh n1
    (w2 ++ (n2 ++ (w3 ++ (n3 ++ (w4 ++ ('/' :: (w5 ++ (a ++ r)))))))) hn1a
    (head_not_of_all isWSCh isDotDigitCh w2 _ hw2n hw2 ws_not_dotdigit)
  obtain ⟨htw2, hdw2⟩ := tw_group isWSCh w2
    (n2 ++ (w3 ++ (n3 ++ (w4 ++ ('/' :: (w5 ++ (a ++ r))))))) hw2
    (head_not_of_all isDotDigitCh isWSCh n2 _ hn2 hn2a dotdigit_not_ws)
  obtain ⟨htn2, hdn2⟩ := tw_group isDotDigitCh n2
    (w3 ++ (n3 ++ (w4 ++ ('/' :: (w5 ++ (a ++ r)))))) hn2a
    (head_not_of_all isWSCh isDotDigitCh w3 _ hw3n hw3 ws_not_dotdigit)
  obtain ⟨htw3, hdw3⟩ := tw_group isWSCh w3
    (n3 ++ (w4 ++ ('/' :: (w5 ++ (a ++ r))))) hw3
    (head_not_of_all isDotDigitCh isWSCh n3 _ hn3 hn3a dotdigit_not_ws)
  obtain ⟨htn3, hdn3⟩ := tw_group isDotDigitCh n3
    (w4 ++ ('/' :: (w5 ++ (a ++ r)))) hn3a
    (head_slash_not_dotdigit w4 _ hw4)
  have hslash := dropWhile_ws_slash w4 (w5 ++ (a ++ r)) hw4
  have hdw5 : (w5 ++ (a ++ r)).dropWhile isWSCh = a ++ r := by
    rw [dw_app _ _ _ hw5]
    exact dw_stop _ _ (head_not_of_all isDotDigitCh isWSCh a _ ha haa dotdigit_not_ws)
  obtain ⟨hta, _⟩ := tw_group isDotDigitCh a r haa hr
  cases p3 with
  | true =>
    unfold Script.colorAlphaAt
    rw [show ((if (true : Bool) then "display-p3".data else "srgb".data) ++
      (w1 ++ (n1 ++ (w2 ++ (n2 ++ (w3 ++ (n3 ++ (w4 ++ ('/' ::
        (w5 ++ (a ++ r)))))))))) : List Char) = "display-p3".data ++
      (w1 ++ (n1 ++ (w2 ++ (n2 ++ (w3 ++ (n3 ++ (w4 ++ ('/' ::
        (w5 ++ (a ++ r)))))))))) from rfl]
    rw [matchLitCI_self]
    dsimp only
    rw [matchLitCI_self]
    dsimp only
    rw [htw1, isEmpty_false w1 hw1n, if_neg (by decide : ¬(false = true))]
    rw [hdw1, htn1, hdn1, isEmpty_false n1 hn1, if_neg (by decide : ¬(false = true))]
    rw [htw2, isEmpty_false w2 hw2n, if_neg (by decide : ¬(false = true))]
    rw [hdw2, htn2, hdn2, isEmpty_false n2 hn2, if_neg (by decide : ¬(false = true))]
    rw [htw3, isEmpty_false w3 hw3n, if_neg (by decide : ¬(false = true))]
    rw [hdw3, htn3, hdn3, isEmpty_false n3 hn3, if_neg (by decide : ¬(false = true))]
    rw [hslash]
    dsimp only
    rw [if_pos (by decide : ('/' : Char).toNat = 47)]
    rw [hdw5, hta, isEmpty_false a ha, if_neg (by decide : ¬(false = true))]
  | false =>
    unfold Script.colorAlphaAt
    rw [show ((if (false : Bool) then "display-p3".data else "srgb".data) ++
      (w1 ++ (n1 ++ (w2 ++ (n2 ++ (w3 ++ (n3 ++ (w4 ++ ('/' ::
        (w5 ++ (a ++ r)))))))))) : List Char) = "srgb".data ++
      (w1 ++ (n1 ++ (w2 ++ (n2 ++ (w3 ++ (n3 ++ (w4 ++ ('/' ::
        (w5 ++ (a ++ r)))))))))) from rfl]
    rw [matchLitCI_self]
    dsimp only
    have hdnone : Script.matchLitCI ("display-p3".data) ("srgb".data ++
        (w1 ++ (n1 ++ (w2 ++ (n2 ++ (w3 ++ (n3 ++ (w4 ++ ('/' ::
          (w5 ++ (a ++ r))))))))))) = none := by
      rw [show ("srgb".data ++
        (w1 ++ (n1 ++ (w2 ++ (n2 ++ (w3 ++ (n3 ++ (w4 ++ ('/' ::
          (w5 ++ (a ++ r)))))))))) : List Char) = 's' :: ("rgb".data ++
        (w1 ++ (n1 ++ (w2 ++ (n2 ++ (w3 ++ (n3 ++ (w4 ++ ('/' ::
          (w5 ++ (a ++ r))))))))))) from rfl]
      exact matchLitCI_none_head 'd' ("isplay-p3".data) 's' _ (by decide)
    rw [hdnone]
    dsimp only
    rw [matchLitCI_self]
    dsimp only
    rw [htw1, isEmpty_false w1 hw1n, if_neg (by decide : ¬(false = true))]
    rw [hdw1, htn1, hdn1, isEmpty_false n1 hn1, if_neg (by decide : ¬(false = true))]
    rw [htw2, isEmpty_false w2 hw2n, if_neg (by decide : ¬(false = true))]
    rw [hdw2, htn2, hdn2, isEmpty_false n2 hn2, if_neg (by decide : ¬(false = true))]
    rw [htw3, isEmpty_false w3 hw3n, if_neg (by decide : ¬(false = true))]
    rw [hdw3, htn3, hdn3, isEmpty_false n3 hn3, if_neg (by decide : ¬(false = true))]
    rw [hslash]
    dsimp only
    rw [if_pos (by decide : ('/' : Char).toNat = 47)]
    rw [hdw5, hta, isEmpty_false a ha, if_neg (by decide : ¬(false = true))]

theorem colorNoAlphaAt_eval (p3 : Bool) (w1 n1 w2 n2 w3 n3 r : List Char)
    (hw1n : w1 ≠ []) (hw1 : ∀ c ∈ w1, isWSCh c = true)
    (hn1 : n1 ≠ []) (hn1a : ∀ c ∈ n1, isDotDigitCh c = true)
    (hw2n : w2 ≠ []) (hw2 : ∀ c ∈ w2, isWSCh c = true)
    (hn2 : n2 ≠ []) (hn2a : ∀ c ∈ n2, isDotDigitCh c = true)
    (hw3n : w3 ≠ []) (hw3 : ∀ c ∈ w3, isWSCh c = true)
    (hn3 : n3 ≠ []) (hn3a : ∀ c ∈ n3, isDotDigitCh c = true)
    (hr : ∀ c, r.head? = some c → isDotDigitCh c = false) :
    Script.colorNoAlphaAt ("color(".data ++
      ((if p3 then "display-p3".data else "srgb".data) ++
        (w1 ++ (n1 ++ (w2 ++ (n2 ++ (w3 ++ (n3 ++ r)))))))) =
    some (n1, n2, n3) := by
  obtain ⟨htw1, hdw1⟩ := tw_group isWSCh w1
    (n1 ++ (w2 ++ (n2 ++ (w3 ++ (n3 ++ r))))) hw1
    (head_not_of_all isDotDigitCh isWSCh n1 _ hn1 hn1a dotdigit_not_ws)
  obtain ⟨htn1, hdn1⟩ := tw_group isDotDigitCh n1
    (w2 ++ (n2 ++ (w3 ++ (n3 ++ r)))) hn1a
    (head_not_of_all isWSCh isDotDigitCh w2 _ hw2n hw2 ws_not_dotdigit)
  obtain ⟨htw2, hdw2⟩ := tw_group isWSCh w2 (n2 ++ (w3 ++ (n3 ++ r))) hw2
    (head_not_of_all isDotDigitCh isWSCh n2 _ hn2 hn2a dotdigit_not_ws)
  obtain ⟨htn2, hdn2⟩ := tw_group isDotDigitCh n2 (w3 ++ (n3 ++ r)) hn2a
    (head_not_of_all isWSCh isDotDigitCh w3 _ hw3n hw3 ws_not_dotdigit)
  obtain ⟨htw3, hdw3⟩ := tw_group isWSCh w3 (n3 ++ r) hw3
    (head_not_of_all isDotDigitCh isWSCh n3 _ hn3 hn3a dotdigit_not_ws)
  obtain ⟨htn3, hdn3⟩ := tw_group isDotDigitCh n3 r hn3a hr
  cases p3 with
  | true =>
    unfold Script.colorNoAlphaAt
    rw [show ((if (true : Bool) then "display-p3".data else "srgb".data) ++
      (w1 ++ (n1 ++ (w2 ++ (n2 ++ (w3 ++ (n3 ++ r)))))) : List Char) =
      "display-p3".data ++ (w1 ++ (n1 ++ (w2 ++ (n2 ++ (w3 ++ (n3 ++ r))))))
      from rfl]
    rw [matchLitCI_self]
    dsimp only
    rw [matchLitCI_self]
    dsimp only
    rw [htw1, isEmpty_false w1 hw1n, if_neg (by decide : ¬(false = true))]
    rw [hdw1, htn1, hdn1, isEmpty_false n1 hn1, if_neg (by decide : ¬(false = true))]
    rw [htw2, isEmpty_false w2 hw2n, if_neg (by decide : ¬(false = true))]
    rw [hdw2, htn2, hdn2, isEmpty_false n2 hn2, if_neg (by decide : ¬(false = true))]
    rw [htw3, isEmpty_false w3 hw3n, if_neg (by decide : ¬(false = true))]
    rw [hdw3, htn3, isEmpty_false n3 hn3, if_neg (by decide : ¬(false = true))]
  | false =>
    unfold Script.colorNoAlphaAt
    rw [show ((if (false : Bool) then "display-p3".data else "srgb".data) ++
      (w1 ++ (n1 ++ (w2 ++ (n2 ++ (w3 ++ (n3 ++ r)))))) : List Char) =
      "srgb".data ++ (w1 ++ (n1 ++ (w2 ++ (n2 ++ (w3 ++ (n3 ++ r))))))
      from rfl]
    rw [matchLitCI_self]
    dsimp only
    have hdnone : Script.matchLitCI ("display-p3".data) ("srgb".data ++
        (w1 ++ (n1 ++ (w2 ++ (n2 ++ (w3 ++ (n3 ++ r))))))) = none := by
      rw [show ("srgb".data ++
        (w1 ++ (n1 ++ (w2 ++ (n2 ++ (w3 ++ (n3 ++ r)))))) : List Char) =
        's' :: ("rgb".data ++ (w1 ++ (n1 ++ (w2 ++ (n2 ++ (w3 ++ (n3 ++ r)))))))
        from rfl]
      exact matchLitCI_none_head 'd' ("isplay-p3".data) 's' _ (by decide)
    rw [hdnone]
    dsimp only
    rw [matchLitCI_self]
    dsimp only
    rw [htw1, isEmpty_false w1 hw1n, if_neg (by decide : ¬(false = true))]
    rw [hdw1, htn1, hdn1, isEmpty_false n1 hn1, if_neg (by decide : ¬(false = true))]
    rw [htw2, isEmpty_false w2 hw2n, if_neg (by decide : ¬(false = true))]
    rw [hdw2, htn2, hdn2, isEmpty_false n2 hn2, if_neg (by decide : ¬(false = true))]
    rw [htw3, isEmpty_false w3 hw3n, if_neg (by decide : ¬(false = true))]
    rw [hdw3, htn3, isEmpty_false n3 hn3, if_neg (by decide : ¬(false = true))]

theorem colorAlphaAt_fail0 (p3 : Bool) (w1 n1 w2 n2 w3 n3 r : List Char)
    (hw1n : w1 ≠ []) (hw1 : ∀ c ∈ w1, isWSCh c = true)
    (hn1 : n1 ≠ []) (hn1a : ∀ c ∈ n1, isDotDigitCh c = true)
    (hw2n : w2 ≠ []) (hw2 : ∀ c ∈ w2, isWSCh c = true)
    (hn2 : n2 ≠ []) (hn2a : ∀ c ∈ n2, isDotDigitCh c = true)
    (hw3n : w3 ≠ []) (hw3 : ∀ c ∈ w3, isWSCh c = true)
    (hn3 : n3 ≠ []) (hn3a : ∀ c ∈ n3, isDotDigitCh c = true)
    (hr : ∀ c, r.head? = some c → isDotDigitCh c = false)
    (hrs : ∀ c, (r.dropWhile isWSCh).head? = some c → c.toNat ≠ 47) :
    Script.colorAlphaAt ("color(".data ++
      ((if p3 then "display-p3".data else "srgb".data) ++
        (w1 ++ (n1 ++ (w2 ++ (n2 ++ (w3 ++ (n3 ++ r)))))))) = none := by
  obtain ⟨htw1, hdw1⟩ := tw_group isWSCh w1
    (n1 ++ (w2 ++ (n2 ++ (w3 ++ (n3 ++ r))))) hw1
    (head_not_of_all isDotDigitCh isWSCh n1 _ hn1 hn1a dotdigit_not_ws)
  obtain ⟨htn1, hdn1⟩ := tw_group isDotDigitCh n1
    (w2 ++ (n2 ++ (w3 ++ (n3 ++ r)))) hn1a
    (head_not_of_all isWSCh isDotDigitCh w2 _ hw2n hw2 ws_not_dotdigit)
  obtain ⟨htw2, hdw2⟩ := tw_group isWSCh w2 (n2 ++ (w3 ++ (n3 ++ r))) hw2
    (head_not_of_all isDotDigitCh isWSCh n2 _ hn2 hn2a dotdigit_not_ws)
  obtain ⟨htn2, hdn2⟩ := tw_group isDotDigitCh n2 (w3 ++ (n3 ++ r)) hn2a
    (head_not_of_all isWSCh isDotDigitCh w3 _ hw3n hw3 ws_not_dotdigit)
  obtain ⟨htw3, hdw3⟩ := tw_group isWSCh w3 (n3 ++ r) hw3
    (head_not_of_all isDotDigitCh isWSCh n3 _ hn3 hn3a dotdigit_not_ws)
  obtain ⟨htn3, hdn3⟩ := tw_group isDotDigitCh n3 r hn3a hr
  cases p3 with
  | true =>
    unfold Script.colorAlphaAt
    rw [show ((if (true : Bool) then "display-p3".data else "srgb".data) ++
      (w1 ++ (n1 ++ (w2 ++ (n2 ++ (w3 ++ (n3 ++ r)))))) : List Char) =
      "display-p3".data ++ (w1 ++ (n1 ++ (w2 ++ (n2 ++ (w3 ++ (n3 ++ r))))))
      from rfl]
    rw [matchLitCI_self]
    dsimp only
    rw [matchLitCI_self]
    dsimp only
    rw [htw1, isEmpty_false w1 hw1n, if_neg (by decide : ¬(false = true))]
    rw [hdw1, htn1, hdn1, isEmpty_false n1 hn1, if_neg (by decide : ¬(false = true))]
    rw [htw2, isEmpty_false w2 hw2n, if_neg (by decide : ¬(false = true))]
    rw [hdw2, htn2, hdn2, isEmpty_false n2 hn2, if_neg (by decide : ¬(false = true))]
    rw [htw3, isEmpty_false w3 hw3n, if_neg (by decide : ¬(false = true))]
    rw [hdw3, htn3, hdn3, isEmpty_false n3 hn3, if_neg (by decide : ¬(false = true))]
    cases hrr : r.dropWhile isWSCh with
    | nil => rfl
    | cons c r9 =>
      dsimp only
      rw [if_neg (by
        have := hrs c (by rw [hrr]; rfl)
        simpa using this)]
  | false =>
    unfold Script.colorAlphaAt
    rw [show ((if (false : Bool) then "display-p3".data else "srgb".data) ++
      (w1 ++ (n1 ++ (w2 ++ (n2 ++ (w3 ++ (n3 ++ r)))))) : List Char) =
      "srgb".data ++ (w1 ++ (n1 ++ (w2 ++ (n2 ++ (w3 ++ (n3 ++ r))))))
      from rfl]
    rw [matchLitCI_self]
    dsimp only
    have hdnone : Script.matchLitCI ("display-p3".data) ("srgb".data ++
        (w1 ++ (n1 ++ (w2 ++ (n2 ++ (w3 ++ (n3 ++ r))))))) = none := by
      rw [show ("srgb".data ++
        (w1 ++ (n1 ++ (w2 ++ (n2 ++ (w3 ++ (n3 ++ r)))))) : List Char) =
        's' :: ("rgb".data ++ (w1 ++ (n1 ++ (w2 ++ (n2 ++ (w3 ++ (n3 ++ r)))))))
        from rfl]
      exact matchLitCI_none_head 'd' ("isplay-p3".data) 's' _ (by decide)
    rw [hdnone]
    dsimp only
    rw [matchLitCI_self]
    dsimp only
    rw [htw1, isEmpty_false w1 hw1n, if_neg (by decide : ¬(false = true))]
    rw [hdw1, htn1, hdn1, isEmpty_false n1 hn1, if_neg (by decide : ¬(false = true))]
    rw [htw2, isEmpty_false w2 hw2n, if_neg (by decide : ¬(false = true))]
    rw [hdw2, htn2, hdn2, isEmpty_false n2 hn2, if_neg (by decide : ¬(false = true))]
    rw [htw3, isEmpty_false w3 hw3n, if_neg (by decide : ¬(false = true))]
    rw [hdw3, htn3, hdn3, isEmpty_false n3 hn3, if_neg (by decide : ¬(false = true))]
    cases hrr : r.dropWhile isWSCh with
    | nil => rfl
    | cons c r9 =>
      dsimp only
      rw [if_neg (by
        have := hrs c (by rw [hrr]; rfl)
        simpa using this)]

theorem hexTest_mk (body : List Char) (h3 : 3 ≤ body.length) (h8 : body.length ≤ 8)
    (hall : ∀ c ∈ body, isHexDigitCI c = true) :
    Script.hexTest ('#' :: body) = true := by
  show (decide (('#' : Char).toNat = 35) && body.all isHexDigitCI &&
    decide (3 ≤ body.length) && decide (body.length ≤ 8)) = true
  simp only [Bool.and_eq_true, decide_eq_true_eq, List.all_eq_true]
  exact ⟨⟨⟨by decide, hall⟩, h3⟩, h8⟩

theorem upperStr_cons_hash (u : List Char) : upperStr ('#' :: u) = '#' :: upperStr u := by
  unfold upperStr
  rw [List.map_cons, show ('#' : Char).toUpper = '#' from by decide]

theorem hexBranch_fixed (u : List Char) (hfix : upperStr u = u)
    (hlen : u.length = 4 ∨ u.length = 5 ∨ u.length = 6 ∨ u.length = 7) :
    Script.hexBranch ('#' :: u) = '#' :: u := by
  have hu : upperStr ('#' :: u) = '#' :: u := by rw [upperStr_cons_hash, hfix]
  rcases hlen with h | h | h | h
  · unfold Script.hexBranch
    rw [if_neg (by simp [h]), if_neg (by simp [h]), if_neg (by simp [h])]
    exact hu
  · unfold Script.hexBranch
    rw [if_neg (by simp [h]), if_neg (by simp [h]), if_neg (by simp [h])]
    exact hu
  · unfold Script.hexBranch
    rw [if_neg (by simp [h]), if_pos (by simp [h])]
    exact hu
  · unfold Script.hexBranch
    rw [if_neg (by simp [h]), if_neg (by simp [h]), if_neg (by simp [h])]
    exact hu

theorem upperStr_hex (l : List Char) (h : ∀ c ∈ l, isHexDigitCI c = true) :
    ∀ c ∈ upperStr l, isHexDigitCI c = true := by
  intro c hc
  rcases List.mem_map.mp hc with ⟨d, hd, hdc⟩
  rw [← hdc]
  exact toUpper_hexCI d (h d hd)

theorem foldr_double_spec (ds : List Char) :
    (ds.foldr (fun c acc => c :: c :: acc) []).length = 2 * ds.length ∧
    ∀ c ∈ ds.foldr (fun c acc => c :: c :: acc) [], c ∈ ds := by
  induction ds with
  | nil => exact ⟨rfl, by simp⟩
  | cons a t ih =>
    rw [List.foldr_cons]
    refine ⟨?_, ?_⟩
    · simp only [List.length_cons, ih.1, List.length_cons]
      omega
    · intro c hc
      rcases List.mem_cons.mp hc with hc | hc
      · rw [hc]; exact List.mem_cons_self a t
      · rcases List.mem_cons.mp hc with hc | hc
        · rw [hc]; exact List.mem_cons_self a t
        · exact List.mem_cons_of_mem a (ih.2 c hc)

theorem hexify_of_hexTest (canvas : String → Option String) (l : List Char)
    (ht : Script.hexTest l = true) :
    Script.hexify canvas ⟨l⟩ = some ⟨Script.hexBranch l⟩ := by
  have hne : l ≠ [] := by
    intro h
    rw [h] at ht
    exact absurd ht (by decide)
  unfold Script.hexify
  dsimp only
  rw [isEmpty_false l hne, if_neg (by decide : ¬(false = true)), ht,
    if_pos (rfl : (true : Bool) = true)]

theorem hexBranch_stable (ds : List Char) (h3 : 3 ≤ ds.length) (h8 : ds.length ≤ 8)
    (hall : ∀ c ∈ ds, isHexDigitCI c = true) :
    Script.hexTest (Script.hexBranch ('#' :: ds)) = true ∧
    Script.hexBranch (Script.hexBranch ('#' :: ds)) = Script.hexBranch ('#' :: ds) := by
  have hlen : ds.length = 3 ∨ ds.length = 4 ∨ ds.length = 5 ∨ ds.length = 6 ∨
      ds.length = 7 ∨ ds.length = 8 := by omega
  rcases hlen with h | h | h | h | h | h
  · -- #abc → expand and uppercase
    have hb : Script.hexBranch ('#' :: ds) =
        '#' :: upperStr (ds.foldr (fun c acc => c :: c :: acc) []) := by
      unfold Script.hexBranch
      rw [if_pos (by simp [h])]
      rfl
    obtain ⟨hdl, hdm⟩ := foldr_double_spec ds
    have hulen : (upperStr (ds.foldr (fun c acc => c :: c :: acc) [])).length = 6 := by
      unfold upperStr
      rw [List.length_map, hdl, h]
    have huhex := upperStr_hex _ (fun c hc => hall c (hdm c hc))
    have hfix := upperStr_idem (ds.foldr (fun c acc => c :: c :: acc) [])
    rw [hb]
    exact ⟨hexTest_mk _ (by omega) (by omega) huhex,
      hexBranch_fixed _ hfix (by omega)⟩
  · -- length 5 total: unchanged, uppercased
    have hb : Script.hexBranch ('#' :: ds) = '#' :: upperStr ds := by
      unfold Script.hexBranch
      rw [if_neg (by simp [h]), if_neg (by simp [h]), if_neg (by simp [h])]
      exact upperStr_cons_hash ds
    have hulen : (upperStr ds).length = 4 := by
      unfold upperStr
      rw [List.length_map, h]
    rw [hb]
    exact ⟨hexTest_mk _ (by omega) (by omega) (upperStr_hex ds hall),
      hexBranch_fixed _ (upperStr_idem ds) (by omega)⟩
  · have hb : Script.hexBranch ('#' :: ds) = '#' :: upperStr ds := by
      unfold Script.hexBranch
      rw [if_neg (by simp [h]), if_neg (by simp [h]), if_neg (by simp [h])]
      exact upperStr_cons_hash ds
    have hulen : (upperStr ds).length = 5 := by
      unfold upperStr
      rw [List.length_map, h]
    rw [hb]
    exact ⟨hexTest_mk _ (by omega) (by omega) (upperStr_hex ds hall),
      hexBranch_fixed _ (upperStr_idem ds) (by omega)⟩
  · -- #RRGGBB
    have hb : Script.hexBranch ('#' :: ds) = '#' :: upperStr ds := by
      unfold Script.hexBranch
      rw [if_neg (by simp [h]), if_pos (by simp [h])]
      exact upperStr_cons_hash ds
    have hulen : (upperStr ds).length = 6 := by
      unfold upperStr
      rw [List.length_map, h]
    rw [hb]
    exact ⟨hexTest_mk _ (by omega) (by omega) (upperStr_hex ds hall),
      hexBranch_fixed _ (upperStr_idem ds) (by omega)⟩
  · have hb : Script.hexBranch ('#' :: ds) = '#' :: upperStr ds := by
      unfold Script.hexBranch
      rw [if_neg (by simp [h]), if_neg (by simp [h]), if_neg (by simp [h])]
      exact upperStr_cons_hash ds
    have hulen : (upperStr ds).length = 7 := by
      unfold upperStr
      rw [List.length_map, h]
    rw [hb]
    exact ⟨hexTest_mk _ (by omega) (by omega) (upperStr_hex ds hall),
      hexBranch_fixed _ (upperStr_idem ds) (by omega)⟩
  · -- 8 digits: truncate to #RRGGBB
    have hdrop : ('#' :: ds).take 7 = '#' :: ds.take 6 := rfl
    have hb : Script.hexBranch ('#' :: ds) = '#' :: upperStr (ds.take 6) := by
      unfold Script.hexBranch
      rw [if_neg (by simp [h]), if_neg (by simp [h]), if_pos (by simp [h]), hdrop]
      exact upperStr_cons_hash (ds.take 6)
    have htlen : (ds.take 6).length = 6 := by
      rw [List.length_take]
      omega
    have hulen : (upperStr (ds.take 6)).length = 6 := by
      unfold upperStr
      rw [List.length_map, htlen]
    rw [hb]
    refine ⟨hexTest_mk _ (by omega) (by omega)
      (upperStr_hex _ (fun c hc => hall c (List.take_subset 6 ds hc))), ?_⟩
    exact hexBranch_fixed _ (upperStr_idem _) (by omega)

theorem hexOut_stable (canvas : String → Option String) (h1 h2 h3 : List Char)
    (hl1 : h1.length = 2) (hc1 : ∀ c ∈ h1, isHexDigitCI c = true)
    (hl2 : h2.length = 2) (hc2 : ∀ c ∈ h2, isHexDigitCI c = true)
    (hl3 : h3.length = 2) (hc3 : ∀ c ∈ h3, isHexDigitCI c = true) :
    Script.hexify canvas ⟨Script.mkHexOut h1 h2 h3⟩ =
      some ⟨Script.mkHexOut h1 h2 h3⟩ := by
  have hu_len : (upperStr (h1 ++ h2 ++ h3)).length = 6 := by
    unfold upperStr
    rw [List.length_map]
    simp [hl1, hl2, hl3]
  have hu_hex : ∀ c ∈ upperStr (h1 ++ h2 ++ h3), isHexDigitCI c = true := by
    refine upperStr_hex _ (fun c hc => ?_)
    rcases List.mem_append.mp hc with hc | hc
    · rcases List.mem_append.mp hc with hc | hc
      · exact hc1 c hc
      · exact hc2 c hc
    · exact hc3 c hc
  have ht : Script.hexTest ('#' :: upperStr (h1 ++ h2 ++ h3)) = true :=
    hexTest_mk _ (by omega) (by omega) hu_hex
  have hb : Script.hexBranch ('#' :: upperStr (h1 ++ h2 ++ h3)) =
      '#' :: upperStr (h1 ++ h2 ++ h3) :=
    hexBranch_fixed _ (upperStr_idem _) (by omega)
  have hres := hexify_of_hexTest canvas ('#' :: upperStr (h1 ++ h2 ++ h3)) ht
  rw [hb] at hres
  exact hres

theorem hexTest_notHash (c : Char) (cs : List Char) (h : c.toNat ≠ 35) :
    Script.hexTest (c :: cs) = false := by
  unfold Script.hexTest
  simp [h]

theorem singleton_ws : ∀ c ∈ ([' '] : List Char), isWSCh c = true := by
  intro c hc
  rw [List.mem_singleton.mp hc]
  decide

theorem rgbaOut_stable (canvas : String → Option String) (d1 d2 d3 : List Char)
    (q : ℚ) (hq : 0 ≤ q)
    (hd1 : d1 ≠ []) (hd1a : ∀ c ∈ d1, isDigitCh c = true)
    (hd2 : d2 ≠ []) (hd2a : ∀ c ∈ d2, isDigitCh c = true)
    (hd3 : d3 ≠ []) (hd3a : ∀ c ∈ d3, isDigitCh c = true) :
    Script.hexify canvas ⟨Script.mkRgbaOut d1 d2 d3 (toFixed2 q)⟩ =
      some ⟨Script.mkRgbaOut d1 d2 d3 (toFixed2 q)⟩ := by
  obtain ⟨hparse, hstable, htne, htdd, hthd⟩ := toFixed2_spec q hq
  have hshape : Script.mkRgbaOut d1 d2 d3 (toFixed2 q) =
      "rgb".data ++ 'a' :: '(' :: (d1 ++ ',' :: ([' '] ++ (d2 ++ ',' ::
        ([' '] ++ (d3 ++ ',' :: ([' '] ++ (toFixed2 q ++ [')']))))))) := by
    simp only [Script.mkRgbaOut, List.append_assoc]
    rfl
  have hmemC : ∀ c ∈ ("rgb".data ++ 'a' :: '(' :: (d1 ++ ',' :: ([' '] ++ (d2 ++ ',' ::
      ([' '] ++ (d3 ++ ',' :: ([' '] ++ (toFixed2 q ++ [')'])))))))),
      ¬c.toUpper = 'C' := by
    intro c hc
    rw [show ("rgb".data ++ 'a' :: '(' :: (d1 ++ ',' :: ([' '] ++ (d2 ++ ',' ::
      ([' '] ++ (d3 ++ ',' :: ([' '] ++ (toFixed2 q ++ [')']))))))) : List Char) =
      'r' :: 'g' :: 'b' :: 'a' :: '(' :: (d1 ++ ',' :: (' ' :: (d2 ++ ',' ::
      (' ' :: (d3 ++ ',' :: (' ' :: (toFixed2 q ++ [')']))))))) from rfl] at hc
    simp only [List.mem_cons, List.mem_append, List.mem_singleton] at hc
    rcases hc with rfl | rfl | rfl | rfl | rfl | hc
    · decide
    · decide
    · decide
    · decide
    · decide
    rcases hc with hc | hc
    · exact notC_digit c (hd1a c hc)
    rcases hc with rfl | hc
    · decide
    rcases hc with rfl | hc
    · decide
    rcases hc with hc | hc
    · exact notC_digit c (hd2a c hc)
    rcases hc with rfl | hc
    · decide
    rcases hc with rfl | hc
    · decide
    rcases hc with hc | hc
    · exact notC_digit c (hd3a c hc)
    rcases hc with rfl | hc
    · decide
    rcases hc with rfl | hc
    · decide
    rcases hc with hc | hc
    · exact notC_dotdigit c (htdd c hc)
    rcases hc with rfl | hc
    · decide
    · simp at hc
  have hne : ("rgb".data ++ 'a' :: '(' :: (d1 ++ ',' :: ([' '] ++ (d2 ++ ',' ::
      ([' '] ++ (d3 ++ ',' :: ([' '] ++ (toFixed2 q ++ [')'])))))))) ≠ ([] : List Char) := by
    intro h
    have := congrArg List.length h
    simp at this
  have hht : Script.hexTest ("rgb".data ++ 'a' :: '(' :: (d1 ++ ',' :: ([' '] ++ (d2 ++ ',' ::
      ([' '] ++ (d3 ++ ',' :: ([' '] ++ (toFixed2 q ++ [')']))))))))  = false := by
    rw [show ("rgb".data ++ 'a' :: '(' :: (d1 ++ ',' :: ([' '] ++ (d2 ++ ',' ::
      ([' '] ++ (d3 ++ ',' :: ([' '] ++ (toFixed2 q ++ [')']))))))) : List Char) =
      'r' :: ('g' :: 'b' :: 'a' :: '(' :: (d1 ++ ',' :: (' ' :: (d2 ++ ',' ::
      (' ' :: (d3 ++ ',' :: (' ' :: (toFixed2 q ++ [')'])))))))) from rfl]
    exact hexTest_notHash 'r' _ (by decide)
  have heval := rgbaHeadAt_evalA d1 [' '] d2 [' '] d3 [' '] (toFixed2 q) [')']
    hd1 hd1a singleton_ws hd2 hd2a singleton_ws hd3 hd3a singleton_ws
    htne htdd
    (by
      intro c hc
      simp only [List.head?_cons, Option.some_inj] at hc
      rw [← hc]
      decide)
  rw [hshape]
  unfold Script.hexify
  dsimp only
  rw [isEmpty_false _ hne, if_neg (by decide : ¬(false = true))]
  rw [hht, if_neg (by decide : ¬(false = true))]
  rw [scan_colorA_none _ hmemC]
  dsimp only
  rw [scan_colorN_none _ hmemC]
  dsimp only
  rw [heval]
  dsimp only
  rw [hparse]
  rw [show jsToFixed2 (some ((jsRound (q * 100) : ℚ) / 100)) =
    toFixed2 ((jsRound (q * 100) : ℚ) / 100) from rfl]
  rw [hstable, hshape]

theorem chanDec_spec (g : List Char) (q : ℚ) (h : jsParseFloatDD g = some q) :
    Script.chanDec g = natDec (clamp (jsRound (q * 255)) 0 255).toNat ∧
    Script.chanDec g ≠ [] ∧ ∀ c ∈ Script.chanDec g, isDigitCh c = true := by
  have he : Script.chanDec g = intDec (clamp (jsRound (q * 255)) 0 255) := by
    unfold Script.chanDec
    rw [h]
  rw [he, intDec_nonneg _ (clamp_range (jsRound (q * 255))).1]
  exact ⟨rfl, (natDec_spec _).1, (natDec_spec _).2⟩

theorem chanHex_spec (g : List Char) (q : ℚ) (h : jsParseFloatDD g = some q) :
    (Script.chanHex g).length = 2 ∧ ∀ c ∈ Script.chanHex g, isHexDigitCI c = true := by
  have he : Script.chanHex g =
      padStart2 (natHex (clamp (jsRound (q * 255)) 0 255).toNat) := by
    unfold Script.chanHex
    rw [h]
  rw [he]
  exact hexChannel_spec _

theorem intChanHex_spec (d : List Char) :
    (Script.intChanHex d).length = 2 ∧
    ∀ c ∈ Script.intChanHex d, isHexDigitCI c = true := by
  unfold Script.intChanHex
  exact hexChannel_spec _

/-- The claim's domain of valid color inputs, as character-level syntax: a
`#`-prefixed run of 3-8 hex digits; `rgb(`/`rgba(` with three decimal
channels, optionally a numeric alpha, and a tail that does not extend the
match (and, for the forms re-scanned by the unanchored `color()` regexes,
contains no `c`/`C`); and `color(display-p3 ...)` / `color(srgb ...)` with
three numeric channels, with or without `/ alpha`.  Numeric groups are
required to parse (a group like "." is `NaN` in the source and is not a
valid color). -/
inductive ValidColorInput : String → Prop where
  | hex (ds : List Char) (h3 : 3 ≤ ds.length) (h8 : ds.length ≤ 8)
      (hall : ∀ c ∈ ds, isHexDigitCI c = true) :
      ValidColorInput ⟨'#' :: ds⟩
  | rgba (hasA : Bool) (d1 w2 d2 w3 d3 w4 a r : List Char) (q : ℚ)
      (hd1 : d1 ≠ []) (hd1a : ∀ c ∈ d1, isDigitCh c = true)
      (hw2 : ∀ c ∈ w2, isWSCh c = true)
      (hd2 : d2 ≠ []) (hd2a : ∀ c ∈ d2, isDigitCh c = true)
      (hw3 : ∀ c ∈ w3, isWSCh c = true)
      (hd3 : d3 ≠ []) (hd3a : ∀ c ∈ d3, isDigitCh c = true)
      (hw4 : ∀ c ∈ w4, isWSCh c = true)
      (ha : a ≠ []) (haa : ∀ c ∈ a, isDotDigitCh c = true)
      (hq : jsParseFloatDD a = some q)
      (hrd : ∀ c, r.head? = some c → isDotDigitCh c = false)
      (hrC : ∀ c ∈ r, ¬c.toUpper = 'C') :
      ValidColorInput ⟨"rgb".data ++ ((if hasA then ['a'] else []) ++ '(' ::
        (d1 ++ ',' :: (w2 ++ (d2 ++ ',' :: (w3 ++ (d3 ++ ',' ::
          (w4 ++ (a ++ r))))))))⟩
  | rgb (hasA : Bool) (d1 w2 d2 w3 d3 r : List Char)
      (hd1 : d1 ≠ []) (hd1a : ∀ c ∈ d1, isDigitCh c = true)
      (hw2 : ∀ c ∈ w2, isWSCh c = true)
      (hd2 : d2 ≠ []) (hd2a : ∀ c ∈ d2, isDigitCh c = true)
      (hw3 : ∀ c ∈ w3, isWSCh c = true)
      (hd3 : d3 ≠ []) (hd3a : ∀ c ∈ d3, isDigitCh c = true)
      (hrd : ∀ c, r.head? = some c → isDigitCh c = false)
      (hr44 : ∀ c, r.head? = some c → c.toNat ≠ 44)
      (hrC : ∀ c ∈ r, ¬c.toUpper = 'C') :
      ValidColorInput ⟨"rgb".data ++ ((if hasA then ['a'] else []) ++ '(' ::
        (d1 ++ ',' :: (w2 ++ (d2 ++ ',' :: (w3 ++ (d3 ++ r))))))⟩
  | colorA (p3 : Bool) (w1 n1 w2 n2 w3 n3 w4 w5 a r : List Char) (qa : ℚ)
      (hw1n : w1 ≠ []) (hw1 : ∀ c ∈ w1, isWSCh c = true)
      (hn1 : n1 ≠ []) (hn1a : ∀ c ∈ n1, isDotDigitCh c = true)
      (hq1 : ∃ q1, jsParseFloatDD n1 = some q1)
      (hw2n : w2 ≠ []) (hw2 : ∀ c ∈ w2, isWSCh c = true)
      (hn2 : n2 ≠ []) (hn2a : ∀ c ∈ n2, isDotDigitCh c = true)
      (hq2 : ∃ q2, jsParseFloatDD n2 = some q2)
      (hw3n : w3 ≠ []) (hw3 : ∀ c ∈ w3, isWSCh c = true)
      (hn3 : n3 ≠ []) (hn3a : ∀ c ∈ n3, isDotDigitCh c = true)
      (hq3 : ∃ q3, jsParseFloatDD n3 = some q3)
      (hw4 : ∀ c ∈ w4, isWSCh c = true)
      (hw5 : ∀ c ∈ w5, isWSCh c = true)
      (ha : a ≠ []) (haa : ∀ c ∈ a, isDotDigitCh c = true)
      (hqa : jsParseFloatDD a = some qa)
      (hrd : ∀ c, r.head? = some c → isDotDigitCh c = false) :
      ValidColorInput ⟨"color(".data ++
        ((if p3 then "display-p3".data else "srgb".data) ++
          (w1 ++ (n1 ++ (w2 ++ (n2 ++ (w3 ++ (n3 ++ (w4 ++ ('/' ::
            (w5 ++ (a ++ r)))))))))))⟩
  | colorN (p3 : Bool) (w1 n1 w2 n2 w3 n3 r : List Char)
      (hw1n : w1 ≠ []) (hw1 : ∀ c ∈ w1, isWSCh c = true)
      (hn1 : n1 ≠ []) (hn1a : ∀ c ∈ n1, isDotDigitCh c = true)
      (hq1 : ∃ q1, jsParseFloatDD n1 = some q1)
      (hw2n : w2 ≠ []) (hw2 : ∀ c ∈ w2, isWSCh c = true)
      (hn2 : n2 ≠ []) (hn2a : ∀ c ∈ n2, isDotDigitCh c = true)
      (hq2 : ∃ q2, jsParseFloatDD n2 = some q2)
      (hw3n : w3 ≠ []) (hw3 : ∀ c ∈ w3, isWSCh c = true)
      (hn3 : n3 ≠ []) (hn3a : ∀ c ∈ n3, isDotDigitCh c = true)
      (hq3 : ∃ q3, jsParseFloatDD n3 = some q3)
      (hrd : ∀ c, r.head? = some c → isDotDigitCh c = false)
      (hrs : ∀ c, (r.dropWhile isWSCh).head? = some c → c.toNat ≠ 47)
      (hrC : ∀ c ∈ r, ¬c.toUpper = 'C') :
      ValidColorInput ⟨"color(".data ++
        ((if p3 then "display-p3".data else "srgb".data) ++
          (w1 ++ (n1 ++ (w2 ++ (n2 ++ (w3 ++ (n3 ++ r)))))))⟩

theorem c3case_hex (canvas : String → Option String) (ds : List Char)
    (h3 : 3 ≤ ds.length) (h8 : ds.length ≤ 8)
    (hall : ∀ c ∈ ds, isHexDigitCI c = true) :
    ∃ y, Script.hexify canvas ⟨'#' :: ds⟩ = some y ∧
      Script.hexify canvas y = some y := by
  obtain ⟨ht2, hb2⟩ := hexBranch_stable ds h3 h8 hall
  refine ⟨⟨Script.hexBranch ('#' :: ds)⟩,
    hexify_of_hexTest canvas _ (hexTest_mk ds h3 h8 hall), ?_⟩
  have hres := hexify_of_hexTest canvas (Script.hexBranch ('#' :: ds)) ht2
  rw [hb2] at hres
  exact hres

theorem c3case_rgba (canvas : String → Option String) (hasA : Bool)
    (d1 w2 d2 w3 d3 w4 a r : List Char) (q : ℚ)
    (hd1 : d1 ≠ []) (hd1a : ∀ c ∈ d1, isDigitCh c = true)
    (hw2 : ∀ c ∈ w2, isWSCh c = true)
    (hd2 : d2 ≠ []) (hd2a : ∀ c ∈ d2, isDigitCh c = true)
    (hw3 : ∀ c ∈ w3, isWSCh c = true)
    (hd3 : d3 ≠ []) (hd3a : ∀ c ∈ d3, isDigitCh c = true)
    (hw4 : ∀ c ∈ w4, isWSCh c = true)
    (ha : a ≠ []) (haa : ∀ c ∈ a, isDotDigitCh c = true)
    (hq : jsParseFloatDD a = some q)
    (hrd : ∀ c, r.head? = some c → isDotDigitCh c = false)
    (hrC : ∀ c ∈ r, ¬c.toUpper = 'C') :
    ∃ y, Script.hexify canvas ⟨"rgb".data ++ ((if hasA then ['a'] else []) ++ '(' ::
      (d1 ++ ',' :: (w2 ++ (d2 ++ ',' :: (w3 ++ (d3 ++ ',' ::
        (w4 ++ (a ++ r))))))))⟩ = some y ∧
      Script.hexify canvas y = some y := by
  have hq0 : 0 ≤ q := jsParseFloatDD_nonneg a q hq
  refine ⟨⟨Script.mkRgbaOut d1 d2 d3 (toFixed2 q)⟩, ?_,
    rgbaOut_stable canvas d1 d2 d3 q hq0 hd1 hd1a hd2 hd2a hd3 hd3a⟩
  have hmemB : ∀ c, c ∈ d1 ∨ c = ',' ∨ c ∈ w2 ∨ c ∈ d2 ∨ c = ',' ∨ c ∈ w3 ∨
      c ∈ d3 ∨ c = ',' ∨ c ∈ w4 ∨ c ∈ a ∨ c ∈ r → ¬c.toUpper = 'C' := by
    intro c hc
    rcases hc with hc | rfl | hc | hc | rfl | hc | hc | rfl | hc | hc | hc
    · exact notC_digit c (hd1a c hc)
    · decide
    · exact notC_ws c (hw2 c hc)
    · exact notC_digit c (hd2a c hc)
    · decide
    · exact notC_ws c (hw3 c hc)
    · exact notC_digit c (hd3a c hc)
    · decide
    · exact notC_ws c (hw4 c hc)
    · exact notC_dotdigit c (haa c hc)
    · exact hrC c hc
  cases hasA with
  | true =>
    rw [show ((if (true : Bool) then ['a'] else []) ++ '(' ::
      (d1 ++ ',' :: (w2 ++ (d2 ++ ',' :: (w3 ++ (d3 ++ ',' ::
        (w4 ++ (a ++ r))))))) : List Char) = 'a' :: '(' ::
      (d1 ++ ',' :: (w2 ++ (d2 ++ ',' :: (w3 ++ (d3 ++ ',' ::
        (w4 ++ (a ++ r))))))) from rfl]
    have hmemC : ∀ c ∈ ("rgb".data ++ 'a' :: '(' ::
        (d1 ++ ',' :: (w2 ++ (d2 ++ ',' :: (w3 ++ (d3 ++ ',' ::
          (w4 ++ (a ++ r)))))))), ¬c.toUpper = 'C' := by
      intro c hc
      rw [show ("rgb".data ++ 'a' :: '(' ::
        (d1 ++ ',' :: (w2 ++ (d2 ++ ',' :: (w3 ++ (d3 ++ ',' ::
          (w4 ++ (a ++ r))))))) : List Char) = 'r' :: 'g' :: 'b' :: 'a' :: '(' ::
        (d1 ++ ',' :: (w2 ++ (d2 ++ ',' :: (w3 ++ (d3 ++ ',' ::
          (w4 ++ (a ++ r))))))) from rfl] at hc
      simp only [List.mem_cons, List.mem_append] at hc
      rcases hc with rfl | rfl | rfl | rfl | rfl | hc
      · decide
      · decide
      · decide
      · decide
      · decide
      exact hmemB c hc
    have hne : ("rgb".data ++ 'a' :: '(' ::
        (d1 ++ ',' :: (w2 ++ (d2 ++ ',' :: (w3 ++ (d3 ++ ',' ::
          (w4 ++ (a ++ r)))))))) ≠ ([] : List Char) := by
      intro h
      have := congrArg List.length h
      simp at this
    have hht : Script.hexTest ("rgb".data ++ 'a' :: '(' ::
        (d1 ++ ',' :: (w2 ++ (d2 ++ ',' :: (w3 ++ (d3 ++ ',' ::
          (w4 ++ (a ++ r)))))))) = false := by
      rw [show ("rgb".data ++ 'a' :: '(' ::
        (d1 ++ ',' :: (w2 ++ (d2 ++ ',' :: (w3 ++ (d3 ++ ',' ::
          (w4 ++ (a ++ r))))))) : List Char) = 'r' :: ('g' :: 'b' :: 'a' :: '(' ::
        (d1 ++ ',' :: (w2 ++ (d2 ++ ',' :: (w3 ++ (d3 ++ ',' ::
          (w4 ++ (a ++ r)))))))) from rfl]
      exact hexTest_notHash 'r' _ (by decide)
    unfold Script.hexify
    dsimp only
    rw [isEmpty_false _ hne, if_neg (by decide : ¬(false = true))]
    rw [hht, if_neg (by decide : ¬(false = true))]
    rw [scan_colorA_none _ hmemC]
    dsimp only
    rw [scan_colorN_none _ hmemC]
    dsimp only
    rw [rgbaHeadAt_evalA d1 w2 d2 w3 d3 w4 a r hd1 hd1a hw2 hd2 hd2a hw3
      hd3 hd3a hw4 ha haa hrd]
    dsimp only
    rw [hq]
    rw [show jsToFixed2 (some q) = toFixed2 q from rfl]
  | false =>
    rw [show ((if (false : Bool) then ['a'] else []) ++ '(' ::
      (d1 ++ ',' :: (w2 ++ (d2 ++ ',' :: (w3 ++ (d3 ++ ',' ::
        (w4 ++ (a ++ r))))))) : List Char) = '(' ::
      (d1 ++ ',' :: (w2 ++ (d2 ++ ',' :: (w3 ++ (d3 ++ ',' ::
        (w4 ++ (a ++ r))))))) from rfl]
    have hmemC : ∀ c ∈ ("rgb".data ++ '(' ::
        (d1 ++ ',' :: (w2 ++ (d2 ++ ',' :: (w3 ++ (d3 ++ ',' ::
          (w4 ++ (a ++ r)))))))), ¬c.toUpper = 'C' := by
      intro c hc
      rw [show ("rgb".data ++ '(' ::
        (d1 ++ ',' :: (w2 ++ (d2 ++ ',' :: (w3 ++ (d3 ++ ',' ::
          (w4 ++ (a ++ r))))))) : List Char) = 'r' :: 'g' :: 'b' :: '(' ::
        (d1 ++ ',' :: (w2 ++ (d2 ++ ',' :: (w3 ++ (d3 ++ ',' ::
          (w4 ++ (a ++ r))))))) from rfl] at hc
      simp only [List.mem_cons, List.mem_append] at hc
      rcases hc with rfl | rfl | rfl | rfl | hc
      · decide
      · decide
      · decide
      · decide
      exact hmemB c hc
    have hne : ("rgb".data ++ '(' ::
        (d1 ++ ',' :: (w2 ++ (d2 ++ ',' :: (w3 ++ (d3 ++ ',' ::
          (w4 ++ (a ++ r)))))))) ≠ ([] : List Char) := by
      intro h
      have := congrArg List.length h
      simp at this
    have hht : Script.hexTest ("rgb".data ++ '(' ::
        (d1 ++ ',' :: (w2 ++ (d2 ++ ',' :: (w3 ++ (d3 ++ ',' ::
          (w4 ++ (a ++ r)))))))) = false := by
      rw [show ("rgb".data ++ '(' ::
        (d1 ++ ',' :: (w2 ++ (d2 ++ ',' :: (w3 ++ (d3 ++ ',' ::
          (w4 ++ (a ++ r))))))) : List Char) = 'r' :: ('g' :: 'b' :: '(' ::
        (d1 ++ ',' :: (w2 ++ (d2 ++ ',' :: (w3 ++ (d3 ++ ',' ::
          (w4 ++ (a ++ r)))))))) from rfl]
      exact hexTest_notHash 'r' _ (by decide)
    unfold Script.hexify
    dsimp only
    rw [isEmpty_false _ hne, if_neg (by decide : ¬(false = true))]
    rw [hht, if_neg (by decide : ¬(false = true))]
    rw [scan_colorA_none _ hmemC]
    dsimp only
    rw [scan_colorN_none _ hmemC]
    dsimp only
    rw [rgbaHeadAt_evalN d1 w2 d2 w3 d3 w4 a r hd1 hd1a hw2 hd2 hd2a hw3
      hd3 hd3a hw4 ha haa hrd]
    dsimp only
    rw [hq]
    rw [show jsToFixed2 (some q) = toFixed2 q from rfl]

theorem c3case_rgb (canvas : String → Option String) (hasA : Bool)
    (d1 w2 d2 w3 d3 r : List Char)
    (hd1 : d1 ≠ []) (hd1a : ∀ c ∈ d1, isDigitCh c = true)
    (hw2 : ∀ c ∈ w2, isWSCh c = true)
    (hd2 : d2 ≠ []) (hd2a : ∀ c ∈ d2, isDigitCh c = true)
    (hw3 : ∀ c ∈ w3, isWSCh c = true)
    (hd3 : d3 ≠ []) (hd3a : ∀ c ∈ d3, isDigitCh c = true)
    (hrd : ∀ c, r.head? = some c → isDigitCh c = false)
    (hr44 : ∀ c, r.head? = some c → c.toNat ≠ 44)
    (hrC : ∀ c ∈ r, ¬c.toUpper = 'C') :
    ∃ y, Script.hexify canvas ⟨"rgb".data ++ ((if hasA then ['a'] else []) ++ '(' ::
      (d1 ++ ',' :: (w2 ++ (d2 ++ ',' :: (w3 ++ (d3 ++ r))))))⟩ = some y ∧
      Script.hexify canvas y = some y := by
  refine ⟨⟨Script.mkHexOut (Script.intChanHex d1) (Script.intChanHex d2)
      (Script.intChanHex d3)⟩, ?_,
    hexOut_stable canvas _ _ _ (intChanHex_spec d1).1 (intChanHex_spec d1).2
      (intChanHex_spec d2).1 (intChanHex_spec d2).2
      (intChanHex_spec d3).1 (intChanHex_spec d3).2⟩
  have hmemC : ∀ c ∈ ("rgb".data ++ ((if hasA then ['a'] else []) ++ '(' ::
      (d1 ++ ',' :: (w2 ++ (d2 ++ ',' :: (w3 ++ (d3 ++ r))))))),
      ¬c.toUpper = 'C' := by
    intro c hc
    rw [show ("rgb".data ++ ((if hasA then ['a'] else []) ++ '(' ::
      (d1 ++ ',' :: (w2 ++ (d2 ++ ',' :: (w3 ++ (d3 ++ r)))))) : List Char) =
      'r' :: 'g' :: 'b' :: ((if hasA then ['a'] else []) ++ '(' ::
      (d1 ++ ',' :: (w2 ++ (d2 ++ ',' :: (w3 ++ (d3 ++ r)))))) from rfl] at hc
    simp only [List.mem_cons, List.mem_append] at hc
    rcases hc with rfl | rfl | rfl | hc
    · decide
    · decide
    · decide
    rcases hc with hc | hc
    · cases hasA with
      | true =>
        simp only [if_pos, List.mem_singleton] at hc
        rw [hc]
        decide
      | false => simp at hc
    rcases hc with rfl | hc
    · decide
    rcases hc with hc | rfl | hc | hc | rfl | hc | hc | hc
    · exact notC_digit c (hd1a c hc)
    · decide
    · exact notC_ws c (hw2 c hc)
    · exact notC_digit c (hd2a c hc)
    · decide
    · exact notC_ws c (hw3 c hc)
    · exact notC_digit c (hd3a c hc)
    · exact hrC c hc
  have hne : ("rgb".data ++ ((if hasA then ['a'] else []) ++ '(' ::
      (d1 ++ ',' :: (w2 ++ (d2 ++ ',' :: (w3 ++ (d3 ++ r))))))) ≠
      ([] : List Char) := by
    rw [show ("rgb".data ++ ((if hasA then ['a'] else []) ++ '(' ::
      (d1 ++ ',' :: (w2 ++ (d2 ++ ',' :: (w3 ++ (d3 ++ r)))))) : List Char) =
      'r' :: ('g' :: 'b' :: ((if hasA then ['a'] else []) ++ '(' ::
      (d1 ++ ',' :: (w2 ++ (d2 ++ ',' :: (w3 ++ (d3 ++ r))))))) from rfl]
    simp
  have hht : Script.hexTest ("rgb".data ++ ((if hasA then ['a'] else []) ++ '(' ::
      (d1 ++ ',' :: (w2 ++ (d2 ++ ',' :: (w3 ++ (d3 ++ r))))))) = false := by
    rw [show ("rgb".data ++ ((if hasA then ['a'] else []) ++ '(' ::
      (d1 ++ ',' :: (w2 ++ (d2 ++ ',' :: (w3 ++ (d3 ++ r)))))) : List Char) =
      'r' :: ('g' :: 'b' :: ((if hasA then ['a'] else []) ++ '(' ::
      (d1 ++ ',' :: (w2 ++ (d2 ++ ',' :: (w3 ++ (d3 ++ r))))))) from rfl]
    exact hexTest_notHash 'r' _ (by decide)
  unfold Script.hexify
  dsimp only
  rw [isEmpty_false _ hne, if_neg (by decide : ¬(false = true))]
  rw [hht, if_neg (by decide : ¬(false = true))]
  rw [scan_colorA_none _ hmemC]
  dsimp only
  rw [scan_colorN_none _ hmemC]
  dsimp only
  rw [rgbaHeadAt_noComma hasA d1 w2 d2 w3 d3 r hd1 hd1a hw2 hd2 hd2a hw3
    hd3 hd3a hrd hr44]
  dsimp only
  rw [directHeadAt_eval hasA d1 w2 d2 w3 d3 r hd1 hd1a hw2 hd2 hd2a hw3
    hd3 hd3a hrd]

theorem c3case_colorA (canvas : String → Option String) (p3 : Bool)
    (w1 n1 w2 n2 w3 n3 w4 w5 a r : List Char) (qa : ℚ)
    (hw1n : w1 ≠ []) (hw1 : ∀ c ∈ w1, isWSCh c = true)
    (hn1 : n1 ≠ []) (hn1a : ∀ c ∈ n1, isDotDigitCh c = true)
    (hq1 : ∃ q1, jsParseFloatDD n1 = some q1)
    (hw2n : w2 ≠ []) (hw2 : ∀ c ∈ w2, isWSCh c = true)
    (hn2 : n2 ≠ []) (hn2a : ∀ c ∈ n2, isDotDigitCh c = true)
    (hq2 : ∃ q2, jsParseFloatDD n2 = some q2)
    (hw3n : w3 ≠ []) (hw3 : ∀ c ∈ w3, isWSCh c = true)
    (hn3 : n3 ≠ []) (hn3a : ∀ c ∈ n3, isDotDigitCh c = true)
    (hq3 : ∃ q3, jsParseFloatDD n3 = some q3)
    (hw4 : ∀ c ∈ w4, isWSCh c = true)
    (hw5 : ∀ c ∈ w5, isWSCh c = true)
    (ha : a ≠ []) (haa : ∀ c ∈ a, isDotDigitCh c = true)
    (hqa : jsParseFloatDD a = some qa)
    (hrd : ∀ c, r.head? = some c → isDotDigitCh c = false) :
    ∃ y, Script.hexify canvas ⟨"color(".data ++
      ((if p3 then "display-p3".data else "srgb".data) ++
        (w1 ++ (n1 ++ (w2 ++ (n2 ++ (w3 ++ (n3 ++ (w4 ++ ('/' ::
          (w5 ++ (a ++ r)))))))))))⟩ = some y ∧
      Script.hexify canvas y = some y := by
  obtain ⟨q1, hq1⟩ := hq1
  obtain ⟨q2, hq2⟩ := hq2
  obtain ⟨q3, hq3⟩ := hq3
  obtain ⟨hc1e, hc1n, hc1d⟩ := chanDec_spec n1 q1 hq1
  obtain ⟨hc2e, hc2n, hc2d⟩ := chanDec_spec n2 q2 hq2
  obtain ⟨hc3e, hc3n, hc3d⟩ := chanDec_spec n3 q3 hq3
  have hqa0 : 0 ≤ qa := jsParseFloatDD_nonneg a qa hqa
  refine ⟨⟨Script.mkRgbaOut (Script.chanDec n1) (Script.chanDec n2)
      (Script.chanDec n3) (toFixed2 qa)⟩, ?_,
    rgbaOut_stable canvas _ _ _ qa hqa0 hc1n hc1d hc2n hc2d hc3n hc3d⟩
  have hne : ("color(".data ++
      ((if p3 then "display-p3".data else "srgb".data) ++
        (w1 ++ (n1 ++ (w2 ++ (n2 ++ (w3 ++ (n3 ++ (w4 ++ ('/' ::
          (w5 ++ (a ++ r)))))))))))) ≠ ([] : List Char) := by
    rw [show ("color(".data ++
      ((if p3 then "display-p3".data else "srgb".data) ++
        (w1 ++ (n1 ++ (w2 ++ (n2 ++ (w3 ++ (n3 ++ (w4 ++ ('/' ::
          (w5 ++ (a ++ r))))))))))) : List Char) = 'c' :: ("olor(".data ++
      ((if p3 then "display-p3".data else "srgb".data) ++
        (w1 ++ (n1 ++ (w2 ++ (n2 ++ (w3 ++ (n3 ++ (w4 ++ ('/' ::
          (w5 ++ (a ++ r)))))))))))) from rfl]
    simp
  have hht : Script.hexTest ("color(".data ++
      ((if p3 then "display-p3".data else "srgb".data) ++
        (w1 ++ (n1 ++ (w2 ++ (n2 ++ (w3 ++ (n3 ++ (w4 ++ ('/' ::
          (w5 ++ (a ++ r)))))))))))) = false := by
    rw [show ("color(".data ++
      ((if p3 then "display-p3".data else "srgb".data) ++
        (w1 ++ (n1 ++ (w2 ++ (n2 ++ (w3 ++ (n3 ++ (w4 ++ ('/' ::
          (w5 ++ (a ++ r))))))))))) : List Char) = 'c' :: ("olor(".data ++
      ((if p3 then "display-p3".data else "srgb".data) ++
        (w1 ++ (n1 ++ (w2 ++ (n2 ++ (w3 ++ (n3 ++ (w4 ++ ('/' ::
          (w5 ++ (a ++ r)))))))))))) from rfl]
    exact hexTest_notHash 'c' _ (by decide)
  unfold Script.hexify
  dsimp only
  rw [isEmpty_false _ hne, if_neg (by decide : ¬(false = true))]
  rw [hht, if_neg (by decide : ¬(false = true))]
  rw [scanOption_eval_head _ _ _ (colorAlphaAt_eval p3 w1 n1 w2 n2 w3 n3 w4 w5
    a r hw1n hw1 hn1 hn1a hw2n hw2 hn2 hn2a hw3n hw3 hn3 hn3a hw4 hw5 ha haa hrd)]
  dsimp only
  rw [hqa]
  rw [show jsToFixed2 (some qa) = toFixed2 qa from rfl]

theorem c3case_colorN (canvas : String → Option String) (p3 : Bool)
    (w1 n1 w2 n2 w3 n3 r : List Char)
    (hw1n : w1 ≠ []) (hw1 : ∀ c ∈ w1, isWSCh c = true)
    (hn1 : n1 ≠ []) (hn1a : ∀ c ∈ n1, isDotDigitCh c = true)
    (hq1 : ∃ q1, jsParseFloatDD n1 = some q1)
    (hw2n : w2 ≠ []) (hw2 : ∀ c ∈ w2, isWSCh c = true)
    (hn2 : n2 ≠ []) (hn2a : ∀ c ∈ n2, isDotDigitCh c = true)
    (hq2 : ∃ q2, jsParseFloatDD n2 = some q2)
    (hw3n : w3 ≠ []) (hw3 : ∀ c ∈ w3, isWSCh c = true)
    (hn3 : n3 ≠ []) (hn3a : ∀ c ∈ n3, isDotDigitCh c = true)
    (hq3 : ∃ q3, jsParseFloatDD n3 = some q3)
    (hrd : ∀ c, r.head? = some c → isDotDigitCh c = false)
    (hrs : ∀ c, (r.dropWhile isWSCh).head? = some c → c.toNat ≠ 47)
    (hrC : ∀ c ∈ r, ¬c.toUpper = 'C') :
    ∃ y, Script.hexify canvas ⟨"color(".data ++
      ((if p3 then "display-p3".data else "srgb".data) ++
        (w1 ++ (n1 ++ (w2 ++ (n2 ++ (w3 ++ (n3 ++ r)))))))⟩ = some y ∧
      Script.hexify canvas y = some y := by
  obtain ⟨q1, hq1⟩ := hq1
  obtain ⟨q2, hq2⟩ := hq2
  obtain ⟨q3, hq3⟩ := hq3
  obtain ⟨hx1l, hx1d⟩ := chanHex_spec n1 q1 hq1
  obtain ⟨hx2l, hx2d⟩ := chanHex_spec n2 q2 hq2
  obtain ⟨hx3l, hx3d⟩ := chanHex_spec n3 q3 hq3
  refine ⟨⟨Script.mkHexOut (Script.chanHex n1) (Script.chanHex n2)
      (Script.chanHex n3)⟩, ?_,
    hexOut_stable canvas _ _ _ hx1l hx1d hx2l hx2d hx3l hx3d⟩
  have hne : ("color(".data ++
      ((if p3 then "display-p3".data else "srgb".data) ++
        (w1 ++ (n1 ++ (w2 ++ (n2 ++ (w3 ++ (n3 ++ r)))))))) ≠
      ([] : List Char) := by
    rw [show ("color(".data ++
      ((if p3 then "display-p3".data else "srgb".data) ++
        (w1 ++ (n1 ++ (w2 ++ (n2 ++ (w3 ++ (n3 ++ r))))))) : List Char) =
      'c' :: ("olor(".data ++
      ((if p3 then "display-p3".data else "srgb".data) ++
        (w1 ++ (n1 ++ (w2 ++ (n2 ++ (w3 ++ (n3 ++ r)))))))) from rfl]
    simp
  have hht : Script.hexTest ("color(".data ++
      ((if p3 then "display-p3".data else "srgb".data) ++
        (w1 ++ (n1 ++ (w2 ++ (n2 ++ (w3 ++ (n3 ++ r)))))))) = false := by
    rw [show ("color(".data ++
      ((if p3 then "display-p3".data else "srgb".data) ++
        (w1 ++ (n1 ++ (w2 ++ (n2 ++ (w3 ++ (n3 ++ r))))))) : List Char) =
      'c' :: ("olor(".data ++
      ((if p3 then "display-p3".data else "srgb".data) ++
        (w1 ++ (n1 ++ (w2 ++ (n2 ++ (w3 ++ (n3 ++ r)))))))) from rfl]
    exact hexTest_notHash 'c' _ (by decide)
  have hO : ∀ c ∈ "olor(".data, ¬c.toUpper = 'C' := by decide
  have hV : ∀ c ∈ (if p3 then "display-p3".data else "srgb".data),
      ¬c.toUpper = 'C' := by
    cases p3 with
    | true => decide
    | false => decide
  have hscanA : Script.scanOption Script.colorAlphaAt ("color(".data ++
      ((if p3 then "display-p3".data else "srgb".data) ++
        (w1 ++ (n1 ++ (w2 ++ (n2 ++ (w3 ++ (n3 ++ r)))))))) = none := by
    refine scanOption_none _ _ (fun t ht => ?_)
    rw [show ("color(".data ++
      ((if p3 then "display-p3".data else "srgb".data) ++
        (w1 ++ (n1 ++ (w2 ++ (n2 ++ (w3 ++ (n3 ++ r))))))) : List Char) =
      'c' :: ("olor(".data ++
      ((if p3 then "display-p3".data else "srgb".data) ++
        (w1 ++ (n1 ++ (w2 ++ (n2 ++ (w3 ++ (n3 ++ r)))))))) from rfl] at ht
    rcases List.suffix_cons_iff.mp ht with rfl | ht
    · exact colorAlphaAt_fail0 p3 w1 n1 w2 n2 w3 n3 r hw1n hw1 hn1 hn1a hw2n
        hw2 hn2 hn2a hw3n hw3 hn3 hn3a hrd hrs
    · refine colorAlphaAt_none_head t (fun c hc => ?_)
      cases t with
      | nil => simp at hc
      | cons x s =>
        simp only [List.head?_cons, Option.some_inj] at hc
        rw [← hc]
        have hxm : x ∈ ("olor(".data ++
            ((if p3 then "display-p3".data else "srgb".data) ++
              (w1 ++ (n1 ++ (w2 ++ (n2 ++ (w3 ++ (n3 ++ r)))))))) :=
          ht.subset (List.mem_cons_self x s)
        simp only [List.mem_append] at hxm
        rcases hxm with hxm | hxm
        · exact hO x hxm
        rcases hxm with hxm | hxm
        · exact hV x hxm
        rcases hxm with hxm | hxm
        · exact notC_ws x (hw1 x hxm)
        rcases hxm with hxm | hxm
        · exact notC_dotdigit x (hn1a x hxm)
        rcases hxm with hxm | hxm
        · exact notC_ws x (hw2 x hxm)
        rcases hxm with hxm | hxm
        · exact notC_dotdigit x (hn2a x hxm)
        rcases hxm with hxm | hxm
        · exact notC_ws x (hw3 x hxm)
        rcases hxm with hxm | hxm
        · exact notC_dotdigit x (hn3a x hxm)
        · exact hrC x hxm
  unfold Script.hexify
  dsimp only
  rw [isEmpty_false _ hne, if_neg (by decide : ¬(false = true))]
  rw [hht, if_neg (by decide : ¬(false = true))]
  rw [hscanA]
  dsimp only
  rw [scanOption_eval_head _ _ _ (colorNoAlphaAt_eval p3 w1 n1 w2 n2 w3 n3 r
    hw1n hw1 hn1 hn1a hw2n hw2 hn2 hn2a hw3n hw3 hn3 hn3a hrd)]

/-- C3: on every valid hex, rgb(), rgba(), or color() input string, the
in-page `hexify` returns a result (it cannot throw; the embedding is total
and returns `some`), and it is idempotent on its own output: running
`hexify` on the produced value reproduces that value exactly, for every
behavior of the canvas fallback. -/
theorem c3_hexify_idempotent (canvas : String → Option String) (x : String)
    (h : ValidColorInput x) :
    ∃ y, Script.hexify canvas x = some y ∧ Script.hexify canvas y = some y := by
  cases h with
  | hex ds h3 h8 hall => exact c3case_hex canvas ds h3 h8 hall
  | rgba hasA d1 w2 d2 w3 d3 w4 a r q hd1 hd1a hw2 hd2 hd2a hw3 hd3 hd3a hw4
      ha haa hq hrd hrC =>
    exact c3case_rgba canvas hasA d1 w2 d2 w3 d3 w4 a r q hd1 hd1a hw2 hd2
      hd2a hw3 hd3 hd3a hw4 ha haa hq hrd hrC
  | rgb hasA d1 w2 d2 w3 d3 r hd1 hd1a hw2 hd2 hd2a hw3 hd3 hd3a hrd hr44 hrC =>
    exact c3case_rgb canvas hasA d1 w2 d2 w3 d3 r hd1 hd1a hw2 hd2 hd2a hw3
      hd3 hd3a hrd hr44 hrC
  | colorA p3 w1 n1 w2 n2 w3 n3 w4 w5 a r qa hw1n hw1 hn1 hn1a hq1 hw2n hw2
      hn2 hn2a hq2 hw3n hw3 hn3 hn3a hq3 hw4 hw5 ha haa hqa hrd =>
    exact c3case_colorA canvas p3 w1 n1 w2 n2 w3 n3 w4 w5 a r qa hw1n hw1 hn1
      hn1a hq1 hw2n hw2 hn2 hn2a hq2 hw3n hw3 hn3 hn3a hq3 hw4 hw5 ha haa
      hqa hrd
  | colorN p3 w1 n1 w2 n2 w3 n3 r hw1n hw1 hn1 hn1a hq1 hw2n hw2 hn2 hn2a hq2
      hw3n hw3 hn3 hn3a hq3 hrd hrs hrC =>
    exact c3case_colorN canvas p3 w1 n1 w2 n2 w3 n3 r hw1n hw1 hn1 hn1a hq1
      hw2n hw2 hn2 hn2a hq2 hw3n hw3 hn3 hn3a hq3 hrd hrs hrC

/-- Witness for C3 at the concrete input "rgb(12, 34, 56)". -/
theorem c3_witness :
    ∃ y, Script.hexify (fun _ => none) ("rgb(12, 34, 56)") = some y ∧
      Script.hexify (fun _ => none) y = some y :=
  c3_hexify_idempotent (fun _ => none) ("rgb(12, 34, 56)")
    (ValidColorInput.rgb false (['1', '2']) ([' ']) (['3', '4']) ([' '])
      (['5', '6']) ([')'])
      (by decide) (by decide) (by decide) (by decide) (by decide) (by decide)
      (by decide) (by decide)
      (by
        intro c hc
        simp only [List.head?_cons, Option.some_inj] at hc
        rw [← hc]
        decide)
      (by
        intro c hc
        simp only [List.head?_cons, Option.some_inj] at hc
        rw [← hc]
        decide)
      (by decide))

end Claims

end C3sec
